import Mathlib

/-!
Verification of the `modality-defmt-plugins` core against its specification.

The development shallowly embeds the Rust sources:

* `src/event_record.rs`  — `EventRecord`, `Timestamp`, frame-to-record conversion;
* `src/context_manager.rs` — `ContextManager`, `TimelineMeta`, `process_record`;
* `src/client.rs`        — attribute-key interning maps of the ingest dispatcher;
* `src/defmt_reader.rs`  — assembly of the common timeline attributes.

Rust `BTreeMap<K, V>` values are modeled as association lists with a
replace-or-append insert; the spec states that key iteration order is
irrelevant to correctness, so only the map semantics (get / insert / remove)
matter.  Machine integers are modeled as `Nat` / `Int` with explicit
saturation (`u64` / `u128` counters) and wrapping (`i64` nonces).
-/

/-- `u64::MAX`. -/
def u64Max : Nat := 2 ^ 64 - 1

/-- `u128::MAX`. -/
def u128Max : Nat := 2 ^ 128 - 1

/-- `x.saturating_add(1)` on `u64`. -/
def satAdd64 (x : Nat) : Nat := min (x + 1) u64Max

/-- `x.saturating_add(1)` on `u128`. -/
def satAdd128 (x : Nat) : Nat := min (x + 1) u128Max

/-- Wrap an unbounded integer into the `i64` range `[-2^63, 2^63)`,
i.e. the value whose 64-bit two's complement pattern agrees modulo `2^64`. -/
def wrapI64 (x : Int) : Int := (x + 2 ^ 63) % 2 ^ 64 - 2 ^ 63

/-- `v as u16` on an `i64` value: truncation to the low 16 bits. -/
def truncU16 (v : Int) : Nat := (v % 2 ^ 16).toNat

/-- `v as u64` on an `i64` / `i128` value: truncation to the low 64 bits. -/
def truncU64 (v : Int) : Nat := (v % 2 ^ 64).toNat

/-- `modality_api::AttrVal` (the variants used by this plugin).  Floats are
carried as their IEEE-754 bit patterns, which keeps equality decidable; no
modeled code path computes with float payloads. -/
inductive AttrVal where
  | timelineId (v : Nat)
  | string (v : String)
  | integer (v : Int)
  | bigInt (v : Int)
  | float (bits : Nat)
  | bool (v : Bool)
  | timestamp (ns : Nat)
deriving DecidableEq, Repr

/-- `impl From<u64> for AttrVal` from `modality_api`: values that fit `i64`
become `Integer`, larger ones become `BigInt`. -/
def attrValOfU64 (v : Nat) : AttrVal :=
  if v ≤ 2 ^ 63 - 1 then AttrVal.integer (Int.ofNat v) else AttrVal.bigInt (Int.ofNat v)

/-- Association-list map (model of `BTreeMap`).  Generic in the key type. -/
def mapGet {α β : Type} [DecidableEq α] (m : List (α × β)) (k : α) : Option β :=
  match m with
  | [] => none
  | (k₁, v₁) :: rest => if k₁ = k then some v₁ else mapGet rest k

/-- `BTreeMap::insert`: replace the entry with key `k` if present, else append. -/
def mapInsert {α β : Type} [DecidableEq α] (m : List (α × β)) (k : α) (v : β) :
    List (α × β) :=
  match m with
  | [] => [(k, v)]
  | (k₁, v₁) :: rest =>
    if k₁ = k then (k, v) :: rest else (k₁, v₁) :: mapInsert rest k v

/-- `BTreeMap::remove`: drop the (unique) entry with key `k`. -/
def mapRemove {α β : Type} [DecidableEq α] (m : List (α × β)) (k : α) :
    List (α × β) :=
  match m with
  | [] => []
  | (k₁, v₁) :: rest =>
    if k₁ = k then rest else (k₁, v₁) :: mapRemove rest k

/-- The keys of an association-list map. -/
def mapKeys {α β : Type} (m : List (α × β)) : List α := m.map Prod.fst

theorem mapGet_insert_self {α β : Type} [DecidableEq α] (m : List (α × β)) (k : α) (v : β) :
    mapGet (mapInsert m k v) k = some v := by
  induction m with
  | nil => simp [mapInsert, mapGet]
  | cons hd tl ih =>
    obtain ⟨k₁, v₁⟩ := hd
    by_cases h : k₁ = k <;> simp [mapInsert, mapGet, h, ih]

theorem mapGet_insert_ne {α β : Type} [DecidableEq α] (m : List (α × β)) (k k₂ : α) (v : β)
    (h : k₂ ≠ k) : mapGet (mapInsert m k v) k₂ = mapGet m k₂ := by
  induction m with
  | nil =>
    simp only [mapInsert, mapGet]
    exact if_neg (fun h₁ => h h₁.symm)
  | cons hd tl ih =>
    obtain ⟨k₁, v₁⟩ := hd
    by_cases h₁ : k₁ = k
    · subst h₁
      simp only [mapInsert, if_pos rfl, mapGet]
      rw [if_neg (fun h₂ : k₁ = k₂ => h h₂.symm), if_neg (fun h₂ : k₁ = k₂ => h h₂.symm)]
    · simp only [mapInsert, if_neg h₁, mapGet]
      by_cases h₂ : k₁ = k₂
      · rw [if_pos h₂, if_pos h₂]
      · rw [if_neg h₂, if_neg h₂, ih]

theorem mapGet_remove_ne {α β : Type} [DecidableEq α] (m : List (α × β)) (k k₂ : α)
    (h : k₂ ≠ k) : mapGet (mapRemove m k) k₂ = mapGet m k₂ := by
  induction m with
  | nil => simp [mapRemove]
  | cons hd tl ih =>
    obtain ⟨k₁, v₁⟩ := hd
    by_cases h₁ : k₁ = k
    · subst h₁
      simp only [mapRemove, if_true, eq_self_iff_true, mapGet]
      rw [if_neg (fun h₂ : k₁ = k₂ => h h₂.symm)]
    · simp only [mapRemove, if_neg h₁, mapGet]
      by_cases h₂ : k₁ = k₂
      · rw [if_pos h₂, if_pos h₂]
      · rw [if_neg h₂, if_neg h₂, ih]

theorem mapGet_eq_none_of_not_mem_keys {α β : Type} [DecidableEq α] (m : List (α × β)) (k : α)
    (h : k ∉ mapKeys m) : mapGet m k = none := by
  induction m with
  | nil => simp [mapGet]
  | cons hd tl ih =>
    obtain ⟨k₁, v₁⟩ := hd
    simp only [mapKeys, List.map_cons, List.mem_cons, not_or] at h
    simp only [mapGet, if_neg (fun h₁ : k₁ = k => h.1 h₁.symm)]
    exact ih h.2

theorem mapGet_remove_self {α β : Type} [DecidableEq α] (m : List (α × β)) (k : α)
    (hnd : (mapKeys m).Nodup) : mapGet (mapRemove m k) k = none := by
  induction m with
  | nil => simp [mapRemove, mapGet]
  | cons hd tl ih =>
    obtain ⟨k₁, v₁⟩ := hd
    simp only [mapKeys, List.map_cons, List.nodup_cons] at hnd
    by_cases h₁ : k₁ = k
    · subst h₁
      simp only [mapRemove, if_pos rfl]
      exact mapGet_eq_none_of_not_mem_keys tl k₁ hnd.1
    · simp only [mapRemove, if_neg h₁, mapGet, if_neg h₁]
      exact ih hnd.2

theorem mem_mapKeys_insert {α β : Type} [DecidableEq α] (m : List (α × β)) (k x : α) (v : β)
    (h : x ∈ mapKeys (mapInsert m k v)) : x = k ∨ x ∈ mapKeys m := by
  induction m with
  | nil => simpa [mapInsert, mapKeys] using h
  | cons hd tl ih =>
    obtain ⟨k₁, v₁⟩ := hd
    by_cases h₁ : k₁ = k
    · subst h₁
      simp only [mapInsert, if_true, eq_self_iff_true, mapKeys, List.map_cons,
        List.mem_cons] at h ⊢
      tauto
    · simp only [mapInsert, if_neg h₁, mapKeys, List.map_cons, List.mem_cons] at h ⊢
      rcases h with h | h
      · tauto
      · rcases ih h with h₂ | h₂ <;> tauto

theorem mapKeys_insert_nodup {α β : Type} [DecidableEq α] (m : List (α × β)) (k : α) (v : β)
    (hnd : (mapKeys m).Nodup) : (mapKeys (mapInsert m k v)).Nodup := by
  induction m with
  | nil => simp [mapInsert, mapKeys]
  | cons hd tl ih =>
    obtain ⟨k₁, v₁⟩ := hd
    simp only [mapKeys, List.map_cons, List.nodup_cons] at hnd
    by_cases h₁ : k₁ = k
    · subst h₁
      simp only [mapInsert, if_true, eq_self_iff_true, mapKeys, List.map_cons,
        List.nodup_cons]
      exact hnd
    · have htl := ih hnd.2
      simp only [mapInsert, if_neg h₁, mapKeys, List.map_cons, List.nodup_cons]
      refine ⟨fun hmem => ?_, htl⟩
      rcases mem_mapKeys_insert tl k k₁ v hmem with h | h
      · exact h₁ h
      · exact hnd.1 h

/-- Every key of the map satisfies `p`. -/
def mapKeysAll {α β : Type} (m : List (α × β)) (p : α → Prop) : Prop :=
  ∀ kv ∈ m, p kv.1

theorem mapKeysAll_insert {α β : Type} [DecidableEq α] (m : List (α × β)) (k : α) (v : β)
    {p : α → Prop} (hm : mapKeysAll m p) (hk : p k) : mapKeysAll (mapInsert m k v) p := by
  induction m with
  | nil =>
    intro kv hkv
    simp only [mapInsert, List.mem_singleton] at hkv
    simp [hkv, hk]
  | cons hd tl ih =>
    obtain ⟨k₁, v₁⟩ := hd
    have h₁ : p k₁ := hm (k₁, v₁) (by simp)
    have htl : mapKeysAll tl p := fun kv hkv => hm kv (List.mem_cons_of_mem _ hkv)
    intro kv hkv
    by_cases h₂ : k₁ = k
    · simp only [mapInsert, if_pos h₂, List.mem_cons] at hkv
      rcases hkv with h | h
      · simp [h, hk]
      · exact htl kv h
    · simp only [mapInsert, if_neg h₂, List.mem_cons] at hkv
      rcases hkv with h | h
      · simp [h, h₁]
      · exact ih htl kv h

/-! ## EventRecord (src/event_record.rs) -/

/-- `EventAttributes = BTreeMap<String, AttrVal>`. -/
abbrev EventAttributes := List (String × AttrVal)

/-- `EventRecord`: an attribute bag. -/
structure EventRecord where
  attributes : EventAttributes
deriving DecidableEq, Repr

namespace EventRecord

/-- `EventRecord::attr_key`: prepend `"event."`. -/
def attr_key (k : String) : String := "event." ++ k

/-- `EventRecord::internal_attr_key`: prepend `"event.internal.defmt."`. -/
def internal_attr_key (k : String) : String := "event.internal.defmt." ++ k

/-- `EventRecord::new`. -/
def new (attributes : EventAttributes) : EventRecord := ⟨attributes⟩

/-- `EventRecord::insert_attr`. -/
def insert_attr (r : EventRecord) (k : String) (v : AttrVal) : EventRecord :=
  ⟨mapInsert r.attributes k v⟩

/-- `EventRecord::add_interaction`. -/
def add_interaction (r : EventRecord) (interactions_enabled : Bool)
    (remote_tid : Nat) (remote_nonce : Int) : EventRecord :=
  let rem_tid :=
    if interactions_enabled then attr_key "interaction.remote_timeline_id"
    else internal_attr_key "interaction.remote_timeline_id"
  let rem_nonce :=
    if interactions_enabled then attr_key "interaction.remote_nonce"
    else internal_attr_key "interaction.remote_nonce"
  ⟨mapInsert (mapInsert r.attributes rem_tid (AttrVal.timelineId remote_tid))
      rem_nonce (AttrVal.integer remote_nonce)⟩

/-- `EventRecord::add_internal_nonce`. -/
def add_internal_nonce (r : EventRecord) (nonce : Int) : EventRecord :=
  r.insert_attr (internal_attr_key "nonce") (AttrVal.integer nonce)

/-- `EventRecord::promote_internal_nonce`: move `event.internal.defmt.nonce`
to `event.nonce` when present. -/
def promote_internal_nonce (r : EventRecord) : EventRecord :=
  match mapGet r.attributes "event.internal.defmt.nonce" with
  | some nonce =>
    ⟨mapInsert (mapRemove r.attributes "event.internal.defmt.nonce") (attr_key "nonce") nonce⟩
  | none => r

/-- `EventRecord::event_name`. -/
def event_name (r : EventRecord) : Option String :=
  match mapGet r.attributes "event.name" with
  | some (AttrVal.string s) => some s
  | _ => none

/-- `EventRecord::task_name`. -/
def task_name (r : EventRecord) : Option String :=
  match mapGet r.attributes "event.task" with
  | some (AttrVal.string s) => some s
  | _ => none

/-- `EventRecord::isr_name`. -/
def isr_name (r : EventRecord) : Option String :=
  match mapGet r.attributes "event.isr" with
  | some (AttrVal.string s) => some s
  | _ => none

/-- `EventRecord::integration_version` (`*version as u16`). -/
def integration_version (r : EventRecord) : Option Nat :=
  match mapGet r.attributes "event.version" with
  | some (AttrVal.integer v) => some (truncU16 v)
  | _ => none

/-- `EventRecord::timestamp_raw` (`u64`-truncating). -/
def timestamp_raw (r : EventRecord) : Option Nat :=
  match mapGet r.attributes "event.internal.defmt.timestamp" with
  | some (AttrVal.bigInt v) => some (truncU64 v)
  | some (AttrVal.integer v) => some (truncU64 v)
  | _ => none

/-- `EventRecord::internal_nonce` (test helper in the source). -/
def internal_nonce (r : EventRecord) : Option Int :=
  match mapGet r.attributes "event.internal.defmt.nonce" with
  | some (AttrVal.integer n) => some n
  | _ => none

end EventRecord

/-! ## Ingest dispatcher attribute-key interning (src/client.rs) -/

/-- `normalize_timeline_key`. -/
def normalize_timeline_key (s : String) : String :=
  if s.startsWith "timeline." then s else "timeline." ++ s

/-- `normalize_event_key`. -/
def normalize_event_key (s : String) : String :=
  if s.startsWith "event." then s else "event." ++ s

/-- `Client` (src/client.rs): the two interning maps.  `next_interned_key`
models the ingest service side of `declare_attr_key`, which returns a fresh
interned identifier for every declaration. -/
structure Client where
  timeline_keys : List (String × Nat)
  event_keys : List (String × Nat)
  next_interned_key : Nat
deriving DecidableEq, Repr

/-- One key of the interning loop of `Client::send_event` (src/client.rs,
lines 53-61), exactly as the source is written: the cache lookup consults
`timeline_keys`, while the insertion goes to `event_keys`. -/
def Client.send_event_intern_key (c : Client) (k : String) : Nat × Client :=
  let key := normalize_event_key k
  match mapGet c.timeline_keys key with
  | some ik => (ik, c)
  | none =>
    let ik := c.next_interned_key
    (ik, { c with event_keys := mapInsert c.event_keys key ik,
                  next_interned_key := c.next_interned_key + 1 })

/-- Modelled from the spec: the intended interning loop of
`Client::send_event` per §4.5 and the §9 note "event-key interning must
consult only the event-key map"; identical to
`Client.send_event_intern_key` except that the cache lookup consults
`event_keys`. -/
def Client.send_event_intern_key_intended (c : Client) (k : String) : Nat × Client :=
  let key := normalize_event_key k
  match mapGet c.event_keys key with
  | some ik => (ik, c)
  | none =>
    let ik := c.next_interned_key
    (ik, { c with event_keys := mapInsert c.event_keys key ik,
                  next_interned_key := c.next_interned_key + 1 })

/-- One key of the interning loop of `Client::switch_timeline`
(src/client.rs, lines 31-39): lookup and insertion both use
`timeline_keys`. -/
def Client.switch_timeline_intern_key (c : Client) (k : String) : Nat × Client :=
  let key := normalize_timeline_key k
  match mapGet c.timeline_keys key with
  | some ik => (ik, c)
  | none =>
    let ik := c.next_interned_key
    (ik, { c with timeline_keys := mapInsert c.timeline_keys key ik,
                  next_interned_key := c.next_interned_key + 1 })

/-- `Client::send_event` interning over a whole attribute-key list. -/
def Client.send_event_intern (c : Client) : List String → List Nat × Client
  | [] => ([], c)
  | k :: rest =>
    let p := c.send_event_intern_key k
    let q := p.2.send_event_intern rest
    (p.1 :: q.1, q.2)

/-- `Client::switch_timeline` interning over a whole attribute-key list. -/
def Client.switch_timeline_intern (c : Client) : List String → List Nat × Client
  | [] => ([], c)
  | k :: rest =>
    let p := c.switch_timeline_intern_key k
    let q := p.2.switch_timeline_intern rest
    (p.1 :: q.1, q.2)

/-! ## Frame decoding pipeline (src/event_record.rs) -/

/-- `defmt_decoder::Arg` (external decoder output).  Floats are carried as
bit patterns; `Format`'s format string is dropped (the source never reads
it). -/
inductive Arg where
  | bool (v : Bool)
  | f32 (bits : Nat)
  | f64 (bits : Nat)
  | uxx (v : Nat)
  | ixx (v : Int)
  | str (v : String)
  | istr (v : String)
  | char (v : Char)
  | preformatted (v : String)
  | format (args : List Arg)
  | formatSlice
  | formatSequence
  | slice (bytes : List Nat)
deriving Repr

/-- Split a character list at the first occurrence of `sep` (helper for the
Rust string functions below; implemented on `List Char` so that it reduces
inside the kernel). -/
def splitOnceList (s sep : List Char) : Option (List Char × List Char) :=
  match s with
  | [] => if sep.isPrefixOf ([] : List Char) then some ([], []) else none
  | c :: rest =>
    if sep.isPrefixOf (c :: rest) then some ([], (c :: rest).drop sep.length)
    else
      match splitOnceList rest sep with
      | some pr => some (c :: pr.1, pr.2)
      | none => none

/-- Rust `str::split_once`: split at the first occurrence of `sep`. -/
def splitOnceStr (s sep : String) : Option (String × String) :=
  (splitOnceList s.data sep.data).map (fun p => (⟨p.1⟩, ⟨p.2⟩))

/-- Rust `str::rsplit_once`: split at the last occurrence of `sep` (the last
occurrence in `s` is the first occurrence of the reversed pattern in the
reversed text). -/
def rsplitOnceStr (s sep : String) : Option (String × String) :=
  (splitOnceList s.data.reverse sep.data.reverse).map
    (fun p => (⟨p.2.reverse⟩, ⟨p.1.reverse⟩))

/-- Rust `str::split(sep)` for a one-character separator; keeps empty
pieces, like the original. -/
def splitChar (s : String) (sep : Char) : List String :=
  (s.data.foldr
    (fun c acc =>
      match acc with
      | [] => [[c]]
      | hd :: tl => if c = sep then [] :: hd :: tl else (c :: hd) :: tl)
    [[]]).map (fun l => (⟨l⟩ : String))

/-- Rust `str::trim` (whitespace at both ends). -/
def strTrim (s : String) : String :=
  ⟨((s.data.dropWhile Char.isWhitespace).reverse.dropWhile Char.isWhitespace).reverse⟩

/-- Rust `str::replace` for a one-character pattern and replacement. -/
def replaceChar (s : String) (c r : Char) : String :=
  ⟨s.data.map (fun x => if x = c then r else x)⟩

/-- Rust `str::to_lowercase` (the inputs are ASCII `Debug` renderings). -/
def toLowerStr (s : String) : String :=
  ⟨s.data.map Char.toLower⟩

/-- Rust `str::trim_end_matches` for a one-character pattern. -/
def dropTrailing (s : String) (c : Char) : String :=
  ⟨(s.data.reverse.dropWhile (fun x => x = c)).reverse⟩

/-- Rust `str::trim_start_matches` for a one-character pattern. -/
def dropLeading (s : String) (c : Char) : String :=
  ⟨s.data.dropWhile (fun x => x = c)⟩

/-- `u128 as i128`: two's-complement reinterpretation. -/
def castI128ofU128 (v : Nat) : Int :=
  if v < 2 ^ 127 then (v : Int) else (v : Int) - 2 ^ 128

/-- `i128::from_le_bytes` over a 16-byte little-endian list,
via `uuid_to_integer_attr_val` (src/event_record.rs line 432). -/
def uuid_to_integer_attr_val (bytes : List Nat) : AttrVal :=
  AttrVal.integer (castI128ofU128 (bytes.foldr (fun b acc => acc * 256 + b) 0))

/-- `arg_to_attr_val` (src/event_record.rs lines 280-304). -/
def arg_to_attr_val : Arg → Option AttrVal
  | .bool v => some (AttrVal.bool v)
  | .f32 bits => some (AttrVal.float bits)
  | .f64 bits => some (AttrVal.float bits)
  | .uxx v => some (AttrVal.bigInt (castI128ofU128 v))
  | .ixx v => some (AttrVal.bigInt v)
  | .str v => some (AttrVal.string (replaceChar v (Char.ofNat 10) (Char.ofNat 32)))
  | .istr v => some (AttrVal.string (replaceChar v (Char.ofNat 10) (Char.ofNat 32)))
  | .char v => some (AttrVal.string (String.singleton v))
  | .preformatted v => some (AttrVal.string (replaceChar v (Char.ofNat 10) (Char.ofNat 32)))
  | .format [a] => arg_to_attr_val a
  | .format _ => none
  | .formatSlice => none
  | .formatSequence => none
  | .slice _ => none

/-- `ts_from_arg` (src/event_record.rs lines 399-405): `u64::try_from`. -/
def ts_from_arg : Arg → Option Nat
  | .uxx v => if v ≤ u64Max then some v else none
  | .ixx v => if 0 ≤ v ∧ v ≤ (u64Max : Int) then some v.toNat else none
  | _ => none

/-- `Timestamp` (src/event_record.rs lines 328-334). -/
inductive Timestamp where
  | micros (v : Nat)
  | millis (v : Nat)
  | seconds (v : Nat)
  | ticks (v : Nat)
deriving DecidableEq, Repr

/-- The unit-hint extraction of `Timestamp::from_frame`
(src/event_record.rs lines 353-356):
`fmt.trim_end_matches(rbrace).rsplit_once(colon).map(|(_, rhs)| rhs)`. -/
def ts_fmt_hint (fmt : String) : Option String :=
  (rsplitOnceStr (dropTrailing fmt (Char.ofNat 125)) ":").map Prod.snd

/-- `defmt_parser::Fragment` (external parser output): literal text or a
typed parameter.  `ty` carries the `Debug` rendering of the defmt type tag. -/
inductive Fragment where
  | literal (s : String)
  | parameter (index : Nat) (ty : String)
deriving Repr

/-- A decoded `defmt_decoder::Frame`, with the outputs of the external
parser (`fragments` = `defmt_parser::parse(f.format())`) and formatter
(`formatted` = `f.format_args(f.format(), f.args(), None)`) attached as
fields, since both are external collaborators of the record builder. -/
structure Frame where
  index : Nat
  fragments : List Fragment
  level : Option String
  tsFormat : Option String
  tsArgs : List Arg
  args : List Arg
  formatted : String

/-- `Timestamp::from_frame` (src/event_record.rs lines 337-368). -/
def Timestamp.from_frame (f : Frame) : Option Timestamp :=
  match f.tsFormat with
  | none => none
  | some fmt =>
    match f.tsArgs with
    | [a] =>
      match ts_from_arg a with
      | none => none
      | some ts =>
        match ts_fmt_hint fmt with
        | some h =>
          if h = "us" ∨ h = "tus" then some (Timestamp.micros ts)
          else if h = "ms" ∨ h = "tms" then some (Timestamp.millis ts)
          else if h = "ts" then some (Timestamp.seconds ts)
          else none
        | none => some (Timestamp.ticks ts)
    | _ => none

/-- `Timestamp::as_u64`. -/
def Timestamp.as_u64 : Timestamp → Nat
  | .micros v => v
  | .millis v => v
  | .seconds v => v
  | .ticks v => v

/-- `u64::checked_mul`. -/
def checkedMul (a b : Nat) : Option Nat :=
  if a * b ≤ u64Max then some (a * b) else none

/-- `Timestamp::as_nanoseconds` (src/event_record.rs lines 377-386). -/
def Timestamp.as_nanoseconds : Timestamp → Option Nat
  | .micros v => checkedMul v 1000
  | .millis v => checkedMul v 1000000
  | .seconds v => checkedMul v 1000000000
  | .ticks _ => none

/-- `Timestamp::typ_str`. -/
def Timestamp.typ_str : Timestamp → String
  | .micros _ => "us"
  | .millis _ => "ms"
  | .seconds _ => "s"
  | .ticks _ => "ticks"

/-- `DeviantEventKind` (src/event_record.rs lines 407-430). -/
inductive DeviantEventKind where
  | mutatorAnnounced
  | mutatorRetired
  | mutationCmdCommunicated
  | mutationClearCommunicated
  | mutationTriggered
  | mutationInjected
deriving DecidableEq, Repr

/-- `DeviantEventKind::from_event_name`. -/
def DeviantEventKind.from_event_name (event_name : String) : Option DeviantEventKind :=
  if event_name = "modality.mutator.announced" then some .mutatorAnnounced
  else if event_name = "modality.mutator.retired" then some .mutatorRetired
  else if event_name = "modality.mutation.command_communicated" then some .mutationCmdCommunicated
  else if event_name = "modality.mutation.clear_communicated" then some .mutationClearCommunicated
  else if event_name = "modality.mutation.triggered" then some .mutationTriggered
  else if event_name = "modality.mutation.injected" then some .mutationInjected
  else none

/-- `extract_literal_key_value_pairs` (src/event_record.rs lines 306-326).
`pav` is the external `AttrVal::from_str` attribute-value grammar. -/
def extract_literal_key_value_pairs (pav : String → Option AttrVal) (s : String) :
    List (String × AttrVal) :=
  (splitChar s (Char.ofNat 44)).foldl
    (fun pairs pair =>
      match (splitChar (strTrim pair) (Char.ofNat 61)).map strTrim with
      | [key, val_str] =>
        if key = "" ∨ val_str = "" ∨ key.startsWith "." then pairs
        else
          match pav val_str with
          | some v => mapInsert pairs key v
          | none => pairs
      | _ => pairs)
    []

/-- The mutable locals of the fragment walk in `EventRecord::from_frame`
(`name`, `pending_attr_key`, `deviant_event`): the walk never reads the
attribute map it fills, so it is modeled as a state machine that also
emits the list of performed insertions in order. -/
structure WalkState where
  name : Option String
  pending : Option String
  deviant : Option DeviantEventKind
deriving DecidableEq, Repr

/-- Processing of one fragment inside the loop of `EventRecord::from_frame`
(src/event_record.rs lines 180-266).  Returns the updated locals and the
`attributes.insert` calls performed, in order. -/
def walkFragment (pav : String → Option AttrVal) (args : List Arg) (idx : Nat)
    (st : WalkState) : Fragment → WalkState × List (String × AttrVal)
  | .literal l =>
    let first :=
      if idx = 0 then
        match splitOnceStr l "::" with
        | some nr =>
          let ev_name := strTrim nr.1
          ({ st with name := some ev_name,
                     deviant := DeviantEventKind.from_event_name ev_name }, nr.2)
        | none => (st, l)
      else (st, l)
    let st₁ := first.1
    let s₁ := first.2
    let pairs := extract_literal_key_value_pairs pav s₁
    let inserts := pairs.map (fun kv => (EventRecord.attr_key kv.1, kv.2))
    let s₂ := dropLeading s₁ (Char.ofNat 44)
    let s₃ :=
      match rsplitOnceStr s₂ "," with
      | some pr => pr.2
      | none => s₂
    let st₂ :=
      match splitOnceStr s₃ "=" with
      | some kr => { st₁ with pending := some (strTrim kr.1) }
      | none => st₁
    (st₂, inserts)
  | .parameter index ty =>
    match st.pending with
    | none => (st, [])
    | some key₀ =>
      let st₁ := { st with pending := none }
      let key := replaceChar key₀ (Char.ofNat 32) (Char.ofNat 95)
      let key_type := key ++ ".type"
      let ins₁ := [(EventRecord.internal_attr_key key_type, AttrVal.string (toLowerStr ty))]
      let arg := args.getD index (Arg.bool false)
      match arg_to_attr_val arg with
      | some val => (st₁, ins₁ ++ [(EventRecord.attr_key key, val)])
      | none =>
        match st₁.deviant with
        | none => (st₁, ins₁)
        | some _ =>
          if key = "mutator.id" ∨ key = "mutation.id" then
            match arg with
            | .slice bytes =>
              if bytes.length = 16 then
                (st₁, ins₁ ++ [(EventRecord.attr_key key, uuid_to_integer_attr_val bytes)])
              else (st₁, ins₁)
            | _ => (st₁, ins₁)
          else (st₁, ins₁)

/-- The whole fragment walk of `EventRecord::from_frame`. -/
def walkFragments (pav : String → Option AttrVal) (args : List Arg)
    (frags : List Fragment) : WalkState × List (String × AttrVal) :=
  frags.enum.foldl
    (fun acc p =>
      let r := walkFragment pav args p.1 acc.1 p.2
      (r.1, acc.2 ++ r.2))
    (⟨none, none, none⟩, [])

/-- Apply a list of insertions to an attribute map, in order. -/
def applyInserts (m : EventAttributes) (l : List (String × AttrVal)) : EventAttributes :=
  l.foldl (fun acc kv => mapInsert acc kv.1 kv.2) m

/-- `Location` (`defmt_decoder::Location`). -/
structure Location where
  file : String
  line : Nat
  module : String

/-- `EventRecord::from_frame` (src/event_record.rs lines 136-276), with the
external attribute-value grammar `pav` as a parameter.  The fallible
external parse (`defmt_parser::parse`) is already reflected in
`Frame.fragments`, so the `Ok` path is total. -/
def from_frame_ts_attrs (f : Frame) : EventAttributes :=
  match Timestamp.from_frame f with
  | some ts =>
    let a := mapInsert [] (EventRecord.internal_attr_key "timestamp.type")
      (AttrVal.string ts.typ_str)
    let a := mapInsert a (EventRecord.internal_attr_key "timestamp") (attrValOfU64 ts.as_u64)
    match ts.as_nanoseconds with
    | some ns => mapInsert a (EventRecord.attr_key "timestamp") (AttrVal.timestamp ns)
    | none => a
  | none => []

def EventRecord.from_frame (pav : String → Option AttrVal) (f : Frame)
    (location : Option Location) : EventRecord :=
  let formatted_string := replaceChar f.formatted (Char.ofNat 10) (Char.ofNat 32)
  let attrs₁ := from_frame_ts_attrs f
  let attrs₂ :=
    match location with
    | some loc =>
      let a := mapInsert attrs₁ (attr_key "source.file") (AttrVal.string loc.file)
      let a := mapInsert a (attr_key "source.line") (AttrVal.integer (Int.ofNat loc.line))
      let a := mapInsert a (attr_key "source.module") (AttrVal.string loc.module)
      mapInsert a (attr_key "source.uri")
        (AttrVal.string ("file://" ++ loc.file ++ ":" ++ toString loc.line))
    | none => attrs₁
  let attrs₃ :=
    match f.level with
    | some level => mapInsert attrs₂ (attr_key "level") (AttrVal.string level)
    | none => attrs₂
  let attrs₄ := mapInsert attrs₃ (internal_attr_key "table_index") (AttrVal.integer (Int.ofNat f.index))
  let attrs₅ := mapInsert attrs₄ (internal_attr_key "formatted_string") (AttrVal.string formatted_string)
  let walk := walkFragments pav f.args f.fragments
  let attrs₆ := applyInserts attrs₅ walk.2
  let attrs₇ :=
    match walk.1.name with
    | some event_name => mapInsert attrs₆ (attr_key "name") (AttrVal.string event_name)
    | none => mapInsert attrs₆ (attr_key "name") (AttrVal.string formatted_string)
  ⟨attrs₇⟩

/-! ## Context manager (src/context_manager.rs) -/

/-- `RtosMode` (src/opts.rs). -/
inductive RtosMode where
  | none
  | rtic1
deriving DecidableEq, Repr

/-- The `Display` rendering of `RtosMode`. -/
def RtosMode.toStr : RtosMode → String
  | .none => "none"
  | .rtic1 => "rtic1"

/-- The fields of `PluginConfig` (src/config.rs) read by the context
manager. -/
structure PluginConfig where
  rtos_mode : RtosMode
  init_task_name : Option String
  disable_interactions : Bool
deriving DecidableEq, Repr

/-- `ContextId = u64`: the source hashes the context name with
`DefaultHasher`; the spec assumes hash collisions are negligible ("never
validated"), so the hash is modeled as an injective function of the name. -/
def context_id (ctx_name : String) : Nat :=
  ctx_name.data.foldl (fun h c => h * 2 ^ 32 + c.toNat + 1) 1

/-- `(RemoteContextId, RemoteTimelineId, RemoteInteractionNonce)`. -/
abbrev ContextSwitchInteraction := Nat × Nat × Int

/-- `TimelineMeta` (src/context_manager.rs lines 441-450).  `id` is the
`TimelineId`; `TimelineId::allocate()` is modeled by a fresh-counter field
on the manager. -/
structure TimelineMeta where
  id : Nat
  ctx_id : Nat
  attributes : EventAttributes
  nonce : Int
  requires_synthetic_interaction_event : Bool
deriving DecidableEq, Repr

namespace TimelineMeta

/-- `TimelineMeta::attr_key`. -/
def attr_key (k : String) : String := "timeline." ++ k

/-- `TimelineMeta::internal_attr_key`. -/
def internal_attr_key (k : String) : String := "timeline.internal.defmt." ++ k

/-- `TimelineMeta::insert_attr`. -/
def insert_attr (tl : TimelineMeta) (k : String) (v : AttrVal) : TimelineMeta :=
  { tl with attributes := mapInsert tl.attributes k v }

/-- `TimelineMeta::new` (`id` supplied by the caller's fresh counter). -/
def new (ctx_name : String) (ctx_id : Nat) (id : Nat) : TimelineMeta :=
  let tlm : TimelineMeta :=
    { id, ctx_id, attributes := [], nonce := 0,
      requires_synthetic_interaction_event := false }
  let tlm := tlm.insert_attr (attr_key "name") (AttrVal.string ctx_name)
  tlm.insert_attr (internal_attr_key "context.id") (AttrVal.bigInt (Int.ofNat ctx_id))

/-- `TimelineMeta::increment_nonce`: `i64::wrapping_add(1)`. -/
def increment_nonce (tl : TimelineMeta) : TimelineMeta :=
  { tl with nonce := wrapI64 (tl.nonce + 1) }

/-- `TimelineMeta::interaction_source`. -/
def interaction_source (tl : TimelineMeta) : ContextSwitchInteraction :=
  (tl.ctx_id, tl.id, tl.nonce)

/-- `TimelineMeta::next_interaction_source`. -/
def next_interaction_source (tl : TimelineMeta) : ContextSwitchInteraction :=
  (tl.ctx_id, tl.id, wrapI64 (tl.nonce + 1))

end TimelineMeta

/-- `ContextEvent` (src/context_manager.rs lines 13-23). -/
structure ContextEvent where
  context : Nat
  global_ordering : Nat
  record : EventRecord
  add_previous_event_nonce : Bool
deriving DecidableEq, Repr

/-- `ActiveContext`. -/
structure ActiveContext where
  events : List ContextEvent
deriving DecidableEq, Repr

/-- `Error` (src/error.rs): the variants reachable from the modeled
functions.  `panicked` stands for a Rust panic (the `unwrap` in the
start-event arm, unreachable per the source's SAFETY comment). -/
inductive Error where
  | contextManagerInternalState
  | panicked
deriving DecidableEq, Repr

/-- `ContextManager` (src/context_manager.rs lines 25-39), plus
`next_timeline_id`, which models the external `TimelineId::allocate()`
as a fresh counter. -/
structure ContextManager where
  cfg : PluginConfig
  common_timeline_attrs : EventAttributes
  global_ordering : Nat
  event_counter : Nat
  last_timestamp : Option Nat
  integration_version : Option Nat
  pending_context_switch_interaction : Option ContextSwitchInteraction
  context_stack : List Nat
  contexts_to_timelines : List (Nat × TimelineMeta)
  next_timeline_id : Nat
deriving DecidableEq, Repr

namespace ContextManager

/-- `ContextManager::new`. -/
def new (cfg : PluginConfig) (common_timeline_attrs : EventAttributes) : ContextManager :=
  { cfg, common_timeline_attrs, global_ordering := 0, event_counter := 0,
    last_timestamp := none, integration_version := none,
    pending_context_switch_interaction := none, context_stack := [],
    contexts_to_timelines := [], next_timeline_id := 0 }

/-- `ContextManager::alloc_context` (lines 329-348). -/
def alloc_context (m : ContextManager) (ctx_name : String) : Nat × ContextManager :=
  let ctx_id := context_id ctx_name
  match mapGet m.contexts_to_timelines ctx_id with
  | some _ => (ctx_id, m)
  | none =>
    let tl₀ := TimelineMeta.new ctx_name ctx_id m.next_timeline_id
    let tl₁ :=
      match m.integration_version with
      | some v =>
        tl₀.insert_attr (TimelineMeta.internal_attr_key "integration_version")
          (AttrVal.integer (Int.ofNat v))
      | none => tl₀
    let tl₂ :=
      tl₁.insert_attr (TimelineMeta.internal_attr_key "rtos_mode")
        (AttrVal.string m.cfg.rtos_mode.toStr)
    let tl₃ := m.common_timeline_attrs.foldl (fun tl kv => tl.insert_attr kv.1 kv.2) tl₂
    (ctx_id,
     { m with contexts_to_timelines := mapInsert m.contexts_to_timelines ctx_id tl₃,
              next_timeline_id := m.next_timeline_id + 1 })

/-- `ContextManager::active_context` (lines 350-355): top of stack is the
last pushed element. -/
def active_context (m : ContextManager) : Except Error Nat :=
  match m.context_stack.getLast? with
  | some c => Except.ok c
  | none => Except.error Error.contextManagerInternalState

/-- `ContextManager::push_context` (lines 359-381). -/
def push_context (m : ContextManager) (ctx_id : Nat) :
    Except Error (ContextSwitchInteraction × ContextManager) :=
  match m.active_context with
  | .error e => .error e
  | .ok active =>
    match mapGet m.contexts_to_timelines active with
    | none => .error .contextManagerInternalState
    | some tl =>
      let interaction := tl.interaction_source
      let tl₁ := { tl with requires_synthetic_interaction_event := false }
      .ok (interaction,
           { m with contexts_to_timelines := mapInsert m.contexts_to_timelines active tl₁,
                    context_stack := m.context_stack ++ [ctx_id] })

/-- `ContextManager::pop_context` (lines 385-431). -/
def pop_context (m : ContextManager) :
    Except Error (Option ContextSwitchInteraction × ContextManager) :=
  if m.context_stack.length = 1 then .ok (none, m)
  else
    match m.context_stack.getLast? with
    | none => .error .contextManagerInternalState
    | some ctx_id =>
      let stack₁ := m.context_stack.dropLast
      match mapGet m.contexts_to_timelines ctx_id with
      | none => .error .contextManagerInternalState
      | some tl =>
        let tl₁ := { tl with requires_synthetic_interaction_event := false }
        let pending := tl₁.next_interaction_source
        let m₁ :=
          { m with context_stack := stack₁,
                   contexts_to_timelines := mapInsert m.contexts_to_timelines ctx_id tl₁ }
        match m₁.active_context with
        | .error e => .error e
        | .ok active =>
          match mapGet m₁.contexts_to_timelines active with
          | none => .error .contextManagerInternalState
          | some tl₂ =>
            let tl₃ := { tl₂ with requires_synthetic_interaction_event := true }
            .ok (some pending,
                 { m₁ with contexts_to_timelines :=
                     mapInsert m₁.contexts_to_timelines active tl₃ })

/-- `ev.task_name().or_else(|| ev.isr_name())` (line 173). -/
def task_or_isr_name (ev : EventRecord) : Option String :=
  match ev.task_name with
  | some t => some t
  | none => ev.isr_name

/-- Per-branch result of the big match of `process_rtic1`: the synthetic
events accumulated so far, the id of the context the event belongs to, and
the pending interaction for this event. -/
abbrev Rtic1BranchResult := (List ContextEvent × Nat × Option ContextSwitchInteraction)

/-- The synthetic `AUXON_CONTEXT_RETURN` record constructed by the bridge
block (lines 197-207): name, synthetic marker, freshly incremented nonce,
and the triggering event's timestamp when it has one. -/
def synthetic_record (ev : EventRecord) (nonce : Int) : EventRecord :=
  let syn := (((EventRecord.new []).insert_attr (EventRecord.attr_key "name")
      (AttrVal.string "AUXON_CONTEXT_RETURN")).insert_attr
      (EventRecord.internal_attr_key "synthetic") (AttrVal.bool true)).add_internal_nonce nonce
  match mapGet ev.attributes "event.timestamp" with
  | some ts => syn.insert_attr (EventRecord.attr_key "timestamp") ts
  | none => syn

/-- The context-enter arm of `process_rtic1` (lines 179-237), including the
synthetic-bridge block (lines 193-232). -/
def rtic1_enter (m : ContextManager) (ev : EventRecord) (ctx_name : String) :
    Except Error (Rtic1BranchResult × ContextManager) :=
  let p := m.alloc_context ctx_name
  let ctx_id := p.1
  let m₁ := p.2
  match m₁.active_context with
  | .error e => .error e
  | .ok active_ctx_id =>
    match mapGet m₁.contexts_to_timelines active_ctx_id with
    | none => .error .contextManagerInternalState
    | some tl =>
      if tl.requires_synthetic_interaction_event then
        let tl₁ := { tl with requires_synthetic_interaction_event := false,
                             nonce := wrapI64 (tl.nonce + 1) }
        let m₂ :=
          { m₁ with contexts_to_timelines :=
              mapInsert m₁.contexts_to_timelines active_ctx_id tl₁ }
        let syn := synthetic_record ev tl₁.nonce
        let q :=
          match m₂.pending_context_switch_interaction with
          | some pi =>
            (!m₂.cfg.disable_interactions,
             syn.add_interaction (!m₂.cfg.disable_interactions) pi.2.1 pi.2.2,
             { m₂ with pending_context_switch_interaction := none })
          | none => (false, syn, m₂)
        let syn_event : ContextEvent :=
          ⟨active_ctx_id, q.2.2.global_ordering, q.2.1, q.1⟩
        let m₃ := { q.2.2 with global_ordering := satAdd128 q.2.2.global_ordering }
        match m₃.push_context ctx_id with
        | .error e => .error e
        | .ok ip => .ok (([syn_event], ctx_id, some ip.1), ip.2)
      else
        match m₁.push_context ctx_id with
        | .error e => .error e
        | .ok ip => .ok (([], ctx_id, some ip.1), ip.2)

/-- The context-exit arm of `process_rtic1` (lines 240-251). -/
def rtic1_exit (m : ContextManager) :
    Except Error (Rtic1BranchResult × ContextManager) :=
  match m.active_context with
  | .error e => .error e
  | .ok ctx_id =>
    let pending_for_this := m.pending_context_switch_interaction
    let m₁ := { m with pending_context_switch_interaction := none }
    match m₁.pop_context with
    | .error e => .error e
    | .ok r =>
      .ok (([], ctx_id, pending_for_this),
           { r.2 with pending_context_switch_interaction := r.1 })

/-- The start-event arm of `process_rtic1` (lines 254-269). -/
def rtic1_start (m : ContextManager) (ev : EventRecord) (ctx_name : String) :
    Except Error (Rtic1BranchResult × ContextManager) :=
  match ev.integration_version with
  | none => .error .panicked
  | some version =>
    let m₁ := { m with integration_version := some version }
    let init_task_name := m₁.cfg.init_task_name.getD ctx_name
    let p := m₁.alloc_context init_task_name
    let m₂ := { p.2 with context_stack := p.2.context_stack ++ [p.1] }
    .ok (([], p.1, none), m₂)

/-- The catch-all arm of `process_rtic1` (lines 271-300). -/
def rtic1_other (m : ContextManager) (ev : EventRecord) :
    Except Error (Rtic1BranchResult × ContextManager) :=
  let m₁ :=
    if ev.event_name = some "AUXON_TASK_ENTER" ∨ ev.event_name = some "AUXON_INTERRUPT_ENTER" then
      let m₀ := { m with cfg := { m.cfg with rtos_mode := RtosMode.none } }
      let p := m₀.alloc_context "UNKNOWN_CONTEXT"
      { p.2 with context_stack := p.2.context_stack ++ [p.1],
                 pending_context_switch_interaction := none }
    else m
  match m₁.active_context with
  | .error e => .error e
  | .ok active =>
    match mapGet m₁.contexts_to_timelines active with
    | none => .error .contextManagerInternalState
    | some tl =>
      let tl₁ := { tl with requires_synthetic_interaction_event := false }
      let m₂ :=
        { m₁ with contexts_to_timelines := mapInsert m₁.contexts_to_timelines active tl₁ }
      .ok (([], active, m₂.pending_context_switch_interaction),
           { m₂ with pending_context_switch_interaction := none })

/-- The stamping stage of `process_rtic1` (lines 303-326): increment the
active timeline's nonce, stamp it on the event, attach any pending
interaction, and append the current event after the synthetic ones. -/
def stamp_and_emit (m₁ : ContextManager) (ev : EventRecord) (r : Rtic1BranchResult) :
    Except Error (ActiveContext × ContextManager) :=
  match mapGet m₁.contexts_to_timelines r.2.1 with
  | none => .error .contextManagerInternalState
  | some tl =>
    let tl₁ := tl.increment_nonce
    let m₂ :=
      { m₁ with contexts_to_timelines := mapInsert m₁.contexts_to_timelines r.2.1 tl₁ }
    let ev₁ := ev.add_internal_nonce tl₁.nonce
    let q :=
      match r.2.2 with
      | some i =>
        (ev₁.add_interaction (!m₂.cfg.disable_interactions) i.2.1 i.2.2,
         !m₂.cfg.disable_interactions)
      | none => (ev₁, false)
    .ok (⟨r.1 ++ [⟨r.2.1, m₂.global_ordering, q.1, q.2⟩]⟩, m₂)

/-- The big match of `process_rtic1` (lines 173-301) followed by the
stamping stage (lines 303-326). -/
def process_rtic1_main (m : ContextManager) (ev : EventRecord) :
    Except Error (ActiveContext × ContextManager) :=
  let branch :=
    match ev.event_name, task_or_isr_name ev with
    | some "AUXON_TASK_ENTER", some ctx_name => m.rtic1_enter ev ctx_name
    | some "AUXON_INTERRUPT_ENTER", some ctx_name => m.rtic1_enter ev ctx_name
    | some "AUXON_TASK_EXIT", _ => m.rtic1_exit
    | some "AUXON_INTERRUPT_EXIT", _ => m.rtic1_exit
    | some "AUXON_TRACE_START", some ctx_name =>
      if m.event_counter = 1 then m.rtic1_start ev ctx_name else m.rtic1_other ev
    | _, _ => m.rtic1_other ev
  match branch with
  | .error e => .error e
  | .ok (r, m₁) => stamp_and_emit m₁ ev r

/-- `ContextManager::process_rtic1` (lines 131-327): the start-event check
(lines 135-171) in front of `process_rtic1_main`. -/
def process_rtic1 (m : ContextManager) (ev : EventRecord) :
    Except Error (ActiveContext × ContextManager) :=
  if m.event_counter = 1 ∧ m.integration_version = none then
    if ev.event_name = some "AUXON_TRACE_START" ∧ ev.task_name.isSome ∧
        ev.integration_version.isSome then
      m.process_rtic1_main ev
    else
      let m₁ := { m with cfg := { m.cfg with rtos_mode := RtosMode.none } }
      let p := m₁.alloc_context "UNKNOWN_CONTEXT"
      let m₂ := { p.2 with context_stack := p.2.context_stack ++ [p.1] }
      .ok (⟨[⟨p.1, m₂.global_ordering, ev, false⟩]⟩, m₂)
  else m.process_rtic1_main ev

/-- The `last_timestamp` update of `process_record` (lines 75-92): take the
current record's raw timestamp when it has one (the mismatch arms only log
warnings). -/
def nextLastTimestamp (last cur : Option Nat) : Option Nat :=
  match cur with
  | some c => some c
  | none => last

/-- The record with the `event.internal.defmt.event_counter` attribute
stamped by `process_record` (line 73). -/
def counted_record (m : ContextManager) (ev : EventRecord) : EventRecord :=
  ev.insert_attr (EventRecord.internal_attr_key "event_counter")
    (attrValOfU64 (satAdd64 m.event_counter))

/-- The counter and timestamp bookkeeping of `process_record` (lines 70-92). -/
def pre_process (m : ContextManager) (ev : EventRecord) : ContextManager :=
  { m with global_ordering := satAdd128 m.global_ordering,
           event_counter := satAdd64 m.event_counter,
           last_timestamp := nextLastTimestamp m.last_timestamp
             (counted_record m ev).timestamp_raw }

/-- The nonce stamping of the vanilla branch of `process_record`
(lines 112-127), after the root context exists. -/
def vanilla_emit (m : ContextManager) (ev₁ : EventRecord) :
    Except Error (ActiveContext × ContextManager) :=
  match m.active_context with
  | .error e => .error e
  | .ok active =>
    match mapGet m.contexts_to_timelines active with
    | none => .error .contextManagerInternalState
    | some tl =>
      let tl₁ := tl.increment_nonce
      let m₅ :=
        { m with contexts_to_timelines := mapInsert m.contexts_to_timelines active tl₁ }
      let ev₂ := ev₁.add_internal_nonce tl₁.nonce
      .ok (⟨[⟨active, m₅.global_ordering, ev₂, false⟩]⟩, m₅)

/-- The vanilla single-timeline branch of `process_record` (lines 97-127). -/
def process_vanilla (m : ContextManager) (ev₁ : EventRecord) :
    Except Error (ActiveContext × ContextManager) :=
  let m₄ :=
    if m.event_counter = 1 then
      let ctx_name := m.cfg.init_task_name.getD "main"
      let p := m.alloc_context ctx_name
      { p.2 with context_stack := p.2.context_stack ++ [p.1] }
    else m
  vanilla_emit m₄ ev₁

/-- `ContextManager::process_record` (lines 68-129). -/
def process_record (m : ContextManager) (ev : EventRecord) :
    Except Error (ActiveContext × ContextManager) :=
  let m₃ := pre_process m ev
  let ev₁ := counted_record m ev
  if m₃.cfg.rtos_mode = RtosMode.rtic1 then
    m₃.process_rtic1 ev₁
  else
    m₃.process_vanilla ev₁

/-- Process a list of records, collecting all emitted `ContextEvent`s in
emission order. -/
def run_records (m : ContextManager) : List EventRecord →
    Except Error (List ContextEvent × ContextManager)
  | [] => .ok ([], m)
  | r :: rs =>
    match m.process_record r with
    | .error e => .error e
    | .ok (ac, m₁) =>
      match m₁.run_records rs with
      | .error e => .error e
      | .ok (evs, m₂) => .ok (ac.events ++ evs, m₂)

end ContextManager

/-! ## Common timeline attributes (src/defmt_reader.rs lines 47-98) -/

/-- Assembly of `common_timeline_attrs` in `defmt_reader::run`.  External
inputs (config attribute lists, the configured or freshly generated run id
and clock id, and the defmt table encoding rendering) are parameters.
`run_id` is the already-converted `AttrVal` (integer if the configured
string parses as `i64`, else string, else a fresh UUID string). -/
def mkCommonTimelineAttrs (additional : List (String × AttrVal)) (run_id : AttrVal)
    (table_encoding : String) (clock_id : String) (clock_rate : Option (Nat × Nat))
    (overrides : List (String × AttrVal)) : EventAttributes :=
  let a := additional.foldl (fun acc kv => mapInsert acc kv.1 kv.2) []
  let a := mapInsert a (TimelineMeta.attr_key "run_id") run_id
  let a := mapInsert a (TimelineMeta.internal_attr_key "table.encoding")
    (AttrVal.string table_encoding)
  let a := mapInsert a (TimelineMeta.attr_key "clock_id") (AttrVal.string clock_id)
  let a := mapInsert a (TimelineMeta.attr_key "clock_style") (AttrVal.string "relative")
  let a :=
    match clock_rate with
    | some r =>
      let a := mapInsert a (TimelineMeta.attr_key "clock_rate")
        (AttrVal.string (toString r.1 ++ "/" ++ toString r.2))
      let a := mapInsert a (TimelineMeta.attr_key "clock_rate.numerator")
        (attrValOfU64 r.1)
      mapInsert a (TimelineMeta.attr_key "clock_rate.denominator") (attrValOfU64 r.2)
    | none => a
  overrides.foldl (fun acc kv => mapInsert acc kv.1 kv.2) a

/-! ## Model validation against the source's own unit test
(`context_manager.rs`, test `rtic1_context_switching`) -/

/-- The internal timestamp attribute the source's test helpers set. -/
def tsAttr (ts : Nat) : String × AttrVal :=
  (EventRecord.internal_attr_key "timestamp", AttrVal.bigInt (Int.ofNat ts))

/-- Test helper `trace_start`. -/
def trace_start_rec (ts : Nat) : EventRecord :=
  ⟨[(EventRecord.attr_key "name", AttrVal.string "AUXON_TRACE_START"),
    (EventRecord.attr_key "task", AttrVal.string "init"),
    (EventRecord.attr_key "version", AttrVal.integer 1),
    tsAttr ts]⟩

/-- Test helper `isr_enter`. -/
def isr_enter_rec (ts : Nat) : EventRecord :=
  ⟨[(EventRecord.attr_key "name", AttrVal.string "AUXON_INTERRUPT_ENTER"),
    (EventRecord.attr_key "isr", AttrVal.string "ISR"),
    tsAttr ts]⟩

/-- Test helper `isr_exit`. -/
def isr_exit_rec (ts : Nat) : EventRecord :=
  ⟨[(EventRecord.attr_key "name", AttrVal.string "AUXON_INTERRUPT_EXIT"),
    tsAttr ts]⟩

/-- Test helper `task_enter`. -/
def task_enter_rec (ts : Nat) : EventRecord :=
  ⟨[(EventRecord.attr_key "name", AttrVal.string "AUXON_TASK_ENTER"),
    (EventRecord.attr_key "task", AttrVal.string "task"),
    tsAttr ts]⟩

/-- Test helper `task_exit`. -/
def task_exit_rec (ts : Nat) : EventRecord :=
  ⟨[(EventRecord.attr_key "name", AttrVal.string "AUXON_TASK_EXIT"),
    tsAttr ts]⟩

/-- Test helper `event`. -/
def named_event_rec (name : String) (ts : Nat) : EventRecord :=
  ⟨[(EventRecord.attr_key "name", AttrVal.string name),
    tsAttr ts]⟩

/-- `PluginConfig::default()` with `rtos_mode = Rtic1`. -/
def rtic1Cfg : PluginConfig :=
  { rtos_mode := RtosMode.rtic1, init_task_name := none, disable_interactions := false }

/-- The record sequence of the source's `rtic1_context_switching` test. -/
def rtic1TestRecords : List EventRecord :=
  [trace_start_rec 1, isr_enter_rec 2, task_enter_rec 3, named_event_rec "foo" 4,
   task_exit_rec 5, isr_exit_rec 6, isr_enter_rec 7, task_enter_rec 8]

/-- The model reproduces every `check_ctx_event` assertion of the source's
`rtic1_context_switching` unit test: context assignment, global ordering,
stamped internal nonce and `add_previous_event_nonce` of each emitted event,
including the synthetic `AUXON_CONTEXT_RETURN` at global ordering 7. -/
theorem model_matches_rtic1_context_switching_test :
    ((ContextManager.new rtic1Cfg []).run_records rtic1TestRecords).toOption.map
      (fun p => p.1.map
        (fun e => (e.context, e.global_ordering, e.record.internal_nonce,
                   e.add_previous_event_nonce))) =
    some [(context_id "init", 1, some 1, false),
          (context_id "ISR", 2, some 1, true),
          (context_id "task", 3, some 1, true),
          (context_id "task", 4, some 2, false),
          (context_id "task", 5, some 3, false),
          (context_id "ISR", 6, some 2, true),
          (context_id "init", 7, some 2, true),
          (context_id "ISR", 8, some 3, true),
          (context_id "task", 9, some 4, true)] := by decide

/-! ## Basic record lemmas -/

theorem event_name_insert_attr (r : EventRecord) (k : String) (v : AttrVal)
    (h : k ≠ "event.name") : (r.insert_attr k v).event_name = r.event_name := by
  unfold EventRecord.event_name EventRecord.insert_attr
  rw [mapGet_insert_ne _ _ _ _ (fun h₁ => h h₁.symm)]

theorem task_name_insert_attr (r : EventRecord) (k : String) (v : AttrVal)
    (h : k ≠ "event.task") : (r.insert_attr k v).task_name = r.task_name := by
  unfold EventRecord.task_name EventRecord.insert_attr
  rw [mapGet_insert_ne _ _ _ _ (fun h₁ => h h₁.symm)]

theorem isr_name_insert_attr (r : EventRecord) (k : String) (v : AttrVal)
    (h : k ≠ "event.isr") : (r.insert_attr k v).isr_name = r.isr_name := by
  unfold EventRecord.isr_name EventRecord.insert_attr
  rw [mapGet_insert_ne _ _ _ _ (fun h₁ => h h₁.symm)]

theorem integration_version_insert_attr (r : EventRecord) (k : String) (v : AttrVal)
    (h : k ≠ "event.version") : (r.insert_attr k v).integration_version = r.integration_version := by
  unfold EventRecord.integration_version EventRecord.insert_attr
  rw [mapGet_insert_ne _ _ _ _ (fun h₁ => h h₁.symm)]

theorem timestamp_raw_insert_attr (r : EventRecord) (k : String) (v : AttrVal)
    (h : k ≠ "event.internal.defmt.timestamp") :
    (r.insert_attr k v).timestamp_raw = r.timestamp_raw := by
  unfold EventRecord.timestamp_raw EventRecord.insert_attr
  rw [mapGet_insert_ne _ _ _ _ (fun h₁ => h h₁.symm)]

theorem internal_nonce_add (r : EventRecord) (n : Int) :
    (r.add_internal_nonce n).internal_nonce = some n := by
  unfold EventRecord.internal_nonce EventRecord.add_internal_nonce EventRecord.insert_attr
  rw [show EventRecord.internal_attr_key "nonce" = "event.internal.defmt.nonce" from rfl,
    mapGet_insert_self]

/-! ## C9: promote_internal_nonce idempotence -/

/-- C9: `EventRecord::promote_internal_nonce` is idempotent: after one call
has moved the `event.internal.defmt.nonce` attribute to `event.nonce`, a
second call on the same record leaves the attribute map unchanged.  (The
hypothesis says the record's key set is duplicate-free, which holds for
every real `BTreeMap`-backed record.) -/
theorem c9_promote_internal_nonce_idempotent (r : EventRecord)
    (hnd : (mapKeys r.attributes).Nodup) :
    r.promote_internal_nonce.promote_internal_nonce = r.promote_internal_nonce := by
  cases h : mapGet r.attributes "event.internal.defmt.nonce" with
  | none =>
    unfold EventRecord.promote_internal_nonce
    simp [h]
  | some v =>
    have h₁ : mapGet (mapInsert (mapRemove r.attributes "event.internal.defmt.nonce")
        (EventRecord.attr_key "nonce") v) "event.internal.defmt.nonce" = none := by
      rw [mapGet_insert_ne _ _ _ _ (by decide)]
      exact mapGet_remove_self _ _ hnd
    unfold EventRecord.promote_internal_nonce
    simp [h, h₁]

/-- Witness for C9 at a concrete one-entry record. -/
theorem c9_witness :
    (mapKeys (EventRecord.mk [("event.internal.defmt.nonce", AttrVal.integer 7)]).attributes).Nodup ∧
    (EventRecord.mk [("event.internal.defmt.nonce", AttrVal.integer 7)]).promote_internal_nonce.promote_internal_nonce =
      (EventRecord.mk [("event.internal.defmt.nonce", AttrVal.integer 7)]).promote_internal_nonce :=
  ⟨by decide, c9_promote_internal_nonce_idempotent _ (by decide)⟩

/-! ## C1: send_event interning consults the wrong map -/

/-- C1: the ingest dispatcher's `send_event` is supposed to consult only the
event-key map, but the source (src/client.rs line 55) consults
`timeline_keys`.  Evaluated at the failing input — two `send_event` calls
interning the same attribute key "foo" on a fresh client: after the first
call the interned id 0 is cached in `event_keys`, yet the second call
declares a fresh id 1 instead of reusing it; the spec-intended interning
returns the cached 0.  `switch_timeline` interning (which the claim also
covers) does reuse its cache. -/
theorem c1_send_event_consults_timeline_keys :
    mapGet (Client.send_event_intern ⟨[], [], 0⟩ ["foo"]).2.event_keys "event.foo" = some 0 ∧
    ((Client.send_event_intern ⟨[], [], 0⟩ ["foo"]).2.send_event_intern ["foo"]).1 = [1] ∧
    (Client.send_event_intern_key_intended (Client.send_event_intern ⟨[], [], 0⟩ ["foo"]).2
      "foo").1 = 0 ∧
    ((Client.switch_timeline_intern ⟨[], [], 0⟩ ["bar"]).2.switch_timeline_intern ["bar"]).1 = [0] := by
  decide

/-! ## Execution lemmas for process_record -/

theorem process_record_vanilla_step (m : ContextManager) (r : EventRecord) (c : Nat)
    (tl : TimelineMeta)
    (hmode : m.cfg.rtos_mode = RtosMode.none)
    (hec : satAdd64 m.event_counter ≠ 1)
    (hstack : m.context_stack.getLast? = some c)
    (htl : mapGet m.contexts_to_timelines c = some tl) :
    m.process_record r =
      Except.ok
        (⟨[⟨c, satAdd128 m.global_ordering,
            ((r.insert_attr (EventRecord.internal_attr_key "event_counter")
                (attrValOfU64 (satAdd64 m.event_counter))).add_internal_nonce
              (wrapI64 (tl.nonce + 1))), false⟩]⟩,
         { m with
            global_ordering := satAdd128 m.global_ordering,
            event_counter := satAdd64 m.event_counter,
            last_timestamp := ContextManager.nextLastTimestamp m.last_timestamp
              ((r.insert_attr (EventRecord.internal_attr_key "event_counter")
                (attrValOfU64 (satAdd64 m.event_counter))).timestamp_raw),
            contexts_to_timelines := mapInsert m.contexts_to_timelines c tl.increment_nonce }) := by
  unfold ContextManager.process_record
  rw [if_neg (by simp [ContextManager.pre_process, hmode])]
  unfold ContextManager.process_vanilla ContextManager.pre_process ContextManager.counted_record
  simp [ContextManager.vanilla_emit, ContextManager.active_context, hstack, htl, hec,
    TimelineMeta.increment_nonce]

theorem nextLastTimestamp_none (cur : Option Nat) :
    ContextManager.nextLastTimestamp none cur = cur := by
  cases cur <;> rfl

/-- The timeline allocated for `UNKNOWN_CONTEXT` by the start-event fallback
of `process_rtic1` on a fresh manager (the fallback sets
`rtos_mode = None` before allocating, so the attribute records "none"). -/
def unknown_timeline (common : EventAttributes) : TimelineMeta :=
  common.foldl (fun tl kv => tl.insert_attr kv.1 kv.2)
    ((TimelineMeta.new "UNKNOWN_CONTEXT" (context_id "UNKNOWN_CONTEXT") 0).insert_attr
      (TimelineMeta.internal_attr_key "rtos_mode") (AttrVal.string RtosMode.none.toStr))

theorem process_record_invalid_start (cfg : PluginConfig) (common : EventAttributes)
    (r : EventRecord)
    (hmode : cfg.rtos_mode = RtosMode.rtic1)
    (hinvalid : ¬ (r.event_name = some "AUXON_TRACE_START" ∧ r.task_name.isSome ∧
      r.integration_version.isSome)) :
    (ContextManager.new cfg common).process_record r =
      Except.ok
        (⟨[⟨context_id "UNKNOWN_CONTEXT", 1,
            r.insert_attr (EventRecord.internal_attr_key "event_counter") (attrValOfU64 1),
            false⟩]⟩,
         { cfg := { cfg with rtos_mode := RtosMode.none },
           common_timeline_attrs := common,
           global_ordering := 1,
           event_counter := 1,
           last_timestamp := r.timestamp_raw,
           integration_version := none,
           pending_context_switch_interaction := none,
           context_stack := [context_id "UNKNOWN_CONTEXT"],
           contexts_to_timelines := [(context_id "UNKNOWN_CONTEXT", unknown_timeline common)],
           next_timeline_id := 1 }) := by
  have h64 : satAdd64 0 = 1 := by decide
  have h128 : satAdd128 0 = 1 := by decide
  have hen := event_name_insert_attr r (EventRecord.internal_attr_key "event_counter")
    (attrValOfU64 1) (by decide)
  have htn := task_name_insert_attr r (EventRecord.internal_attr_key "event_counter")
    (attrValOfU64 1) (by decide)
  have hiv := integration_version_insert_attr r (EventRecord.internal_attr_key "event_counter")
    (attrValOfU64 1) (by decide)
  have htr := timestamp_raw_insert_attr r (EventRecord.internal_attr_key "event_counter")
    (attrValOfU64 1) (by decide)
  unfold ContextManager.process_record ContextManager.process_rtic1
  unfold ContextManager.pre_process ContextManager.counted_record
  simp only [ContextManager.new, h64, h128, hen, htn, hiv, htr, nextLastTimestamp_none,
    hmode, if_true, eq_self_iff_true, and_true, true_and, if_neg hinvalid]
  simp [ContextManager.alloc_context, mapGet, mapInsert, unknown_timeline, hinvalid,
    TimelineMeta.new]

theorem alloc_context_fst (m : ContextManager) (n : String) :
    (m.alloc_context n).1 = context_id n := by
  cases hm : mapGet m.contexts_to_timelines (context_id n) <;>
    simp [ContextManager.alloc_context, hm]

theorem alloc_context_cfg (m : ContextManager) (n : String) :
    (m.alloc_context n).2.cfg = m.cfg := by
  cases hm : mapGet m.contexts_to_timelines (context_id n) <;>
    simp [ContextManager.alloc_context, hm]

theorem alloc_context_stack (m : ContextManager) (n : String) :
    (m.alloc_context n).2.context_stack = m.context_stack := by
  cases hm : mapGet m.contexts_to_timelines (context_id n) <;>
    simp [ContextManager.alloc_context, hm]

theorem alloc_context_global_ordering (m : ContextManager) (n : String) :
    (m.alloc_context n).2.global_ordering = m.global_ordering := by
  cases hm : mapGet m.contexts_to_timelines (context_id n) <;>
    simp [ContextManager.alloc_context, hm]

theorem alloc_context_event_counter (m : ContextManager) (n : String) :
    (m.alloc_context n).2.event_counter = m.event_counter := by
  cases hm : mapGet m.contexts_to_timelines (context_id n) <;>
    simp [ContextManager.alloc_context, hm]

theorem alloc_context_pending (m : ContextManager) (n : String) :
    (m.alloc_context n).2.pending_context_switch_interaction =
      m.pending_context_switch_interaction := by
  cases hm : mapGet m.contexts_to_timelines (context_id n) <;>
    simp [ContextManager.alloc_context, hm]

theorem alloc_context_integration_version (m : ContextManager) (n : String) :
    (m.alloc_context n).2.integration_version = m.integration_version := by
  cases hm : mapGet m.contexts_to_timelines (context_id n) <;>
    simp [ContextManager.alloc_context, hm]

theorem vanilla_emit_cfg (m : ContextManager) (ev₁ : EventRecord) (ac : ActiveContext)
    (m' : ContextManager) (h : m.vanilla_emit ev₁ = .ok (ac, m')) : m'.cfg = m.cfg := by
  unfold ContextManager.vanilla_emit at h
  split at h
  · exact absurd h (by simp)
  · split at h
    · exact absurd h (by simp)
    · rw [Except.ok.injEq, Prod.mk.injEq] at h
      rw [← h.2]

theorem process_vanilla_cfg (m : ContextManager) (ev₁ : EventRecord) (ac : ActiveContext)
    (m' : ContextManager) (h : m.process_vanilla ev₁ = .ok (ac, m')) : m'.cfg = m.cfg := by
  unfold ContextManager.process_vanilla at h
  by_cases hec : m.event_counter = 1
  · rw [if_pos hec] at h
    have := vanilla_emit_cfg _ _ _ _ h
    rw [this]
    exact alloc_context_cfg _ _
  · rw [if_neg hec] at h
    exact vanilla_emit_cfg _ _ _ _ h

/-- In vanilla (`none`) mode, `process_record` never touches the
configuration: `rtos_mode` can only change from `rtic1` to `none`, never
back. -/
theorem process_record_cfg_of_none (m : ContextManager) (r : EventRecord)
    (ac : ActiveContext) (m' : ContextManager)
    (hmode : m.cfg.rtos_mode = RtosMode.none)
    (h : m.process_record r = .ok (ac, m')) : m'.cfg = m.cfg := by
  unfold ContextManager.process_record at h
  rw [if_neg (by simp [ContextManager.pre_process, hmode])] at h
  have h₂ := process_vanilla_cfg _ _ _ _ h
  rw [h₂]
  rfl

theorem run_records_mode_none (m : ContextManager) (rs : List EventRecord)
    (evs : List ContextEvent) (m' : ContextManager)
    (hmode : m.cfg.rtos_mode = RtosMode.none)
    (h : m.run_records rs = .ok (evs, m')) : m'.cfg.rtos_mode = RtosMode.none := by
  induction rs generalizing m evs with
  | nil =>
    unfold ContextManager.run_records at h
    rw [Except.ok.injEq, Prod.mk.injEq] at h
    rw [← h.2]
    exact hmode
  | cons r rest ih =>
    unfold ContextManager.run_records at h
    split at h
    · exact absurd h (by simp)
    · rename_i ac m₁ hp
      split at h
      · exact absurd h (by simp)
      · rename_i evs₂ m₂ hq
        rw [Except.ok.injEq, Prod.mk.injEq] at h
        have hcfg : m₁.cfg = m.cfg := process_record_cfg_of_none m r ac m₁ hmode hp
        have hm₁ : m₁.cfg.rtos_mode = RtosMode.none := by rw [hcfg]; exact hmode
        rw [h.2] at hq
        exact ih m₁ evs₂ hm₁ hq

theorem foldl_insert_attr_nonce (l : EventAttributes) (tl : TimelineMeta) :
    (l.foldl (fun t kv => t.insert_attr kv.1 kv.2) tl).nonce = tl.nonce := by
  induction l generalizing tl with
  | nil => rfl
  | cons kv rest ih =>
    rw [List.foldl_cons, ih]
    rfl

theorem foldl_insert_attr_flag (l : EventAttributes) (tl : TimelineMeta) :
    (l.foldl (fun t kv => t.insert_attr kv.1 kv.2) tl).requires_synthetic_interaction_event =
      tl.requires_synthetic_interaction_event := by
  induction l generalizing tl with
  | nil => rfl
  | cons kv rest ih =>
    rw [List.foldl_cons, ih]
    rfl

theorem unknown_timeline_nonce (common : EventAttributes) :
    (unknown_timeline common).nonce = 0 := by
  unfold unknown_timeline
  rw [foldl_insert_attr_nonce]
  rfl

/-! ## C5: invalid start event disables RTOS mode for good -/

/-- C5: in rtic1 mode, when the first processed record is not a valid start
event (wrong name, or no string `event.task`, or no integer
`event.version`), the manager switches to `none` mode, allocates
`UNKNOWN_CONTEXT` as the root of the stack, emits that record as a single
`ContextEvent` on the `UNKNOWN_CONTEXT` timeline, and every later state
keeps `rtos_mode = none` (rtic1 mode is never re-entered). -/
theorem c5_invalid_start_fallback (cfg : PluginConfig) (common : EventAttributes)
    (r : EventRecord)
    (hmode : cfg.rtos_mode = RtosMode.rtic1)
    (hinvalid : ¬ (r.event_name = some "AUXON_TRACE_START" ∧ r.task_name.isSome ∧
      r.integration_version.isSome)) :
    ∃ ev m₁, (ContextManager.new cfg common).process_record r = .ok (⟨[ev]⟩, m₁) ∧
      ev.context = context_id "UNKNOWN_CONTEXT" ∧
      m₁.cfg.rtos_mode = RtosMode.none ∧
      m₁.context_stack = [context_id "UNKNOWN_CONTEXT"] ∧
      (∀ rs evs m₂, m₁.run_records rs = .ok (evs, m₂) → m₂.cfg.rtos_mode = RtosMode.none) := by
  refine ⟨_, _, process_record_invalid_start cfg common r hmode hinvalid, rfl, rfl, rfl, ?_⟩
  intro rs evs m₂ h
  exact run_records_mode_none _ rs evs m₂ rfl h

/-- Witness for C5: a concrete non-start first record. -/
theorem c5_witness :
    rtic1Cfg.rtos_mode = RtosMode.rtic1 ∧
    ¬ ((named_event_rec "foo" 1).event_name = some "AUXON_TRACE_START" ∧
      (named_event_rec "foo" 1).task_name.isSome ∧
      (named_event_rec "foo" 1).integration_version.isSome) ∧
    (∃ ev m₁, (ContextManager.new rtic1Cfg []).process_record (named_event_rec "foo" 1) =
        .ok (⟨[ev]⟩, m₁) ∧
      ev.context = context_id "UNKNOWN_CONTEXT" ∧
      m₁.cfg.rtos_mode = RtosMode.none ∧
      m₁.context_stack = [context_id "UNKNOWN_CONTEXT"] ∧
      (∀ rs evs m₂, m₁.run_records rs = .ok (evs, m₂) → m₂.cfg.rtos_mode = RtosMode.none)) :=
  ⟨by decide, by decide, c5_invalid_start_fallback rtic1Cfg [] _ (by decide) (by decide)⟩

/-! ## C10: the fallback event is never nonce-stamped -/

/-- C10: when the first rtic1 record is an invalid start event, the fallback
`ContextEvent` emitted on `UNKNOWN_CONTEXT` carries no
`event.internal.defmt.nonce` attribute and the `UNKNOWN_CONTEXT` timeline's
nonce counter stays 0 (the fallback branch returns before the
nonce-stamping stage); by contrast, the next record, processed in `none`
mode, is stamped with the freshly incremented nonce 1. -/
theorem c10_fallback_no_nonce (cfg : PluginConfig) (common : EventAttributes)
    (r : EventRecord)
    (hmode : cfg.rtos_mode = RtosMode.rtic1)
    (hinvalid : ¬ (r.event_name = some "AUXON_TRACE_START" ∧ r.task_name.isSome ∧
      r.integration_version.isSome))
    (hnn : mapGet r.attributes "event.internal.defmt.nonce" = none) :
    ∃ ev m₁, (ContextManager.new cfg common).process_record r = .ok (⟨[ev]⟩, m₁) ∧
      mapGet ev.record.attributes "event.internal.defmt.nonce" = none ∧
      (mapGet m₁.contexts_to_timelines (context_id "UNKNOWN_CONTEXT")).map
        TimelineMeta.nonce = some 0 ∧
      (∀ r₂ ac₂ m₂, m₁.process_record r₂ = .ok (ac₂, m₂) →
        ac₂.events.map (fun e => e.record.internal_nonce) = [some 1]) := by
  refine ⟨_, _, process_record_invalid_start cfg common r hmode hinvalid, ?_, ?_, ?_⟩
  · show mapGet (mapInsert r.attributes (EventRecord.internal_attr_key "event_counter")
      (attrValOfU64 1)) "event.internal.defmt.nonce" = none
    rw [mapGet_insert_ne _ _ _ _ (by decide)]
    exact hnn
  · simp [mapGet, unknown_timeline_nonce]
  · intro r₂ ac₂ m₂ h
    have hstep := process_record_vanilla_step
      { cfg := { cfg with rtos_mode := RtosMode.none },
        common_timeline_attrs := common, global_ordering := 1, event_counter := 1,
        last_timestamp := r.timestamp_raw, integration_version := none,
        pending_context_switch_interaction := none,
        context_stack := [context_id "UNKNOWN_CONTEXT"],
        contexts_to_timelines := [(context_id "UNKNOWN_CONTEXT", unknown_timeline common)],
        next_timeline_id := 1 } r₂ (context_id "UNKNOWN_CONTEXT") (unknown_timeline common)
      rfl (by show satAdd64 1 ≠ 1; decide) (by simp) (by simp [mapGet])
    rw [hstep] at h
    rw [Except.ok.injEq, Prod.mk.injEq] at h
    rw [← h.1]
    simp only [List.map, internal_nonce_add, unknown_timeline_nonce]
    decide

/-- Witness for C10 at the same concrete non-start record. -/
theorem c10_witness :
    rtic1Cfg.rtos_mode = RtosMode.rtic1 ∧
    ¬ ((named_event_rec "foo" 1).event_name = some "AUXON_TRACE_START" ∧
      (named_event_rec "foo" 1).task_name.isSome ∧
      (named_event_rec "foo" 1).integration_version.isSome) ∧
    mapGet (named_event_rec "foo" 1).attributes "event.internal.defmt.nonce" = none ∧
    (∃ ev m₁, (ContextManager.new rtic1Cfg []).process_record (named_event_rec "foo" 1) =
        .ok (⟨[ev]⟩, m₁) ∧
      mapGet ev.record.attributes "event.internal.defmt.nonce" = none ∧
      (mapGet m₁.contexts_to_timelines (context_id "UNKNOWN_CONTEXT")).map
        TimelineMeta.nonce = some 0 ∧
      (∀ r₂ ac₂ m₂, m₁.process_record r₂ = .ok (ac₂, m₂) →
        ac₂.events.map (fun e => e.record.internal_nonce) = [some 1])) :=
  ⟨by decide, by decide, by decide,
   c10_fallback_no_nonce rtic1Cfg [] _ (by decide) (by decide) (by decide)⟩

/-! ## C6: timestamp unit conversion -/

/-- The keys the fragment walk of `from_frame` inserts. -/
def walkKeys (pav : String → Option AttrVal) (args : List Arg) (frags : List Fragment) :
    List String :=
  (walkFragments pav args frags).2.map Prod.fst

/-- The nanosecond multiplier of a known unit hint, as the claim lists them. -/
def hintMult (h : String) : Option Nat :=
  if h = "us" ∨ h = "tus" then some 1000
  else if h = "ms" ∨ h = "tms" then some 1000000
  else if h = "ts" then some 1000000000
  else none

theorem mapGet_applyInserts_not_mem (m : EventAttributes) (l : List (String × AttrVal))
    (k : String) (h : k ∉ l.map Prod.fst) :
    mapGet (applyInserts m l) k = mapGet m k := by
  induction l generalizing m with
  | nil => rfl
  | cons kv rest ih =>
    simp only [List.map_cons, List.mem_cons, not_or] at h
    show mapGet (applyInserts (mapInsert m kv.1 kv.2) rest) k = mapGet m k
    rw [ih _ h.2, mapGet_insert_ne _ _ _ _ h.1]

theorem ek_name : EventRecord.attr_key "name" = "event.name" := rfl

theorem ek_timestamp : EventRecord.attr_key "timestamp" = "event.timestamp" := rfl

theorem ek_level : EventRecord.attr_key "level" = "event.level" := rfl

theorem ek_source_file : EventRecord.attr_key "source.file" = "event.source.file" := rfl

theorem ek_source_line : EventRecord.attr_key "source.line" = "event.source.line" := rfl

theorem ek_source_module : EventRecord.attr_key "source.module" = "event.source.module" := rfl

theorem ek_source_uri : EventRecord.attr_key "source.uri" = "event.source.uri" := rfl

theorem ik_timestamp :
    EventRecord.internal_attr_key "timestamp" = "event.internal.defmt.timestamp" := rfl

theorem ik_timestamp_type :
    EventRecord.internal_attr_key "timestamp.type" = "event.internal.defmt.timestamp.type" := rfl

theorem ik_table_index :
    EventRecord.internal_attr_key "table_index" = "event.internal.defmt.table_index" := rfl

theorem ik_formatted_string :
    EventRecord.internal_attr_key "formatted_string" =
      "event.internal.defmt.formatted_string" := rfl

theorem ik_event_counter :
    EventRecord.internal_attr_key "event_counter" = "event.internal.defmt.event_counter" := rfl

theorem ik_nonce : EventRecord.internal_attr_key "nonce" = "event.internal.defmt.nonce" := rfl

/-- A lookup on a `from_frame` record reduces to a lookup on the timestamp
attribute stage when the key is none of the fixed later-stage keys and the
fragment walk never writes it. -/
theorem mapGet_from_frame (pav : String → Option AttrVal) (f : Frame)
    (loc : Option Location) (k : String)
    (hname : k ≠ "event.name")
    (hfixed : k ∉ ["event.source.file", "event.source.line", "event.source.module",
      "event.source.uri", "event.level", "event.internal.defmt.table_index",
      "event.internal.defmt.formatted_string"])
    (hwalk : k ∉ walkKeys pav f.args f.fragments) :
    mapGet (EventRecord.from_frame pav f loc).attributes k =
      mapGet (from_frame_ts_attrs f) k := by
  simp only [List.mem_cons, List.mem_singleton, not_or] at hfixed
  obtain ⟨h₁, h₂, h₃, h₄, h₅, h₆, h₇, -⟩ := hfixed
  unfold EventRecord.from_frame
  cases hn : (walkFragments pav f.args f.fragments).1.name <;>
    cases loc <;>
      cases hl : f.level <;>
        simp only [hn, hl, ek_name, ek_level, ek_source_file, ek_source_line,
          ek_source_module, ek_source_uri, ik_table_index, ik_formatted_string] <;>
        rw [mapGet_insert_ne _ _ _ _ hname] <;>
        rw [mapGet_applyInserts_not_mem _ _ _ hwalk] <;>
        simp only [mapGet_insert_ne _ _ _ _ h₁, mapGet_insert_ne _ _ _ _ h₂,
          mapGet_insert_ne _ _ _ _ h₃, mapGet_insert_ne _ _ _ _ h₄,
          mapGet_insert_ne _ _ _ _ h₅, mapGet_insert_ne _ _ _ _ h₆,
          mapGet_insert_ne _ _ _ _ h₇]

/-- C6: for every frame whose timestamp format has a known unit hint
(`us`/`tus` microseconds, `ms`/`tms` milliseconds, `ts` seconds) and a
single u64-compatible argument `v`, `EventRecord::from_frame` records
`event.timestamp` equal to `v` times the unit's nanosecond multiplier when
the multiplication does not overflow u64; on overflow `event.timestamp` is
absent while `event.internal.defmt.timestamp` (raw `v`) and
`event.internal.defmt.timestamp.type` are still recorded.  (The `hw`
hypotheses say that no fragment-walk attribute reuses the three reserved
timestamp keys.) -/
theorem c6_timestamp_conversion (pav : String → Option AttrVal) (f : Frame)
    (loc : Option Location) (fmt hint : String) (a : Arg) (v mult : Nat)
    (hfmt : f.tsFormat = some fmt)
    (hargs : f.tsArgs = [a])
    (hv : ts_from_arg a = some v)
    (hhint : ts_fmt_hint fmt = some hint)
    (hmult : hintMult hint = some mult)
    (hw₁ : "event.timestamp" ∉ walkKeys pav f.args f.fragments)
    (hw₂ : "event.internal.defmt.timestamp" ∉ walkKeys pav f.args f.fragments)
    (hw₃ : "event.internal.defmt.timestamp.type" ∉ walkKeys pav f.args f.fragments) :
    mapGet (EventRecord.from_frame pav f loc).attributes "event.timestamp" =
      (if v * mult ≤ u64Max then some (AttrVal.timestamp (v * mult)) else none) ∧
    mapGet (EventRecord.from_frame pav f loc).attributes "event.internal.defmt.timestamp" =
      some (attrValOfU64 v) ∧
    (∃ ty, mapGet (EventRecord.from_frame pav f loc).attributes
      "event.internal.defmt.timestamp.type" = some (AttrVal.string ty)) := by
  rw [mapGet_from_frame pav f loc "event.timestamp" (by decide) (by decide) hw₁,
    mapGet_from_frame pav f loc "event.internal.defmt.timestamp" (by decide) (by decide) hw₂,
    mapGet_from_frame pav f loc "event.internal.defmt.timestamp.type" (by decide) (by decide)
      hw₃]
  unfold hintMult at hmult
  split_ifs at hmult with hc₁ hc₂ hc₃
  · -- microseconds
    have hts : Timestamp.from_frame f = some (Timestamp.micros v) := by
      unfold Timestamp.from_frame
      rw [hfmt, hargs]
      simp [hv, hhint, hc₁]
    rw [Option.some.injEq] at hmult
    subst hmult
    unfold from_frame_ts_attrs
    rw [hts]
    simp only [Timestamp.as_nanoseconds, Timestamp.as_u64, Timestamp.typ_str, checkedMul,
      ik_timestamp, ik_timestamp_type, ek_timestamp]
    split_ifs with hov <;> refine ⟨by simp [mapGet, mapInsert], by simp [mapGet, mapInsert],
      ⟨"us", by simp [mapGet, mapInsert]⟩⟩
  · -- milliseconds
    have hts : Timestamp.from_frame f = some (Timestamp.millis v) := by
      unfold Timestamp.from_frame
      rw [hfmt, hargs]
      have : ¬ (hint = "us" ∨ hint = "tus") := hc₁
      simp [hv, hhint, hc₂, this]
    rw [Option.some.injEq] at hmult
    subst hmult
    unfold from_frame_ts_attrs
    rw [hts]
    simp only [Timestamp.as_nanoseconds, Timestamp.as_u64, Timestamp.typ_str, checkedMul,
      ik_timestamp, ik_timestamp_type, ek_timestamp]
    split_ifs with hov <;> refine ⟨by simp [mapGet, mapInsert], by simp [mapGet, mapInsert],
      ⟨"ms", by simp [mapGet, mapInsert]⟩⟩
  · -- seconds
    have hts : Timestamp.from_frame f = some (Timestamp.seconds v) := by
      unfold Timestamp.from_frame
      rw [hfmt, hargs]
      have h₁ : ¬ (hint = "us" ∨ hint = "tus") := hc₁
      have h₂ : ¬ (hint = "ms" ∨ hint = "tms") := hc₂
      simp [hv, hhint, hc₃, h₁, h₂]
    rw [Option.some.injEq] at hmult
    subst hmult
    unfold from_frame_ts_attrs
    rw [hts]
    simp only [Timestamp.as_nanoseconds, Timestamp.as_u64, Timestamp.typ_str, checkedMul,
      ik_timestamp, ik_timestamp_type, ek_timestamp]
    split_ifs with hov <;> refine ⟨by simp [mapGet, mapInsert], by simp [mapGet, mapInsert],
      ⟨"s", by simp [mapGet, mapInsert]⟩⟩

/-- Witness for C6: a concrete microsecond frame (`v = 2`) and a concrete
overflowing seconds frame (`v = 2^64 - 1`). -/
theorem c6_witness :
    (mapGet (EventRecord.from_frame (fun _ => none)
        ⟨0, [], some "info", some "=u8:us", [Arg.uxx 2], [], "hello"⟩ none).attributes
      "event.timestamp" = some (AttrVal.timestamp 2000) ∧
     mapGet (EventRecord.from_frame (fun _ => none)
        ⟨0, [], some "info", some "=u8:us", [Arg.uxx 2], [], "hello"⟩ none).attributes
      "event.internal.defmt.timestamp" = some (attrValOfU64 2)) ∧
    (mapGet (EventRecord.from_frame (fun _ => none)
        ⟨0, [], none, some "=u64:ts", [Arg.uxx (2 ^ 64 - 1)], [], "x"⟩ none).attributes
      "event.timestamp" = none ∧
     mapGet (EventRecord.from_frame (fun _ => none)
        ⟨0, [], none, some "=u64:ts", [Arg.uxx (2 ^ 64 - 1)], [], "x"⟩ none).attributes
      "event.internal.defmt.timestamp" = some (attrValOfU64 (2 ^ 64 - 1))) := by
  have h₁ := c6_timestamp_conversion (fun _ => none)
    ⟨0, [], some "info", some "=u8:us", [Arg.uxx 2], [], "hello"⟩ none
    "=u8:us" "us" (Arg.uxx 2) 2 1000 rfl rfl (by decide) (by decide) (by decide)
    (by decide) (by decide) (by decide)
  have h₂ := c6_timestamp_conversion (fun _ => none)
    ⟨0, [], none, some "=u64:ts", [Arg.uxx (2 ^ 64 - 1)], [], "x"⟩ none
    "=u64:ts" "ts" (Arg.uxx (2 ^ 64 - 1)) (2 ^ 64 - 1) 1000000000 rfl rfl (by decide)
    (by decide) (by decide) (by decide) (by decide) (by decide)
  refine ⟨⟨?_, h₁.2.1⟩, ⟨?_, h₂.2.1⟩⟩
  · rw [h₁.1]
    decide
  · rw [h₂.1]
    decide

/-- The frame of the source's `simple_literal` unit test (format
"Hello, world!", timestamp format `=u8:us` with argument 2, info level,
location `/foo/src/main.rs:12` in module `bar`). -/
def simple_literal_frame : Frame :=
  ⟨0, [Fragment.literal "Hello, world!"], some "info", some "=u8:us", [Arg.uxx 2], [],
   "Hello, world!"⟩

/-- The model reproduces the attribute map asserted by the source's
`simple_literal` unit test. -/
theorem model_matches_simple_literal_test :
    (EventRecord.from_frame (fun _ => none) simple_literal_frame
      (some ⟨"/foo/src/main.rs", 12, "bar"⟩)).attributes.map Prod.fst =
      ["event.internal.defmt.timestamp.type", "event.internal.defmt.timestamp",
       "event.timestamp", "event.source.file", "event.source.line", "event.source.module",
       "event.source.uri", "event.level", "event.internal.defmt.table_index",
       "event.internal.defmt.formatted_string", "event.name"] ∧
    mapGet (EventRecord.from_frame (fun _ => none) simple_literal_frame
      (some ⟨"/foo/src/main.rs", 12, "bar"⟩)).attributes "event.name" =
      some (AttrVal.string "Hello, world!") ∧
    mapGet (EventRecord.from_frame (fun _ => none) simple_literal_frame
      (some ⟨"/foo/src/main.rs", 12, "bar"⟩)).attributes "event.timestamp" =
      some (AttrVal.timestamp 2000) ∧
    mapGet (EventRecord.from_frame (fun _ => none) simple_literal_frame
      (some ⟨"/foo/src/main.rs", 12, "bar"⟩)).attributes "event.source.uri" =
      some (AttrVal.string "file:///foo/src/main.rs:12") ∧
    mapGet (EventRecord.from_frame (fun _ => none) simple_literal_frame
      (some ⟨"/foo/src/main.rs", 12, "bar"⟩)).attributes "event.level" =
      some (AttrVal.string "info") := by decide

/-! ## C7: attribute key prefixes -/

/-- `s` begins with the prefix `p`. -/
def strHasPre (p s : String) : Prop := p.data <+: s.data

instance (p s : String) : Decidable (strHasPre p s) := by
  unfold strHasPre
  infer_instance

theorem strHasPre_append (p t : String) : strHasPre p (p ++ t) := by
  unfold strHasPre
  rw [String.data_append]
  exact List.prefix_append _ _

theorem strHasPre_attr_key (k : String) : strHasPre "event." (EventRecord.attr_key k) :=
  strHasPre_append _ _

theorem strHasPre_internal_attr_key (k : String) :
    strHasPre "event." (EventRecord.internal_attr_key k) := by
  unfold strHasPre EventRecord.internal_attr_key
  rw [String.data_append]
  exact List.IsPrefix.trans (by decide) (List.prefix_append _ _)

theorem strHasPre_tl_attr_key (k : String) :
    strHasPre "timeline." (TimelineMeta.attr_key k) :=
  strHasPre_append _ _

theorem strHasPre_tl_internal_attr_key (k : String) :
    strHasPre "timeline." (TimelineMeta.internal_attr_key k) := by
  unfold strHasPre TimelineMeta.internal_attr_key
  rw [String.data_append]
  exact List.IsPrefix.trans (by decide) (List.prefix_append _ _)

theorem walkFragment_keys (pav : String → Option AttrVal) (args : List Arg) (idx : Nat)
    (st : WalkState) (frag : Fragment) :
    ∀ kv ∈ (walkFragment pav args idx st frag).2, strHasPre "event." kv.1 := by
  cases frag with
  | literal l =>
    intro kv hkv
    simp only [walkFragment, List.mem_map] at hkv
    obtain ⟨p, -, hp⟩ := hkv
    rw [← hp]
    exact strHasPre_attr_key _
  | parameter index ty =>
    intro kv hkv
    unfold walkFragment at hkv
    cases hp : st.pending with
    | none => rw [hp] at hkv; exact absurd hkv (by simp)
    | some key₀ =>
      rw [hp] at hkv
      simp only at hkv
      split at hkv
      · simp only [List.mem_append, List.mem_singleton] at hkv
        rcases hkv with h | h
        · rw [show kv = _ from by simpa using h]
          exact strHasPre_internal_attr_key _
        · rw [h]
          exact strHasPre_attr_key _
      · split at hkv
        · rw [show kv = _ from by simpa using hkv]
          exact strHasPre_internal_attr_key _
        · split at hkv
          · split at hkv
            · split at hkv
              · simp only [List.mem_append, List.mem_singleton] at hkv
                rcases hkv with h | h
                · rw [show kv = _ from by simpa using h]
                  exact strHasPre_internal_attr_key _
                · rw [h]
                  exact strHasPre_attr_key _
              · rw [show kv = _ from by simpa using hkv]
                exact strHasPre_internal_attr_key _
            · rw [show kv = _ from by simpa using hkv]
              exact strHasPre_internal_attr_key _
          · rw [show kv = _ from by simpa using hkv]
            exact strHasPre_internal_attr_key _

theorem walkFragments_keys (pav : String → Option AttrVal) (args : List Arg)
    (frags : List Fragment) :
    ∀ kv ∈ (walkFragments pav args frags).2, strHasPre "event." kv.1 := by
  have hgen : ∀ (l : List (Nat × Fragment)) (acc : WalkState × List (String × AttrVal)),
      (∀ kv ∈ acc.2, strHasPre "event." kv.1) →
      ∀ kv ∈ (l.foldl (fun acc p =>
          let r := walkFragment pav args p.1 acc.1 p.2
          (r.1, acc.2 ++ r.2)) acc).2,
        strHasPre "event." kv.1 := by
    intro l
    induction l with
    | nil => intro acc hacc kv hkv; exact hacc kv hkv
    | cons p rest ih =>
      intro acc hacc kv hkv
      refine ih _ ?_ kv hkv
      intro kv₂ hkv₂
      rcases List.mem_append.mp hkv₂ with h | h
      · exact hacc kv₂ h
      · exact walkFragment_keys pav args p.1 acc.1 p.2 kv₂ h
  intro kv hkv
  exact hgen frags.enum (⟨none, none, none⟩, []) (by simp) kv hkv

theorem applyInserts_keysAll (m : EventAttributes) (l : List (String × AttrVal))
    {p : String → Prop} (hm : mapKeysAll m p) (hl : ∀ kv ∈ l, p kv.1) :
    mapKeysAll (applyInserts m l) p := by
  induction l generalizing m with
  | nil => exact hm
  | cons kv rest ih =>
    show mapKeysAll (applyInserts (mapInsert m kv.1 kv.2) rest) p
    refine ih _ (mapKeysAll_insert _ _ _ hm (hl kv (by simp))) ?_
    intro kv₂ hkv₂
    exact hl kv₂ (List.mem_cons_of_mem _ hkv₂)

theorem from_frame_ts_attrs_keysAll (f : Frame) :
    mapKeysAll (from_frame_ts_attrs f) (strHasPre "event.") := by
  have h₀ : mapKeysAll ([] : EventAttributes) (strHasPre "event.") := by
    intro kv hkv
    exact absurd hkv (by simp)
  unfold from_frame_ts_attrs
  split
  · rename_i ts heq
    have h₂ := mapKeysAll_insert _ (EventRecord.internal_attr_key "timestamp")
      (attrValOfU64 ts.as_u64)
      (mapKeysAll_insert _ (EventRecord.internal_attr_key "timestamp.type")
        (AttrVal.string ts.typ_str) h₀ (strHasPre_internal_attr_key _))
      (strHasPre_internal_attr_key _)
    split
    · exact mapKeysAll_insert _ _ _ h₂ (strHasPre_attr_key _)
    · exact h₂
  · exact h₀

/-- Every key of a record built by `EventRecord::from_frame` begins with
`event.`. -/
theorem from_frame_keysAll (pav : String → Option AttrVal) (f : Frame)
    (loc : Option Location) :
    mapKeysAll (EventRecord.from_frame pav f loc).attributes (strHasPre "event.") := by
  unfold EventRecord.from_frame
  cases loc <;>
    cases hl : f.level <;>
      cases hn : (walkFragments pav f.args f.fragments).1.name <;>
        simp only [hl, hn] <;>
        refine mapKeysAll_insert _ _ _
          (applyInserts_keysAll _ _ ?_ (walkFragments_keys pav f.args f.fragments))
          (strHasPre_attr_key _) <;>
        first
        | exact mapKeysAll_insert _ _ _
            (mapKeysAll_insert _ _ _ (from_frame_ts_attrs_keysAll f)
              (strHasPre_internal_attr_key _))
            (strHasPre_internal_attr_key _)
        | exact mapKeysAll_insert _ _ _
            (mapKeysAll_insert _ _ _
              (mapKeysAll_insert _ _ _ (from_frame_ts_attrs_keysAll f) (strHasPre_attr_key _))
              (strHasPre_internal_attr_key _))
            (strHasPre_internal_attr_key _)
        | exact mapKeysAll_insert _ _ _
            (mapKeysAll_insert _ _ _
              (mapKeysAll_insert _ _ _
                (mapKeysAll_insert _ _ _
                  (mapKeysAll_insert _ _ _
                    (mapKeysAll_insert _ _ _ (from_frame_ts_attrs_keysAll f)
                      (strHasPre_attr_key _))
                    (strHasPre_attr_key _))
                  (strHasPre_attr_key _))
                (strHasPre_attr_key _))
              (strHasPre_internal_attr_key _))
            (strHasPre_internal_attr_key _)
        | exact mapKeysAll_insert _ _ _
            (mapKeysAll_insert _ _ _
              (mapKeysAll_insert _ _ _
                (mapKeysAll_insert _ _ _
                  (mapKeysAll_insert _ _ _
                    (mapKeysAll_insert _ _ _
                      (mapKeysAll_insert _ _ _ (from_frame_ts_attrs_keysAll f)
                        (strHasPre_attr_key _))
                      (strHasPre_attr_key _))
                    (strHasPre_attr_key _))
                  (strHasPre_attr_key _))
                (strHasPre_attr_key _))
              (strHasPre_internal_attr_key _))
            (strHasPre_internal_attr_key _)

theorem foldl_insert_attr_keysAll (l : EventAttributes) (tl : TimelineMeta)
    {p : String → Prop} (hbase : mapKeysAll tl.attributes p) (hl : ∀ kv ∈ l, p kv.1) :
    mapKeysAll (l.foldl (fun t kv => t.insert_attr kv.1 kv.2) tl).attributes p := by
  induction l generalizing tl with
  | nil => exact hbase
  | cons kv rest ih =>
    rw [List.foldl_cons]
    refine ih _ (mapKeysAll_insert _ _ _ hbase (hl kv (by simp))) ?_
    intro kv₂ hkv₂
    exact hl kv₂ (List.mem_cons_of_mem _ hkv₂)

theorem timeline_meta_new_keysAll (n : String) (cid id : Nat) :
    mapKeysAll (TimelineMeta.new n cid id).attributes (strHasPre "timeline.") := by
  refine mapKeysAll_insert _ _ _ (mapKeysAll_insert _ _ _ ?_ (strHasPre_tl_attr_key _))
    (strHasPre_tl_internal_attr_key _)
  intro kv hkv
  exact absurd hkv (by simp)

theorem mkCommonTimelineAttrs_keysAll (additional overrides : List (String × AttrVal))
    (run_id : AttrVal) (enc clock : String) (rate : Option (Nat × Nat))
    (hadd : ∀ kv ∈ additional, strHasPre "timeline." kv.1)
    (hov : ∀ kv ∈ overrides, strHasPre "timeline." kv.1) :
    mapKeysAll (mkCommonTimelineAttrs additional run_id enc clock rate overrides)
      (strHasPre "timeline.") := by
  unfold mkCommonTimelineAttrs
  have h₀ : mapKeysAll (applyInserts [] additional) (strHasPre "timeline.") :=
    applyInserts_keysAll _ _ (fun kv hkv => absurd hkv (by simp)) hadd
  have h₁ := mapKeysAll_insert _ _ run_id h₀ (strHasPre_tl_attr_key "run_id")
  have h₂ := mapKeysAll_insert _ _ (AttrVal.string enc) h₁
    (strHasPre_tl_internal_attr_key "table.encoding")
  have h₃ := mapKeysAll_insert _ _ (AttrVal.string clock) h₂
    (strHasPre_tl_attr_key "clock_id")
  have h₄ := mapKeysAll_insert _ _ (AttrVal.string "relative") h₃
    (strHasPre_tl_attr_key "clock_style")
  refine applyInserts_keysAll _ _ ?_ hov
  cases rate with
  | none => exact h₄
  | some r =>
    exact mapKeysAll_insert _ _ _
      (mapKeysAll_insert _ _ _
        (mapKeysAll_insert _ _ _ h₄ (strHasPre_tl_attr_key _))
        (strHasPre_tl_attr_key _))
      (strHasPre_tl_attr_key _)

theorem alloc_context_timeline_keysAll (m : ContextManager) (n : String)
    (hcommon : mapKeysAll m.common_timeline_attrs (strHasPre "timeline."))
    (hall : ∀ c tl, mapGet m.contexts_to_timelines c = some tl →
      mapKeysAll tl.attributes (strHasPre "timeline."))
    (c : Nat) (tl : TimelineMeta)
    (h : mapGet (m.alloc_context n).2.contexts_to_timelines c = some tl) :
    mapKeysAll tl.attributes (strHasPre "timeline.") := by
  unfold ContextManager.alloc_context at h
  cases hm : mapGet m.contexts_to_timelines (context_id n) with
  | some tl₀ =>
    simp only [hm] at h
    exact hall c tl h
  | none =>
    simp only [hm] at h
    by_cases hc : context_id n = c
    · rw [← hc] at h
      rw [mapGet_insert_self] at h
      rw [Option.some.injEq] at h
      rw [← h]
      refine foldl_insert_attr_keysAll _ _ ?_ hcommon
      have hbase := timeline_meta_new_keysAll n (context_id n) m.next_timeline_id
      cases hiv : m.integration_version with
      | none =>
        simp only [hiv]
        exact mapKeysAll_insert _ _ _ hbase (strHasPre_tl_internal_attr_key _)
      | some v =>
        simp only [hiv]
        exact mapKeysAll_insert _ _ _
          (mapKeysAll_insert _ _ _ hbase (strHasPre_tl_internal_attr_key _))
          (strHasPre_tl_internal_attr_key _)
    · rw [mapGet_insert_ne _ _ _ _ (fun hx => hc hx.symm)] at h
      exact hall c tl h

/-- C7 counterexample: with additional timeline attributes taken from the
repository's own test configuration (`additional-timeline-attributes =
["ci_run=1", ...]`), the common-attribute assembly of `defmt_reader::run`
passes the unprefixed key `ci_run` through verbatim, so the allocated
`TimelineMeta` contains an attribute key that does not begin with
`timeline.`. -/
theorem c7_counterexample :
    (mapGet ((ContextManager.new
        { rtos_mode := RtosMode.none, init_task_name := none, disable_interactions := false }
        (mkCommonTimelineAttrs [("ci_run", AttrVal.integer 1)] (AttrVal.string "r") "Raw"
          "c0" none [])).alloc_context "main").2.contexts_to_timelines
      (context_id "main")).map (fun tl => mapGet tl.attributes "ci_run") =
      some (some (AttrVal.integer 1)) ∧
    ¬ strHasPre "timeline." "ci_run" := by decide

/-- C7 (amended): every attribute key of an `EventRecord` built by
`EventRecord::from_frame` begins with `event.`, and every attribute key of
a `TimelineMeta` begins with `timeline.` provided the configured
additional / override timeline attribute keys do — the pipeline passes
configuration keys through verbatim (they are only normalized at ingest
time by the dispatcher), so unprefixed configured keys reach the
`TimelineMeta` unchanged. -/
theorem c7_key_prefixes
    (pav : String → Option AttrVal) (f : Frame) (loc : Option Location)
    (additional overrides : List (String × AttrVal)) (run_id : AttrVal) (enc clock : String)
    (rate : Option (Nat × Nat)) (m : ContextManager) (n : String) (c : Nat)
    (tl : TimelineMeta)
    (hadd : ∀ kv ∈ additional, strHasPre "timeline." kv.1)
    (hov : ∀ kv ∈ overrides, strHasPre "timeline." kv.1)
    (hcommon : mapKeysAll m.common_timeline_attrs (strHasPre "timeline."))
    (hall : ∀ c₂ tl₂, mapGet m.contexts_to_timelines c₂ = some tl₂ →
      mapKeysAll tl₂.attributes (strHasPre "timeline."))
    (htl : mapGet (m.alloc_context n).2.contexts_to_timelines c = some tl) :
    mapKeysAll (EventRecord.from_frame pav f loc).attributes (strHasPre "event.") ∧
    mapKeysAll (mkCommonTimelineAttrs additional run_id enc clock rate overrides)
      (strHasPre "timeline.") ∧
    mapKeysAll tl.attributes (strHasPre "timeline.") :=
  ⟨from_frame_keysAll pav f loc,
   mkCommonTimelineAttrs_keysAll additional overrides run_id enc clock rate hadd hov,
   alloc_context_timeline_keysAll m n hcommon hall c tl htl⟩

/-- Witness for C7 at concrete inputs: the `simple_literal` frame and a
fresh manager with one properly prefixed configured attribute. -/
theorem c7_witness :
    mapKeysAll (EventRecord.from_frame (fun _ => none) simple_literal_frame
      (some ⟨"/foo/src/main.rs", 12, "bar"⟩)).attributes (strHasPre "event.") ∧
    mapKeysAll (mkCommonTimelineAttrs [("timeline.ci_run", AttrVal.integer 1)]
      (AttrVal.string "r") "Raw" "c0" none []) (strHasPre "timeline.") ∧
    mapKeysAll (unknown_timeline []).attributes (strHasPre "timeline.") := by
  have h := c7_key_prefixes (fun _ => none) simple_literal_frame
    (some ⟨"/foo/src/main.rs", 12, "bar"⟩)
    [("timeline.ci_run", AttrVal.integer 1)] [] (AttrVal.string "r") "Raw" "c0" none
    (ContextManager.new
      { rtos_mode := RtosMode.none, init_task_name := none, disable_interactions := false } [])
    "UNKNOWN_CONTEXT" (context_id "UNKNOWN_CONTEXT") (unknown_timeline [])
    (by decide) (by decide)
    (by intro kv hkv; exact absurd hkv (by simp [ContextManager.new]))
    (by intro c₂ tl₂ hx; exact absurd hx (by simp [ContextManager.new, mapGet]))
    (by decide)
  exact h

/-! ## Dispatch lemmas for the big rtic1 match -/

theorem process_record_rtic1_eq (m : ContextManager) (ev : EventRecord)
    (hmode : m.cfg.rtos_mode = RtosMode.rtic1)
    (hgate : ¬ (satAdd64 m.event_counter = 1 ∧ m.integration_version = none)) :
    m.process_record ev = (m.pre_process ev).process_rtic1_main (m.counted_record ev) := by
  unfold ContextManager.process_record ContextManager.process_rtic1
  rw [if_pos (by simp [ContextManager.pre_process, hmode])]
  rw [if_neg (by simpa [ContextManager.pre_process] using hgate)]

theorem main_dispatch_enter (m : ContextManager) (ev : EventRecord) (cn : String)
    (h : ev.event_name = some "AUXON_TASK_ENTER" ∨ ev.event_name = some "AUXON_INTERRUPT_ENTER")
    (h₂ : ContextManager.task_or_isr_name ev = some cn) :
    m.process_rtic1_main ev =
      match m.rtic1_enter ev cn with
      | .error e => .error e
      | .ok (r, m₁) => ContextManager.stamp_and_emit m₁ ev r := by
  unfold ContextManager.process_rtic1_main
  rcases h with h | h <;> rw [h, h₂] <;> rfl

theorem main_dispatch_exit (m : ContextManager) (ev : EventRecord)
    (h : ev.event_name = some "AUXON_TASK_EXIT" ∨ ev.event_name = some "AUXON_INTERRUPT_EXIT") :
    m.process_rtic1_main ev =
      match m.rtic1_exit with
      | .error e => .error e
      | .ok (r, m₁) => ContextManager.stamp_and_emit m₁ ev r := by
  unfold ContextManager.process_rtic1_main
  rcases h with h | h <;> rw [h] <;> cases ContextManager.task_or_isr_name ev <;> rfl

theorem main_dispatch_start (m : ContextManager) (ev : EventRecord) (cn : String)
    (h : ev.event_name = some "AUXON_TRACE_START")
    (h₂ : ContextManager.task_or_isr_name ev = some cn)
    (hec : m.event_counter = 1) :
    m.process_rtic1_main ev =
      match m.rtic1_start ev cn with
      | .error e => .error e
      | .ok (r, m₁) => ContextManager.stamp_and_emit m₁ ev r := by
  unfold ContextManager.process_rtic1_main
  rw [h, h₂]
  show (match (if m.event_counter = 1 then m.rtic1_start ev cn else m.rtic1_other ev) with
    | Except.error e => Except.error e
    | Except.ok (r, m₁) => ContextManager.stamp_and_emit m₁ ev r) = _
  rw [if_pos hec]

theorem main_dispatch_other_none (m : ContextManager) (ev : EventRecord)
    (h : ev.event_name = none) :
    m.process_rtic1_main ev =
      match m.rtic1_other ev with
      | .error e => .error e
      | .ok (r, m₁) => ContextManager.stamp_and_emit m₁ ev r := by
  unfold ContextManager.process_rtic1_main
  rw [h]

theorem main_dispatch_other_name (m : ContextManager) (ev : EventRecord) (s : String)
    (h : ev.event_name = some s)
    (h₁ : s ≠ "AUXON_TASK_ENTER") (h₂ : s ≠ "AUXON_INTERRUPT_ENTER")
    (h₃ : s ≠ "AUXON_TASK_EXIT") (h₄ : s ≠ "AUXON_INTERRUPT_EXIT")
    (h₅ : s ≠ "AUXON_TRACE_START") :
    m.process_rtic1_main ev =
      match m.rtic1_other ev with
      | .error e => .error e
      | .ok (r, m₁) => ContextManager.stamp_and_emit m₁ ev r := by
  unfold ContextManager.process_rtic1_main
  rw [h]
  cases ContextManager.task_or_isr_name ev <;> simp [h₁, h₂, h₃, h₄, h₅]

theorem main_dispatch_other_noname (m : ContextManager) (ev : EventRecord) (s : String)
    (h : ev.event_name = some s)
    (h₂ : ContextManager.task_or_isr_name ev = none)
    (h₃ : s ≠ "AUXON_TASK_EXIT") (h₄ : s ≠ "AUXON_INTERRUPT_EXIT") :
    m.process_rtic1_main ev =
      match m.rtic1_other ev with
      | .error e => .error e
      | .ok (r, m₁) => ContextManager.stamp_and_emit m₁ ev r := by
  unfold ContextManager.process_rtic1_main
  rw [h, h₂]
  simp [h₃, h₄]

theorem main_dispatch_start_notfirst (m : ContextManager) (ev : EventRecord) (cn : String)
    (h : ev.event_name = some "AUXON_TRACE_START")
    (h₂ : ContextManager.task_or_isr_name ev = some cn)
    (hec : m.event_counter ≠ 1) :
    m.process_rtic1_main ev =
      match m.rtic1_other ev with
      | .error e => .error e
      | .ok (r, m₁) => ContextManager.stamp_and_emit m₁ ev r := by
  unfold ContextManager.process_rtic1_main
  rw [h, h₂]
  simp [hec]

/-! ## Execution lemmas for the rtic1 branches -/

theorem rtic1_exit_root_step (m : ContextManager) (c : Nat)
    (hlen : m.context_stack.length = 1)
    (hstack : m.context_stack.getLast? = some c) :
    m.rtic1_exit = .ok (([], c, m.pending_context_switch_interaction),
      { m with pending_context_switch_interaction := none }) := by
  unfold ContextManager.rtic1_exit ContextManager.pop_context ContextManager.active_context
  rw [hstack]
  simp [hlen]

theorem rtic1_exit_pop_step (m : ContextManager) (c c₂ : Nat) (tl tl₂ : TimelineMeta)
    (hlen : m.context_stack.length ≠ 1)
    (hstack : m.context_stack.getLast? = some c)
    (htl : mapGet m.contexts_to_timelines c = some tl)
    (hstack₂ : m.context_stack.dropLast.getLast? = some c₂)
    (htl₂ : mapGet (mapInsert m.contexts_to_timelines c
        { tl with requires_synthetic_interaction_event := false }) c₂ = some tl₂) :
    m.rtic1_exit = .ok (([], c, m.pending_context_switch_interaction),
      { m with
         context_stack := m.context_stack.dropLast,
         contexts_to_timelines :=
           mapInsert (mapInsert m.contexts_to_timelines c
             { tl with requires_synthetic_interaction_event := false }) c₂
             { tl₂ with requires_synthetic_interaction_event := true },
         pending_context_switch_interaction :=
           some (tl.ctx_id, tl.id, wrapI64 (tl.nonce + 1)) }) := by
  unfold ContextManager.rtic1_exit ContextManager.pop_context ContextManager.active_context
  simp [hlen, hstack, hstack₂, htl, htl₂, TimelineMeta.next_interaction_source]

theorem stamp_and_emit_step (m₁ : ContextManager) (ev : EventRecord)
    (r : ContextManager.Rtic1BranchResult) (tl : TimelineMeta)
    (htl : mapGet m₁.contexts_to_timelines r.2.1 = some tl) :
    ContextManager.stamp_and_emit m₁ ev r = .ok
      (⟨r.1 ++ [⟨r.2.1, m₁.global_ordering,
          (match r.2.2 with
           | some i => (ev.add_internal_nonce (wrapI64 (tl.nonce + 1))).add_interaction
               (!m₁.cfg.disable_interactions) i.2.1 i.2.2
           | none => ev.add_internal_nonce (wrapI64 (tl.nonce + 1))),
          (match r.2.2 with
           | some _ => !m₁.cfg.disable_interactions
           | none => false)⟩]⟩,
       { m₁ with contexts_to_timelines :=
           mapInsert m₁.contexts_to_timelines r.2.1 tl.increment_nonce }) := by
  unfold ContextManager.stamp_and_emit
  rw [htl]
  cases r.2.2 <;> simp [TimelineMeta.increment_nonce]

theorem rtic1_enter_noflag_step (m : ContextManager) (ev : EventRecord) (cn : String)
    (c : Nat) (tl : TimelineMeta)
    (hstack : m.context_stack.getLast? = some c)
    (htl : mapGet (m.alloc_context cn).2.contexts_to_timelines c = some tl)
    (hflag : tl.requires_synthetic_interaction_event = false) :
    m.rtic1_enter ev cn = .ok
      (([], context_id cn, some (tl.ctx_id, tl.id, tl.nonce)),
       { (m.alloc_context cn).2 with
          contexts_to_timelines := mapInsert (m.alloc_context cn).2.contexts_to_timelines c
            { tl with requires_synthetic_interaction_event := false },
          context_stack := m.context_stack ++ [context_id cn] }) := by
  unfold ContextManager.rtic1_enter ContextManager.push_context ContextManager.active_context
  simp [alloc_context_fst, alloc_context_stack, hstack, htl, hflag,
    TimelineMeta.interaction_source]

theorem rtic1_enter_flag_step (m : ContextManager) (ev : EventRecord) (cn : String)
    (c : Nat) (tl : TimelineMeta)
    (hstack : m.context_stack.getLast? = some c)
    (htl : mapGet (m.alloc_context cn).2.contexts_to_timelines c = some tl)
    (hflag : tl.requires_synthetic_interaction_event = true) :
    m.rtic1_enter ev cn = .ok
      (([⟨c, m.global_ordering,
          (match m.pending_context_switch_interaction with
           | some pi => (ContextManager.synthetic_record ev
               (wrapI64 (tl.nonce + 1))).add_interaction (!m.cfg.disable_interactions)
               pi.2.1 pi.2.2
           | none => ContextManager.synthetic_record ev (wrapI64 (tl.nonce + 1))),
          (match m.pending_context_switch_interaction with
           | some _ => !m.cfg.disable_interactions
           | none => false)⟩],
        context_id cn,
        some (tl.ctx_id, tl.id, wrapI64 (tl.nonce + 1))),
       { (m.alloc_context cn).2 with
          global_ordering := satAdd128 m.global_ordering,
          pending_context_switch_interaction := none,
          contexts_to_timelines :=
            mapInsert
              (mapInsert (m.alloc_context cn).2.contexts_to_timelines c
                { tl with requires_synthetic_interaction_event := false,
                          nonce := wrapI64 (tl.nonce + 1) }) c
              { tl with requires_synthetic_interaction_event := false,
                        nonce := wrapI64 (tl.nonce + 1) },
          context_stack := m.context_stack ++ [context_id cn] }) := by
  unfold ContextManager.rtic1_enter ContextManager.push_context ContextManager.active_context
  cases hp : m.pending_context_switch_interaction with
  | none =>
    simp [alloc_context_fst, alloc_context_stack, alloc_context_global_ordering,
      alloc_context_pending, alloc_context_cfg, hstack, htl, hflag, hp,
      mapGet_insert_self, TimelineMeta.interaction_source]
  | some pi =>
    simp [alloc_context_fst, alloc_context_stack, alloc_context_global_ordering,
      alloc_context_pending, alloc_context_cfg, hstack, htl, hflag, hp,
      mapGet_insert_self, TimelineMeta.interaction_source]

theorem rtic1_other_step (m : ContextManager) (ev : EventRecord) (c : Nat)
    (tl : TimelineMeta)
    (hne : ¬ (ev.event_name = some "AUXON_TASK_ENTER" ∨
      ev.event_name = some "AUXON_INTERRUPT_ENTER"))
    (hstack : m.context_stack.getLast? = some c)
    (htl : mapGet m.contexts_to_timelines c = some tl) :
    m.rtic1_other ev = .ok
      (([], c, m.pending_context_switch_interaction),
       { m with
          contexts_to_timelines := mapInsert m.contexts_to_timelines c
            { tl with requires_synthetic_interaction_event := false },
          pending_context_switch_interaction := none }) := by
  unfold ContextManager.rtic1_other ContextManager.active_context
  simp [hne, hstack, htl]

theorem rtic1_other_downgrade_step (m : ContextManager) (ev : EventRecord)
    (tl : TimelineMeta)
    (hen : ev.event_name = some "AUXON_TASK_ENTER" ∨
      ev.event_name = some "AUXON_INTERRUPT_ENTER")
    (htl : mapGet ({ m with cfg := { m.cfg with rtos_mode := RtosMode.none }
        }.alloc_context "UNKNOWN_CONTEXT").2.contexts_to_timelines
      (context_id "UNKNOWN_CONTEXT") = some tl) :
    m.rtic1_other ev = .ok
      (([], context_id "UNKNOWN_CONTEXT", none),
       { ({ m with cfg := { m.cfg with rtos_mode := RtosMode.none }
           }.alloc_context "UNKNOWN_CONTEXT").2 with
          context_stack := m.context_stack ++ [context_id "UNKNOWN_CONTEXT"],
          contexts_to_timelines :=
            mapInsert ({ m with cfg := { m.cfg with rtos_mode := RtosMode.none }
              }.alloc_context "UNKNOWN_CONTEXT").2.contexts_to_timelines
              (context_id "UNKNOWN_CONTEXT")
              { tl with requires_synthetic_interaction_event := false },
          pending_context_switch_interaction := none }) := by
  unfold ContextManager.rtic1_other ContextManager.active_context
  rw [if_pos hen]
  simp [alloc_context_fst, alloc_context_stack, htl, List.getLast?_concat]

theorem rtic1_start_step (m : ContextManager) (ev : EventRecord) (cn : String) (v : Nat)
    (hv : ev.integration_version = some v) :
    m.rtic1_start ev cn = .ok
      ((([] : List ContextEvent),
        context_id (m.cfg.init_task_name.getD cn),
        (none : Option ContextSwitchInteraction)),
       { ({ m with integration_version := some v
           }.alloc_context (m.cfg.init_task_name.getD cn)).2 with
          context_stack := m.context_stack ++
            [context_id (m.cfg.init_task_name.getD cn)] }) := by
  unfold ContextManager.rtic1_start
  rw [hv]
  simp [alloc_context_fst, alloc_context_stack]

/-! ## Inversion of the rtic1 branches -/

/-- The event a branch result gets stamped with (lines 303-324): nonce
attribute, optional pending interaction, `add_previous_event_nonce`. -/
def stamped_event (ev : EventRecord) (pending : Option ContextSwitchInteraction)
    (dis : Bool) (nonce : Int) (c : Nat) (go : Nat) : ContextEvent :=
  match pending with
  | some i => ⟨c, go, (ev.add_internal_nonce nonce).add_interaction (!dis) i.2.1 i.2.2, !dis⟩
  | none => ⟨c, go, ev.add_internal_nonce nonce, false⟩

/-- The synthetic bridge event (lines 197-230). -/
def syn_event (ev : EventRecord) (pending : Option ContextSwitchInteraction)
    (dis : Bool) (nonce : Int) (c : Nat) (go : Nat) : ContextEvent :=
  match pending with
  | some pi =>
    ⟨c, go, (ContextManager.synthetic_record ev nonce).add_interaction (!dis) pi.2.1 pi.2.2, !dis⟩
  | none => ⟨c, go, ContextManager.synthetic_record ev nonce, false⟩

theorem alloc_context_lookup (m : ContextManager) (cn : String) :
    ∃ tl, mapGet (m.alloc_context cn).2.contexts_to_timelines (context_id cn) = some tl := by
  unfold ContextManager.alloc_context
  cases hm : mapGet m.contexts_to_timelines (context_id cn) <;>
    simp [hm, mapGet_insert_self]

theorem stamp_and_emit_err (m₁ : ContextManager) (ev : EventRecord)
    (r : ContextManager.Rtic1BranchResult)
    (htl : mapGet m₁.contexts_to_timelines r.2.1 = none) :
    ContextManager.stamp_and_emit m₁ ev r = .error .contextManagerInternalState := by
  unfold ContextManager.stamp_and_emit
  rw [htl]

theorem rtic1_other_err_stack (m : ContextManager) (ev : EventRecord)
    (hne : ¬ (ev.event_name = some "AUXON_TASK_ENTER" ∨
      ev.event_name = some "AUXON_INTERRUPT_ENTER"))
    (hstack : m.context_stack.getLast? = none) :
    m.rtic1_other ev = .error .contextManagerInternalState := by
  unfold ContextManager.rtic1_other ContextManager.active_context
  simp [hne, hstack]

theorem rtic1_other_err_map (m : ContextManager) (ev : EventRecord) (c : Nat)
    (hne : ¬ (ev.event_name = some "AUXON_TASK_ENTER" ∨
      ev.event_name = some "AUXON_INTERRUPT_ENTER"))
    (hstack : m.context_stack.getLast? = some c)
    (htl : mapGet m.contexts_to_timelines c = none) :
    m.rtic1_other ev = .error .contextManagerInternalState := by
  unfold ContextManager.rtic1_other ContextManager.active_context
  simp [hne, hstack, htl]

theorem rtic1_enter_err_stack (m : ContextManager) (ev : EventRecord) (cn : String)
    (hstack : m.context_stack.getLast? = none) :
    m.rtic1_enter ev cn = .error .contextManagerInternalState := by
  unfold ContextManager.rtic1_enter ContextManager.active_context
  simp [alloc_context_stack, hstack]

theorem rtic1_enter_err_map (m : ContextManager) (ev : EventRecord) (cn : String) (c : Nat)
    (hstack : m.context_stack.getLast? = some c)
    (htl : mapGet (m.alloc_context cn).2.contexts_to_timelines c = none) :
    m.rtic1_enter ev cn = .error .contextManagerInternalState := by
  unfold ContextManager.rtic1_enter ContextManager.active_context
  simp [alloc_context_stack, hstack, htl]

theorem rtic1_exit_err_stack (m : ContextManager)
    (hstack : m.context_stack.getLast? = none) :
    m.rtic1_exit = .error .contextManagerInternalState := by
  unfold ContextManager.rtic1_exit ContextManager.active_context
  simp [hstack]

theorem rtic1_exit_err_map (m : ContextManager) (c : Nat)
    (hlen : m.context_stack.length ≠ 1)
    (hstack : m.context_stack.getLast? = some c)
    (htl : mapGet m.contexts_to_timelines c = none) :
    m.rtic1_exit = .error .contextManagerInternalState := by
  unfold ContextManager.rtic1_exit ContextManager.pop_context ContextManager.active_context
  simp [hlen, hstack, htl]

theorem rtic1_exit_err_stack₂ (m : ContextManager) (c : Nat) (tl : TimelineMeta)
    (hlen : m.context_stack.length ≠ 1)
    (hstack : m.context_stack.getLast? = some c)
    (htl : mapGet m.contexts_to_timelines c = some tl)
    (hstack₂ : m.context_stack.dropLast.getLast? = none) :
    m.rtic1_exit = .error .contextManagerInternalState := by
  unfold ContextManager.rtic1_exit ContextManager.pop_context ContextManager.active_context
  simp [hlen, hstack, htl, hstack₂]

theorem rtic1_exit_err_map₂ (m : ContextManager) (c c₂ : Nat) (tl : TimelineMeta)
    (hlen : m.context_stack.length ≠ 1)
    (hstack : m.context_stack.getLast? = some c)
    (htl : mapGet m.contexts_to_timelines c = some tl)
    (hstack₂ : m.context_stack.dropLast.getLast? = some c₂)
    (htl₂ : mapGet (mapInsert m.contexts_to_timelines c
        { tl with requires_synthetic_interaction_event := false }) c₂ = none) :
    m.rtic1_exit = .error .contextManagerInternalState := by
  unfold ContextManager.rtic1_exit ContextManager.pop_context ContextManager.active_context
  simp [hlen, hstack, htl, hstack₂, htl₂]

theorem rtic1_start_err (m : ContextManager) (ev : EventRecord) (cn : String)
    (hv : ev.integration_version = none) :
    m.rtic1_start ev cn = .error .panicked := by
  unfold ContextManager.rtic1_start
  rw [hv]

/-- Inversion of a normal (non-switch) rtic1 record: branch plus stamping. -/
theorem inv_other_normal (m : ContextManager) (ev : EventRecord) (ac : ActiveContext)
    (m' : ContextManager)
    (hne : ¬ (ev.event_name = some "AUXON_TASK_ENTER" ∨
      ev.event_name = some "AUXON_INTERRUPT_ENTER"))
    (h : (match m.rtic1_other ev with
      | Except.error e => Except.error e
      | Except.ok (r, m₁) => ContextManager.stamp_and_emit m₁ ev r) = Except.ok (ac, m')) :
    ∃ c tl, m.context_stack.getLast? = some c ∧
      mapGet m.contexts_to_timelines c = some tl ∧
      ac = ⟨[stamped_event ev m.pending_context_switch_interaction
        m.cfg.disable_interactions (wrapI64 (tl.nonce + 1)) c m.global_ordering]⟩ ∧
      m' = { m with
        pending_context_switch_interaction := none,
        contexts_to_timelines :=
          mapInsert (mapInsert m.contexts_to_timelines c
            { tl with requires_synthetic_interaction_event := false }) c
            ({ tl with requires_synthetic_interaction_event := false }).increment_nonce } := by
  split at h
  · exact absurd h (by simp)
  · rename_i r m₁ hbr
    cases hstack : m.context_stack.getLast? with
    | none =>
      rw [rtic1_other_err_stack m ev hne hstack] at hbr
      exact absurd hbr (by simp)
    | some c =>
      cases htl : mapGet m.contexts_to_timelines c with
      | none =>
        rw [rtic1_other_err_map m ev c hne hstack htl] at hbr
        exact absurd hbr (by simp)
      | some tl =>
        rw [rtic1_other_step m ev c tl hne hstack htl, Except.ok.injEq, Prod.mk.injEq] at hbr
        obtain ⟨hr, hm₁⟩ := hbr
        subst hr hm₁
        simp only [ContextManager.stamp_and_emit, mapGet_insert_self] at h
        rw [Except.ok.injEq, Prod.mk.injEq] at h
        refine ⟨c, tl, rfl, htl, ?_, ?_⟩
        · rw [← h.1]
          cases hp : m.pending_context_switch_interaction <;>
            simp [stamped_event, hp, TimelineMeta.increment_nonce]
        · rw [← h.2]

/-- Inversion of a context-exit rtic1 record: branch plus stamping, with the
root case (stack of size one) and the pop case. -/
theorem inv_exit (m : ContextManager) (ev : EventRecord) (ac : ActiveContext)
    (m' : ContextManager)
    (h : (match m.rtic1_exit with
      | Except.error e => Except.error e
      | Except.ok (r, m₁) => ContextManager.stamp_and_emit m₁ ev r) = Except.ok (ac, m')) :
    ∃ c, m.context_stack.getLast? = some c ∧
      ((m.context_stack.length = 1 ∧ ∃ tl,
         mapGet m.contexts_to_timelines c = some tl ∧
         ac = ⟨[stamped_event ev m.pending_context_switch_interaction
           m.cfg.disable_interactions (wrapI64 (tl.nonce + 1)) c m.global_ordering]⟩ ∧
         m' = { m with
           pending_context_switch_interaction := none,
           contexts_to_timelines := mapInsert m.contexts_to_timelines c tl.increment_nonce })
       ∨
       (m.context_stack.length ≠ 1 ∧ ∃ c₂ tl tl₂ tl₃,
         mapGet m.contexts_to_timelines c = some tl ∧
         m.context_stack.dropLast.getLast? = some c₂ ∧
         mapGet (mapInsert m.contexts_to_timelines c
           { tl with requires_synthetic_interaction_event := false }) c₂ = some tl₂ ∧
         mapGet (mapInsert (mapInsert m.contexts_to_timelines c
             { tl with requires_synthetic_interaction_event := false }) c₂
             { tl₂ with requires_synthetic_interaction_event := true }) c = some tl₃ ∧
         ac = ⟨[stamped_event ev m.pending_context_switch_interaction
           m.cfg.disable_interactions (wrapI64 (tl₃.nonce + 1)) c m.global_ordering]⟩ ∧
         m' = { m with
           context_stack := m.context_stack.dropLast,
           pending_context_switch_interaction :=
             some (tl.ctx_id, tl.id, wrapI64 (tl.nonce + 1)),
           contexts_to_timelines :=
             mapInsert (mapInsert (mapInsert m.contexts_to_timelines c
               { tl with requires_synthetic_interaction_event := false }) c₂
               { tl₂ with requires_synthetic_interaction_event := true }) c
               tl₃.increment_nonce })) := by
  split at h
  · exact absurd h (by simp)
  · rename_i r m₁ hbr
    by_cases hlen : m.context_stack.length = 1
    · obtain ⟨a, ha⟩ := List.length_eq_one.mp hlen
      cases hstack : m.context_stack.getLast? with
      | none => rw [ha] at hstack; exact absurd hstack (by simp)
      | some c =>
        rw [rtic1_exit_root_step m c hlen hstack, Except.ok.injEq, Prod.mk.injEq] at hbr
        obtain ⟨hr, hm₁⟩ := hbr
        subst hr hm₁
        cases htl : mapGet m.contexts_to_timelines c with
        | none =>
          rw [stamp_and_emit_err _ ev _ htl] at h
          exact absurd h (by simp)
        | some tl =>
          simp only [ContextManager.stamp_and_emit, htl] at h
          rw [Except.ok.injEq, Prod.mk.injEq] at h
          refine ⟨c, rfl, Or.inl ⟨hlen, tl, htl, ?_, ?_⟩⟩
          · rw [← h.1]
            cases hp : m.pending_context_switch_interaction <;>
              simp [stamped_event, hp, TimelineMeta.increment_nonce]
          · rw [← h.2]
    · cases hstack : m.context_stack.getLast? with
      | none =>
        rw [rtic1_exit_err_stack m hstack] at hbr
        exact absurd hbr (by simp)
      | some c =>
        cases htl : mapGet m.contexts_to_timelines c with
        | none =>
          rw [rtic1_exit_err_map m c hlen hstack htl] at hbr
          exact absurd hbr (by simp)
        | some tl =>
          cases hstack₂ : m.context_stack.dropLast.getLast? with
          | none =>
            rw [rtic1_exit_err_stack₂ m c tl hlen hstack htl hstack₂] at hbr
            exact absurd hbr (by simp)
          | some c₂ =>
            cases htl₂ : mapGet (mapInsert m.contexts_to_timelines c
                { tl with requires_synthetic_interaction_event := false }) c₂ with
            | none =>
              rw [rtic1_exit_err_map₂ m c c₂ tl hlen hstack htl hstack₂ htl₂] at hbr
              exact absurd hbr (by simp)
            | some tl₂ =>
              rw [rtic1_exit_pop_step m c c₂ tl tl₂ hlen hstack htl hstack₂ htl₂,
                Except.ok.injEq, Prod.mk.injEq] at hbr
              obtain ⟨hr, hm₁⟩ := hbr
              subst hr hm₁
              cases htl₃ : mapGet (mapInsert (mapInsert m.contexts_to_timelines c
                  { tl with requires_synthetic_interaction_event := false }) c₂
                  { tl₂ with requires_synthetic_interaction_event := true }) c with
              | none =>
                rw [stamp_and_emit_err _ ev _ htl₃] at h
                exact absurd h (by simp)
              | some tl₃ =>
                simp only [ContextManager.stamp_and_emit, htl₃] at h
                rw [Except.ok.injEq, Prod.mk.injEq] at h
                refine ⟨c, rfl, Or.inr ⟨hlen, c₂, tl, tl₂, tl₃, htl, rfl, htl₂, htl₃, ?_, ?_⟩⟩
                · rw [← h.1]
                  cases hp : m.pending_context_switch_interaction <;>
                    simp [stamped_event, hp, TimelineMeta.increment_nonce]
                · rw [← h.2]

/-- Inversion of a context-enter rtic1 record: branch plus stamping, with the
synthetic-bridge case (flag set on the pre-push active timeline) and the
plain case. -/
theorem inv_enter (m : ContextManager) (ev : EventRecord) (cn : String)
    (ac : ActiveContext) (m' : ContextManager)
    (h : (match m.rtic1_enter ev cn with
      | Except.error e => Except.error e
      | Except.ok (r, m₁) => ContextManager.stamp_and_emit m₁ ev r) = Except.ok (ac, m')) :
    ∃ c tl, m.context_stack.getLast? = some c ∧
      mapGet (m.alloc_context cn).2.contexts_to_timelines c = some tl ∧
      ((tl.requires_synthetic_interaction_event = false ∧ ∃ tl₂,
         mapGet (mapInsert (m.alloc_context cn).2.contexts_to_timelines c
           { tl with requires_synthetic_interaction_event := false })
           (context_id cn) = some tl₂ ∧
         ac = ⟨[stamped_event ev (some (tl.ctx_id, tl.id, tl.nonce))
           m.cfg.disable_interactions (wrapI64 (tl₂.nonce + 1)) (context_id cn)
           m.global_ordering]⟩ ∧
         m' = { (m.alloc_context cn).2 with
                context_stack := m.context_stack ++ [context_id cn],
                contexts_to_timelines :=
                  mapInsert (mapInsert (m.alloc_context cn).2.contexts_to_timelines c
                    { tl with requires_synthetic_interaction_event := false })
                    (context_id cn) tl₂.increment_nonce })
       ∨
       (tl.requires_synthetic_interaction_event = true ∧ ∃ tl₂,
         mapGet (mapInsert (mapInsert (m.alloc_context cn).2.contexts_to_timelines c
             { tl with requires_synthetic_interaction_event := false,
                       nonce := wrapI64 (tl.nonce + 1) }) c
             { tl with requires_synthetic_interaction_event := false,
                       nonce := wrapI64 (tl.nonce + 1) }) (context_id cn) = some tl₂ ∧
         ac = ⟨[syn_event ev m.pending_context_switch_interaction
             m.cfg.disable_interactions (wrapI64 (tl.nonce + 1)) c m.global_ordering,
           stamped_event ev (some (tl.ctx_id, tl.id, wrapI64 (tl.nonce + 1)))
             m.cfg.disable_interactions (wrapI64 (tl₂.nonce + 1)) (context_id cn)
             (satAdd128 m.global_ordering)]⟩ ∧
         m' = { (m.alloc_context cn).2 with
                global_ordering := satAdd128 m.global_ordering,
                pending_context_switch_interaction := none,
                context_stack := m.context_stack ++ [context_id cn],
                contexts_to_timelines :=
                  mapInsert (mapInsert (mapInsert
                    (m.alloc_context cn).2.contexts_to_timelines c
                    { tl with requires_synthetic_interaction_event := false,
                              nonce := wrapI64 (tl.nonce + 1) }) c
                    { tl with requires_synthetic_interaction_event := false,
                              nonce := wrapI64 (tl.nonce + 1) })
                    (context_id cn) tl₂.increment_nonce })) := by
  split at h
  · exact absurd h (by simp)
  · rename_i r m₁ hbr
    cases hstack : m.context_stack.getLast? with
    | none =>
      rw [rtic1_enter_err_stack m ev cn hstack] at hbr
      exact absurd hbr (by simp)
    | some c =>
      cases htl : mapGet (m.alloc_context cn).2.contexts_to_timelines c with
      | none =>
        rw [rtic1_enter_err_map m ev cn c hstack htl] at hbr
        exact absurd hbr (by simp)
      | some tl =>
        cases hflag : tl.requires_synthetic_interaction_event with
        | false =>
          rw [rtic1_enter_noflag_step m ev cn c tl hstack htl hflag,
            Except.ok.injEq, Prod.mk.injEq] at hbr
          obtain ⟨hr, hm₁⟩ := hbr
          subst hr hm₁
          cases htl₂ : mapGet (mapInsert (m.alloc_context cn).2.contexts_to_timelines c
              { tl with requires_synthetic_interaction_event := false })
              (context_id cn) with
          | none =>
            rw [stamp_and_emit_err _ ev _ htl₂] at h
            exact absurd h (by simp)
          | some tl₂ =>
            simp only [ContextManager.stamp_and_emit, htl₂] at h
            rw [Except.ok.injEq, Prod.mk.injEq] at h
            refine ⟨c, tl, rfl, htl, Or.inl ⟨hflag, tl₂, htl₂, ?_, ?_⟩⟩
            · rw [← h.1]
              simp [stamped_event, TimelineMeta.increment_nonce,
                alloc_context_global_ordering, alloc_context_cfg]
            · rw [← h.2]
        | true =>
          rw [rtic1_enter_flag_step m ev cn c tl hstack htl hflag,
            Except.ok.injEq, Prod.mk.injEq] at hbr
          obtain ⟨hr, hm₁⟩ := hbr
          subst hr hm₁
          cases htl₂ : mapGet (mapInsert (mapInsert
              (m.alloc_context cn).2.contexts_to_timelines c
              { tl with requires_synthetic_interaction_event := false,
                        nonce := wrapI64 (tl.nonce + 1) }) c
              { tl with requires_synthetic_interaction_event := false,
                        nonce := wrapI64 (tl.nonce + 1) }) (context_id cn) with
          | none =>
            rw [stamp_and_emit_err _ ev _ htl₂] at h
            exact absurd h (by simp)
          | some tl₂ =>
            simp only [ContextManager.stamp_and_emit, htl₂] at h
            rw [Except.ok.injEq, Prod.mk.injEq] at h
            refine ⟨c, tl, rfl, htl, Or.inr ⟨hflag, tl₂, htl₂, ?_, ?_⟩⟩
            · rw [← h.1]
              cases hp : m.pending_context_switch_interaction <;>
                simp [stamped_event, syn_event, hp, TimelineMeta.increment_nonce,
                  alloc_context_global_ordering, alloc_context_cfg]
            · rw [← h.2]

/-- Inversion of a context-enter record that carries no task or ISR name:
the manager downgrades to vanilla mode and emits on `UNKNOWN_CONTEXT`. -/
theorem inv_downgrade (m : ContextManager) (ev : EventRecord)
    (ac : ActiveContext) (m' : ContextManager)
    (hen : ev.event_name = some "AUXON_TASK_ENTER" ∨
      ev.event_name = some "AUXON_INTERRUPT_ENTER")
    (h : (match m.rtic1_other ev with
      | Except.error e => Except.error e
      | Except.ok (r, m₁) => ContextManager.stamp_and_emit m₁ ev r) = Except.ok (ac, m')) :
    ∃ tl,
      mapGet ({ m with cfg := { m.cfg with rtos_mode := RtosMode.none }
          }.alloc_context "UNKNOWN_CONTEXT").2.contexts_to_timelines
        (context_id "UNKNOWN_CONTEXT") = some tl ∧
      ac = ⟨[stamped_event ev none m.cfg.disable_interactions (wrapI64 (tl.nonce + 1))
        (context_id "UNKNOWN_CONTEXT") m.global_ordering]⟩ ∧
      m' = { ({ m with cfg := { m.cfg with rtos_mode := RtosMode.none }
              }.alloc_context "UNKNOWN_CONTEXT").2 with
             context_stack := m.context_stack ++ [context_id "UNKNOWN_CONTEXT"],
             pending_context_switch_interaction := none,
             contexts_to_timelines :=
               mapInsert (mapInsert ({ m with cfg := { m.cfg with
                   rtos_mode := RtosMode.none } }.alloc_context
                   "UNKNOWN_CONTEXT").2.contexts_to_timelines
                 (context_id "UNKNOWN_CONTEXT")
                 { tl with requires_synthetic_interaction_event := false })
                 (context_id "UNKNOWN_CONTEXT")
                 ({ tl with requires_synthetic_interaction_event := false
                  }).increment_nonce } := by
  split at h
  · exact absurd h (by simp)
  · rename_i r m₁ hbr
    obtain ⟨tl, htl⟩ := alloc_context_lookup
      { m with cfg := { m.cfg with rtos_mode := RtosMode.none } } "UNKNOWN_CONTEXT"
    rw [rtic1_other_downgrade_step m ev tl hen htl,
      Except.ok.injEq, Prod.mk.injEq] at hbr
    obtain ⟨hr, hm₁⟩ := hbr
    subst hr hm₁
    simp only [ContextManager.stamp_and_emit, mapGet_insert_self] at h
    rw [Except.ok.injEq, Prod.mk.injEq] at h
    refine ⟨tl, htl, ?_, ?_⟩
    · rw [← h.1]
      simp [stamped_event, TimelineMeta.increment_nonce,
        alloc_context_global_ordering, alloc_context_cfg]
    · rw [← h.2]

/-- Inversion of a valid first start record: integration version recorded,
init task allocated and pushed, the record emitted there with no pending
interaction. -/
theorem inv_start (m : ContextManager) (ev : EventRecord) (cn : String)
    (ac : ActiveContext) (m' : ContextManager)
    (h : (match m.rtic1_start ev cn with
      | Except.error e => Except.error e
      | Except.ok (r, m₁) => ContextManager.stamp_and_emit m₁ ev r) = Except.ok (ac, m')) :
    ∃ v tl,
      ev.integration_version = some v ∧
      mapGet ({ m with integration_version := some v
          }.alloc_context (m.cfg.init_task_name.getD cn)).2.contexts_to_timelines
        (context_id (m.cfg.init_task_name.getD cn)) = some tl ∧
      ac = ⟨[stamped_event ev none m.cfg.disable_interactions (wrapI64 (tl.nonce + 1))
        (context_id (m.cfg.init_task_name.getD cn)) m.global_ordering]⟩ ∧
      m' = { ({ m with integration_version := some v
              }.alloc_context (m.cfg.init_task_name.getD cn)).2 with
             context_stack := m.context_stack ++
               [context_id (m.cfg.init_task_name.getD cn)],
             contexts_to_timelines :=
               mapInsert ({ m with integration_version := some v
                 }.alloc_context (m.cfg.init_task_name.getD cn)).2.contexts_to_timelines
                 (context_id (m.cfg.init_task_name.getD cn)) tl.increment_nonce } := by
  split at h
  · exact absurd h (by simp)
  · rename_i r m₁ hbr
    cases hv : ev.integration_version with
    | none =>
      rw [rtic1_start_err m ev cn hv] at hbr
      exact absurd hbr (by simp)
    | some v =>
      rw [rtic1_start_step m ev cn v hv, Except.ok.injEq, Prod.mk.injEq] at hbr
      obtain ⟨hr, hm₁⟩ := hbr
      subst hr hm₁
      obtain ⟨tl, htl⟩ := alloc_context_lookup
        { m with integration_version := some v } (m.cfg.init_task_name.getD cn)
      simp only [ContextManager.stamp_and_emit, htl] at h
      rw [Except.ok.injEq, Prod.mk.injEq] at h
      refine ⟨v, tl, rfl, htl, ?_, ?_⟩
      · rw [← h.1]
        simp [stamped_event, TimelineMeta.increment_nonce,
          alloc_context_global_ordering, alloc_context_cfg]
      · rw [← h.2]

/-- What processing a context-enter record does (conclusion of `inv_enter`). -/
abbrev EnterSpec (m : ContextManager) (ev : EventRecord) (cn : String)
    (ac : ActiveContext) (m' : ContextManager) : Prop :=
  ∃ c tl, m.context_stack.getLast? = some c ∧
    mapGet (m.alloc_context cn).2.contexts_to_timelines c = some tl ∧
    ((tl.requires_synthetic_interaction_event = false ∧ ∃ tl₂,
       mapGet (mapInsert (m.alloc_context cn).2.contexts_to_timelines c
         { tl with requires_synthetic_interaction_event := false })
         (context_id cn) = some tl₂ ∧
       ac = ⟨[stamped_event ev (some (tl.ctx_id, tl.id, tl.nonce))
         m.cfg.disable_interactions (wrapI64 (tl₂.nonce + 1)) (context_id cn)
         m.global_ordering]⟩ ∧
       m' = { (m.alloc_context cn).2 with
              context_stack := m.context_stack ++ [context_id cn],
              contexts_to_timelines :=
                mapInsert (mapInsert (m.alloc_context cn).2.contexts_to_timelines c
                  { tl with requires_synthetic_interaction_event := false })
                  (context_id cn) tl₂.increment_nonce })
     ∨
     (tl.requires_synthetic_interaction_event = true ∧ ∃ tl₂,
       mapGet (mapInsert (mapInsert (m.alloc_context cn).2.contexts_to_timelines c
           { tl with requires_synthetic_interaction_event := false,
                     nonce := wrapI64 (tl.nonce + 1) }) c
           { tl with requires_synthetic_interaction_event := false,
                     nonce := wrapI64 (tl.nonce + 1) }) (context_id cn) = some tl₂ ∧
       ac = ⟨[syn_event ev m.pending_context_switch_interaction
           m.cfg.disable_interactions (wrapI64 (tl.nonce + 1)) c m.global_ordering,
         stamped_event ev (some (tl.ctx_id, tl.id, wrapI64 (tl.nonce + 1)))
           m.cfg.disable_interactions (wrapI64 (tl₂.nonce + 1)) (context_id cn)
           (satAdd128 m.global_ordering)]⟩ ∧
       m' = { (m.alloc_context cn).2 with
              global_ordering := satAdd128 m.global_ordering,
              pending_context_switch_interaction := none,
              context_stack := m.context_stack ++ [context_id cn],
              contexts_to_timelines :=
                mapInsert (mapInsert (mapInsert
                  (m.alloc_context cn).2.contexts_to_timelines c
                  { tl with requires_synthetic_interaction_event := false,
                            nonce := wrapI64 (tl.nonce + 1) }) c
                  { tl with requires_synthetic_interaction_event := false,
                            nonce := wrapI64 (tl.nonce + 1) })
                  (context_id cn) tl₂.increment_nonce }))

/-- What processing a nameless context-enter record does (conclusion of
`inv_downgrade`). -/
abbrev DowngradeSpec (m : ContextManager) (ev : EventRecord)
    (ac : ActiveContext) (m' : ContextManager) : Prop :=
  ∃ tl,
    mapGet ({ m with cfg := { m.cfg with rtos_mode := RtosMode.none }
        }.alloc_context "UNKNOWN_CONTEXT").2.contexts_to_timelines
      (context_id "UNKNOWN_CONTEXT") = some tl ∧
    ac = ⟨[stamped_event ev none m.cfg.disable_interactions (wrapI64 (tl.nonce + 1))
      (context_id "UNKNOWN_CONTEXT") m.global_ordering]⟩ ∧
    m' = { ({ m with cfg := { m.cfg with rtos_mode := RtosMode.none }
            }.alloc_context "UNKNOWN_CONTEXT").2 with
           context_stack := m.context_stack ++ [context_id "UNKNOWN_CONTEXT"],
           pending_context_switch_interaction := none,
           contexts_to_timelines :=
             mapInsert (mapInsert ({ m with cfg := { m.cfg with
                 rtos_mode := RtosMode.none } }.alloc_context
                 "UNKNOWN_CONTEXT").2.contexts_to_timelines
               (context_id "UNKNOWN_CONTEXT")
               { tl with requires_synthetic_interaction_event := false })
               (context_id "UNKNOWN_CONTEXT")
               ({ tl with requires_synthetic_interaction_event := false
                }).increment_nonce }

/-- What processing a context-exit record does (conclusion of `inv_exit`). -/
abbrev ExitSpec (m : ContextManager) (ev : EventRecord)
    (ac : ActiveContext) (m' : ContextManager) : Prop :=
  ∃ c, m.context_stack.getLast? = some c ∧
    ((m.context_stack.length = 1 ∧ ∃ tl,
       mapGet m.contexts_to_timelines c = some tl ∧
       ac = ⟨[stamped_event ev m.pending_context_switch_interaction
         m.cfg.disable_interactions (wrapI64 (tl.nonce + 1)) c m.global_ordering]⟩ ∧
       m' = { m with
         pending_context_switch_interaction := none,
         contexts_to_timelines := mapInsert m.contexts_to_timelines c tl.increment_nonce })
     ∨
     (m.context_stack.length ≠ 1 ∧ ∃ c₂ tl tl₂ tl₃,
       mapGet m.contexts_to_timelines c = some tl ∧
       m.context_stack.dropLast.getLast? = some c₂ ∧
       mapGet (mapInsert m.contexts_to_timelines c
         { tl with requires_synthetic_interaction_event := false }) c₂ = some tl₂ ∧
       mapGet (mapInsert (mapInsert m.contexts_to_timelines c
           { tl with requires_synthetic_interaction_event := false }) c₂
           { tl₂ with requires_synthetic_interaction_event := true }) c = some tl₃ ∧
       ac = ⟨[stamped_event ev m.pending_context_switch_interaction
         m.cfg.disable_interactions (wrapI64 (tl₃.nonce + 1)) c m.global_ordering]⟩ ∧
       m' = { m with
         context_stack := m.context_stack.dropLast,
         pending_context_switch_interaction :=
           some (tl.ctx_id, tl.id, wrapI64 (tl.nonce + 1)),
         contexts_to_timelines :=
           mapInsert (mapInsert (mapInsert m.contexts_to_timelines c
             { tl with requires_synthetic_interaction_event := false }) c₂
             { tl₂ with requires_synthetic_interaction_event := true }) c
             tl₃.increment_nonce }))

/-- What processing a valid first start record does (conclusion of
`inv_start`). -/
abbrev StartSpec (m : ContextManager) (ev : EventRecord) (cn : String)
    (ac : ActiveContext) (m' : ContextManager) : Prop :=
  ∃ v tl,
    ev.integration_version = some v ∧
    mapGet ({ m with integration_version := some v
        }.alloc_context (m.cfg.init_task_name.getD cn)).2.contexts_to_timelines
      (context_id (m.cfg.init_task_name.getD cn)) = some tl ∧
    ac = ⟨[stamped_event ev none m.cfg.disable_interactions (wrapI64 (tl.nonce + 1))
      (context_id (m.cfg.init_task_name.getD cn)) m.global_ordering]⟩ ∧
    m' = { ({ m with integration_version := some v
            }.alloc_context (m.cfg.init_task_name.getD cn)).2 with
           context_stack := m.context_stack ++
             [context_id (m.cfg.init_task_name.getD cn)],
           contexts_to_timelines :=
             mapInsert ({ m with integration_version := some v
               }.alloc_context (m.cfg.init_task_name.getD cn)).2.contexts_to_timelines
               (context_id (m.cfg.init_task_name.getD cn)) tl.increment_nonce }

/-- What processing any other record does (conclusion of `inv_other_normal`). -/
abbrev OtherSpec (m : ContextManager) (ev : EventRecord)
    (ac : ActiveContext) (m' : ContextManager) : Prop :=
  ∃ c tl, m.context_stack.getLast? = some c ∧
    mapGet m.contexts_to_timelines c = some tl ∧
    ac = ⟨[stamped_event ev m.pending_context_switch_interaction
      m.cfg.disable_interactions (wrapI64 (tl.nonce + 1)) c m.global_ordering]⟩ ∧
    m' = { m with
      pending_context_switch_interaction := none,
      contexts_to_timelines :=
        mapInsert (mapInsert m.contexts_to_timelines c
          { tl with requires_synthetic_interaction_event := false }) c
          ({ tl with requires_synthetic_interaction_event := false }).increment_nonce }

/-- Full case analysis of `process_rtic1_main`: every successful call is a
context-enter, a downgrade, a context-exit, a first start, or a plain
event, with the corresponding state transition. -/
theorem inv_main (m : ContextManager) (ev : EventRecord)
    (ac : ActiveContext) (m' : ContextManager)
    (h : m.process_rtic1_main ev = Except.ok (ac, m')) :
    (∃ cn, (ev.event_name = some "AUXON_TASK_ENTER" ∨
        ev.event_name = some "AUXON_INTERRUPT_ENTER") ∧
      ContextManager.task_or_isr_name ev = some cn ∧ EnterSpec m ev cn ac m') ∨
    ((ev.event_name = some "AUXON_TASK_ENTER" ∨
        ev.event_name = some "AUXON_INTERRUPT_ENTER") ∧
      ContextManager.task_or_isr_name ev = none ∧ DowngradeSpec m ev ac m') ∨
    ((ev.event_name = some "AUXON_TASK_EXIT" ∨
        ev.event_name = some "AUXON_INTERRUPT_EXIT") ∧ ExitSpec m ev ac m') ∨
    (ev.event_name = some "AUXON_TRACE_START" ∧ m.event_counter = 1 ∧
      ∃ cn, ContextManager.task_or_isr_name ev = some cn ∧ StartSpec m ev cn ac m') ∨
    (¬ (ev.event_name = some "AUXON_TASK_ENTER" ∨
        ev.event_name = some "AUXON_INTERRUPT_ENTER") ∧
      ¬ (ev.event_name = some "AUXON_TASK_EXIT" ∨
        ev.event_name = some "AUXON_INTERRUPT_EXIT") ∧
      ¬ (ev.event_name = some "AUXON_TRACE_START" ∧
        (ContextManager.task_or_isr_name ev).isSome ∧ m.event_counter = 1) ∧
      OtherSpec m ev ac m') := by
  by_cases hen : ev.event_name = some "AUXON_TASK_ENTER" ∨
      ev.event_name = some "AUXON_INTERRUPT_ENTER"
  · cases hti : ContextManager.task_or_isr_name ev with
    | some cn =>
      rw [main_dispatch_enter m ev cn hen hti] at h
      exact Or.inl ⟨cn, hen, rfl, inv_enter m ev cn ac m' h⟩
    | none =>
      rcases hen with hh | hh
      · rw [main_dispatch_other_noname m ev _ hh hti (by decide) (by decide)] at h
        exact Or.inr (Or.inl ⟨Or.inl hh, rfl, inv_downgrade m ev ac m' (Or.inl hh) h⟩)
      · rw [main_dispatch_other_noname m ev _ hh hti (by decide) (by decide)] at h
        exact Or.inr (Or.inl ⟨Or.inr hh, rfl, inv_downgrade m ev ac m' (Or.inr hh) h⟩)
  · by_cases hex : ev.event_name = some "AUXON_TASK_EXIT" ∨
        ev.event_name = some "AUXON_INTERRUPT_EXIT"
    · rw [main_dispatch_exit m ev hex] at h
      exact Or.inr (Or.inr (Or.inl ⟨hex, inv_exit m ev ac m' h⟩))
    · by_cases hst : ev.event_name = some "AUXON_TRACE_START"
      · cases hti : ContextManager.task_or_isr_name ev with
        | some cn =>
          by_cases hec1 : m.event_counter = 1
          · rw [main_dispatch_start m ev cn hst hti hec1] at h
            exact Or.inr (Or.inr (Or.inr (Or.inl
              ⟨hst, hec1, cn, rfl, inv_start m ev cn ac m' h⟩)))
          · rw [main_dispatch_start_notfirst m ev cn hst hti hec1] at h
            exact Or.inr (Or.inr (Or.inr (Or.inr
              ⟨hen, hex, fun hc => hec1 hc.2.2, inv_other_normal m ev ac m' hen h⟩)))
        | none =>
          rw [main_dispatch_other_noname m ev _ hst hti (by decide) (by decide)] at h
          refine Or.inr (Or.inr (Or.inr (Or.inr
            ⟨hen, hex, fun hc => ?_, inv_other_normal m ev ac m' hen h⟩)))
          exact absurd hc.2.1 (by simp)
      · rcases hname : ev.event_name with _ | s
        · rw [main_dispatch_other_none m ev hname] at h
          refine Or.inr (Or.inr (Or.inr (Or.inr
            ⟨by simp, by simp, fun hc => ?_, inv_other_normal m ev ac m' hen h⟩)))
          exact absurd hc.1 (by simp)
        · have h1 : s ≠ "AUXON_TASK_ENTER" := fun he =>
            hen (Or.inl (by rw [hname, he]))
          have h2 : s ≠ "AUXON_INTERRUPT_ENTER" := fun he =>
            hen (Or.inr (by rw [hname, he]))
          have h3 : s ≠ "AUXON_TASK_EXIT" := fun he =>
            hex (Or.inl (by rw [hname, he]))
          have h4 : s ≠ "AUXON_INTERRUPT_EXIT" := fun he =>
            hex (Or.inr (by rw [hname, he]))
          have h5 : s ≠ "AUXON_TRACE_START" := fun he =>
            hst (by rw [hname, he])
          rw [main_dispatch_other_name m ev s hname h1 h2 h3 h4 h5] at h
          refine Or.inr (Or.inr (Or.inr (Or.inr
            ⟨by simp [h1, h2], by simp [h3, h4], fun hc => ?_, inv_other_normal m ev ac m' hen h⟩)))
          exact h5 (by injection hc.1)

/-! ## Vanilla-path and gate plumbing -/

theorem vanilla_emit_err_stack (m : ContextManager) (ev₁ : EventRecord)
    (hstack : m.context_stack.getLast? = none) :
    m.vanilla_emit ev₁ = .error .contextManagerInternalState := by
  unfold ContextManager.vanilla_emit ContextManager.active_context
  simp [hstack]

theorem vanilla_emit_err_map (m : ContextManager) (ev₁ : EventRecord) (c : Nat)
    (hstack : m.context_stack.getLast? = some c)
    (htl : mapGet m.contexts_to_timelines c = none) :
    m.vanilla_emit ev₁ = .error .contextManagerInternalState := by
  unfold ContextManager.vanilla_emit ContextManager.active_context
  simp [hstack, htl]

theorem vanilla_emit_step (m : ContextManager) (ev₁ : EventRecord) (c : Nat)
    (tl : TimelineMeta)
    (hstack : m.context_stack.getLast? = some c)
    (htl : mapGet m.contexts_to_timelines c = some tl) :
    m.vanilla_emit ev₁ = .ok
      (⟨[⟨c, m.global_ordering, ev₁.add_internal_nonce (wrapI64 (tl.nonce + 1)), false⟩]⟩,
       { m with contexts_to_timelines :=
           mapInsert m.contexts_to_timelines c tl.increment_nonce }) := by
  unfold ContextManager.vanilla_emit ContextManager.active_context
  simp [hstack, htl, TimelineMeta.increment_nonce]

/-- Inversion of the nonce-stamping stage of the vanilla branch. -/
theorem inv_vanilla_emit (m : ContextManager) (ev₁ : EventRecord)
    (ac : ActiveContext) (m' : ContextManager)
    (h : m.vanilla_emit ev₁ = Except.ok (ac, m')) :
    ∃ c tl, m.context_stack.getLast? = some c ∧
      mapGet m.contexts_to_timelines c = some tl ∧
      ac = ⟨[⟨c, m.global_ordering, ev₁.add_internal_nonce (wrapI64 (tl.nonce + 1)), false⟩]⟩ ∧
      m' = { m with
        contexts_to_timelines := mapInsert m.contexts_to_timelines c tl.increment_nonce } := by
  cases hstack : m.context_stack.getLast? with
  | none =>
    rw [vanilla_emit_err_stack m ev₁ hstack] at h
    exact absurd h (by simp)
  | some c =>
    cases htl : mapGet m.contexts_to_timelines c with
    | none =>
      rw [vanilla_emit_err_map m ev₁ c hstack htl] at h
      exact absurd h (by simp)
    | some tl =>
      rw [vanilla_emit_step m ev₁ c tl hstack htl, Except.ok.injEq, Prod.mk.injEq] at h
      exact ⟨c, tl, rfl, htl, h.1.symm, h.2.symm⟩

theorem process_vanilla_first (m : ContextManager) (ev₁ : EventRecord)
    (hec : m.event_counter = 1) :
    m.process_vanilla ev₁ = ContextManager.vanilla_emit
      { (m.alloc_context (m.cfg.init_task_name.getD "main")).2 with
        context_stack := m.context_stack ++
          [context_id (m.cfg.init_task_name.getD "main")] } ev₁ := by
  unfold ContextManager.process_vanilla
  rw [if_pos hec]
  simp [alloc_context_fst, alloc_context_stack]

theorem process_vanilla_steady (m : ContextManager) (ev₁ : EventRecord)
    (hec : m.event_counter ≠ 1) :
    m.process_vanilla ev₁ = m.vanilla_emit ev₁ := by
  unfold ContextManager.process_vanilla
  rw [if_neg hec]

theorem process_record_not_rtic1_eq (m : ContextManager) (ev : EventRecord)
    (hmode : m.cfg.rtos_mode ≠ RtosMode.rtic1) :
    m.process_record ev = (m.pre_process ev).process_vanilla (m.counted_record ev) := by
  unfold ContextManager.process_record
  rw [if_neg (by simp [ContextManager.pre_process]; exact hmode)]

theorem process_record_rtic1_any (m : ContextManager) (ev : EventRecord)
    (hmode : m.cfg.rtos_mode = RtosMode.rtic1) :
    m.process_record ev = (m.pre_process ev).process_rtic1 (m.counted_record ev) := by
  unfold ContextManager.process_record
  rw [if_pos (by simp [ContextManager.pre_process, hmode])]

theorem process_rtic1_gate_valid (m : ContextManager) (ev : EventRecord)
    (hgate : m.event_counter = 1 ∧ m.integration_version = none)
    (hvalid : ev.event_name = some "AUXON_TRACE_START" ∧ ev.task_name.isSome ∧
      ev.integration_version.isSome) :
    m.process_rtic1 ev = m.process_rtic1_main ev := by
  unfold ContextManager.process_rtic1
  rw [if_pos hgate, if_pos hvalid]

theorem process_rtic1_gate_steady (m : ContextManager) (ev : EventRecord)
    (hgate : ¬ (m.event_counter = 1 ∧ m.integration_version = none)) :
    m.process_rtic1 ev = m.process_rtic1_main ev := by
  unfold ContextManager.process_rtic1
  rw [if_neg hgate]

theorem process_rtic1_fallback_step (m : ContextManager) (ev : EventRecord)
    (hgate : m.event_counter = 1 ∧ m.integration_version = none)
    (hinvalid : ¬ (ev.event_name = some "AUXON_TRACE_START" ∧ ev.task_name.isSome ∧
      ev.integration_version.isSome)) :
    m.process_rtic1 ev = .ok
      (⟨[⟨context_id "UNKNOWN_CONTEXT", m.global_ordering, ev, false⟩]⟩,
       { ({ m with cfg := { m.cfg with rtos_mode := RtosMode.none }
           }.alloc_context "UNKNOWN_CONTEXT").2 with
         context_stack := m.context_stack ++ [context_id "UNKNOWN_CONTEXT"] }) := by
  unfold ContextManager.process_rtic1
  rw [if_pos hgate, if_neg hinvalid]
  simp [alloc_context_fst, alloc_context_stack, alloc_context_global_ordering]

/-! ## C8: the context stack is never empty after the first record -/

theorem ne_nil_of_getLast? {α : Type} {l : List α} {c : α}
    (h : l.getLast? = some c) : l ≠ [] := by
  intro hnil
  rw [hnil] at h
  exact absurd h (by simp)

theorem main_stack_nonempty (m : ContextManager) (ev : EventRecord)
    (ac : ActiveContext) (m' : ContextManager)
    (h : m.process_rtic1_main ev = Except.ok (ac, m')) :
    m'.context_stack ≠ [] := by
  rcases inv_main m ev ac m' h with
    ⟨cn, _, _, c, tl, hstack, htl, hcase⟩ |
    ⟨_, _, tl, htl, hac, hm'⟩ |
    ⟨_, c, hstack, hcase⟩ |
    ⟨_, _, cn, hti, v, tl, hv, htl, hac, hm'⟩ |
    ⟨_, _, _, c, tl, hstack, htl, hac, hm'⟩
  · rcases hcase with ⟨_, tl₂, htl₂, hac, hm'⟩ | ⟨_, tl₂, htl₂, hac, hm'⟩ <;>
      (subst hm'; simp)
  · subst hm'; simp
  · rcases hcase with ⟨hlen, tl, htl, hac, hm'⟩ |
      ⟨hlen, c₂, tl, tl₂, tl₃, htl, hstack₂, htl₂, htl₃, hac, hm'⟩
    · subst hm'
      simpa using ne_nil_of_getLast? hstack
    · subst hm'
      simpa using ne_nil_of_getLast? hstack₂
  · subst hm'; simp
  · subst hm'
    simpa using ne_nil_of_getLast? hstack

/-- C8: (1) every successful `process_record` call leaves the context stack
non-empty, so the stack is non-empty from the first processed record onward;
(2) processing the first record on a fresh manager leaves exactly one root
context on the stack; (3) a context-exit record arriving in rtic1 mode when
the stack has size one does not pop: the stack is unchanged and the record
is emitted as a single ordinary event on the root context. -/
theorem c8_stack_discipline :
    (∀ (m : ContextManager) (ev : EventRecord) (ac : ActiveContext)
      (m' : ContextManager),
      m.process_record ev = Except.ok (ac, m') → m'.context_stack ≠ []) ∧
    (∀ (cfg : PluginConfig) (common : EventAttributes) (r : EventRecord)
      (ac : ActiveContext) (m' : ContextManager),
      (ContextManager.new cfg common).process_record r = Except.ok (ac, m') →
      ∃ c, m'.context_stack = [c]) ∧
    (∀ (m : ContextManager) (ev : EventRecord) (ac : ActiveContext)
      (m' : ContextManager),
      m.cfg.rtos_mode = RtosMode.rtic1 →
      ¬ (satAdd64 m.event_counter = 1 ∧ m.integration_version = none) →
      (ev.event_name = some "AUXON_TASK_EXIT" ∨
        ev.event_name = some "AUXON_INTERRUPT_EXIT") →
      m.context_stack.length = 1 →
      m.process_record ev = Except.ok (ac, m') →
      m'.context_stack = m.context_stack ∧
      ∃ c tl, m.context_stack.getLast? = some c ∧
        mapGet m.contexts_to_timelines c = some tl ∧
        ac = ⟨[stamped_event (m.counted_record ev)
          m.pending_context_switch_interaction m.cfg.disable_interactions
          (wrapI64 (tl.nonce + 1)) c (satAdd128 m.global_ordering)]⟩) := by
  refine ⟨?_, ?_, ?_⟩
  · intro m ev ac m' h
    by_cases hmode : m.cfg.rtos_mode = RtosMode.rtic1
    · rw [process_record_rtic1_any m ev hmode] at h
      by_cases hgate : (m.pre_process ev).event_counter = 1 ∧
          (m.pre_process ev).integration_version = none
      · by_cases hvalid : (m.counted_record ev).event_name = some "AUXON_TRACE_START" ∧
            (m.counted_record ev).task_name.isSome ∧
            (m.counted_record ev).integration_version.isSome
        · rw [process_rtic1_gate_valid _ _ hgate hvalid] at h
          exact main_stack_nonempty _ _ _ _ h
        · rw [process_rtic1_fallback_step _ _ hgate hvalid,
            Except.ok.injEq, Prod.mk.injEq] at h
          rw [← h.2]
          simp
      · rw [process_rtic1_gate_steady _ _ hgate] at h
        exact main_stack_nonempty _ _ _ _ h
    · rw [process_record_not_rtic1_eq m ev hmode] at h
      by_cases hec : (m.pre_process ev).event_counter = 1
      · rw [process_vanilla_first _ _ hec] at h
        obtain ⟨c, tl, hstack, htl, hac, hm'⟩ := inv_vanilla_emit _ _ _ _ h
        subst hm'
        simp
      · rw [process_vanilla_steady _ _ hec] at h
        obtain ⟨c, tl, hstack, htl, hac, hm'⟩ := inv_vanilla_emit _ _ _ _ h
        subst hm'
        simpa using ne_nil_of_getLast? hstack
  · intro cfg common r ac m' h
    by_cases hmode : cfg.rtos_mode = RtosMode.rtic1
    · rw [process_record_rtic1_any _ _
        (show (ContextManager.new cfg common).cfg.rtos_mode = RtosMode.rtic1 from hmode)] at h
      have hgate : ((ContextManager.new cfg common).pre_process r).event_counter = 1 ∧
          ((ContextManager.new cfg common).pre_process r).integration_version = none := by
        exact ⟨by show satAdd64 0 = 1; decide, rfl⟩
      by_cases hvalid : ((ContextManager.new cfg common).counted_record r).event_name =
            some "AUXON_TRACE_START" ∧
          ((ContextManager.new cfg common).counted_record r).task_name.isSome ∧
          ((ContextManager.new cfg common).counted_record r).integration_version.isSome
      · rw [process_rtic1_gate_valid _ _ hgate hvalid] at h
        rcases inv_main _ _ _ _ h with
          ⟨cn, hen, _, _⟩ |
          ⟨hen, _, _⟩ |
          ⟨hex, _⟩ |
          ⟨_, _, cn, hti, v, tl, hv, htl, hac, hm'⟩ |
          ⟨_, _, hns, _⟩
        · rcases hen with hn | hn <;> (rw [hvalid.1] at hn; exact absurd hn (by decide))
        · rcases hen with hn | hn <;> (rw [hvalid.1] at hn; exact absurd hn (by decide))
        · rcases hex with hn | hn <;> (rw [hvalid.1] at hn; exact absurd hn (by decide))
        · subst hm'
          exact ⟨context_id (((ContextManager.new cfg common).pre_process r
              ).cfg.init_task_name.getD cn), by
            simp [ContextManager.pre_process, ContextManager.new]⟩
        · have hti : (ContextManager.task_or_isr_name
              ((ContextManager.new cfg common).counted_record r)).isSome = true := by
            unfold ContextManager.task_or_isr_name
            cases hq : ((ContextManager.new cfg common).counted_record r).task_name with
            | some t => simp
            | none =>
              have h21 := hvalid.2.1
              rw [hq] at h21
              exact absurd h21 (by simp)
          exact absurd ⟨hvalid.1, hti, hgate.1⟩ hns
      · rw [process_rtic1_fallback_step _ _ hgate hvalid,
          Except.ok.injEq, Prod.mk.injEq] at h
        rw [← h.2]
        exact ⟨context_id "UNKNOWN_CONTEXT", by
          simp [ContextManager.pre_process, ContextManager.new]⟩
    · rw [process_record_not_rtic1_eq _ _
        (show (ContextManager.new cfg common).cfg.rtos_mode ≠ RtosMode.rtic1 from hmode)] at h
      rw [process_vanilla_first _ _ (by show satAdd64 0 = 1; decide)] at h
      obtain ⟨c, tl, hstack, htl, hac, hm'⟩ := inv_vanilla_emit _ _ _ _ h
      subst hm'
      exact ⟨context_id (((ContextManager.new cfg common).pre_process r
        ).cfg.init_task_name.getD "main"), by
        simp [ContextManager.pre_process, ContextManager.new]⟩
  · intro m ev ac m' hmode hgate hex hlen h
    rw [process_record_rtic1_any m ev hmode] at h
    have hgate' : ¬ (((m.pre_process ev)).event_counter = 1 ∧
        ((m.pre_process ev)).integration_version = none) := hgate
    rw [process_rtic1_gate_steady _ _ hgate'] at h
    have hexc : ((m.counted_record ev)).event_name = some "AUXON_TASK_EXIT" ∨
        ((m.counted_record ev)).event_name = some "AUXON_INTERRUPT_EXIT" := by
      have hpres := event_name_insert_attr ev
        (EventRecord.internal_attr_key "event_counter")
        (attrValOfU64 (satAdd64 m.event_counter)) (by decide)
      show (ev.insert_attr _ _).event_name = _ ∨ (ev.insert_attr _ _).event_name = _
      rw [hpres]
      exact hex
    rcases inv_main _ _ _ _ h with
      ⟨cn, hen, _, _⟩ |
      ⟨hen, _, _⟩ |
      ⟨_, c, hstack, hcase⟩ |
      ⟨hsn, _, _⟩ |
      ⟨_, hno, _, _⟩
    · rcases hexc with he | he <;> rcases hen with hn | hn <;>
        (rw [he] at hn; exact absurd hn (by decide))
    · rcases hexc with he | he <;> rcases hen with hn | hn <;>
        (rw [he] at hn; exact absurd hn (by decide))
    · rcases hcase with ⟨hlen₀, tl, htl, hac, hm'⟩ |
        ⟨hlen', c₂, tl, tl₂, tl₃, htl, hstack₂, htl₂, htl₃, hac, hm'⟩
      · refine ⟨?_, c, tl, hstack, htl, hac⟩
        rw [hm']
        simp [ContextManager.pre_process]
      · exact absurd hlen hlen'
    · rcases hexc with he | he <;> (rw [he] at hsn; exact absurd hsn (by decide))
    · exact absurd hexc hno

/-- The manager state after processing a lone valid start record. -/
def c8m : ContextManager :=
  match (ContextManager.new rtic1Cfg []).run_records [trace_start_rec 1] with
  | Except.ok p => p.2
  | Except.error _ => ContextManager.new rtic1Cfg []

/-- The result of feeding that manager an unexpected root exit. -/
def c8res : ActiveContext × ContextManager :=
  match c8m.process_record (task_exit_rec 2) with
  | Except.ok p => p
  | Except.error _ => (⟨[]⟩, c8m)

theorem except_ok_of_toOption {ε α : Type} {x : Except ε α} {a : α}
    (h : x.toOption = some a) : x = Except.ok a := by
  cases x with
  | error e => simp [Except.toOption] at h
  | ok b => simp [Except.toOption] at h; rw [h]

theorem c8_witness :
    c8m.cfg.rtos_mode = RtosMode.rtic1 ∧
    ¬ (satAdd64 c8m.event_counter = 1 ∧ c8m.integration_version = none) ∧
    ((task_exit_rec 2).event_name = some "AUXON_TASK_EXIT" ∨
      (task_exit_rec 2).event_name = some "AUXON_INTERRUPT_EXIT") ∧
    c8m.context_stack.length = 1 ∧
    (c8m.process_record (task_exit_rec 2)).toOption = some (c8res.1, c8res.2) ∧
    c8res.2.context_stack = c8m.context_stack := by
  refine ⟨by decide, by decide, by decide, by decide, by decide, ?_⟩
  exact (c8_stack_discipline.2.2 c8m (task_exit_rec 2) c8res.1 c8res.2
    (by decide) (by decide) (by decide) (by decide)
    (except_ok_of_toOption (by decide))).1

/-! ## C3: synthetic AUXON_CONTEXT_RETURN events -/

/-- A record the rtic1 branch treats as a context-enter: enter name plus a
task or ISR name (context_manager.rs lines 174-179). -/
def is_context_enter (ev : EventRecord) : Prop :=
  (ev.event_name = some "AUXON_TASK_ENTER" ∨
    ev.event_name = some "AUXON_INTERRUPT_ENTER") ∧
  (ContextManager.task_or_isr_name ev).isSome

/-- A record the rtic1 branch treats as a context-exit (lines 240-251). -/
def is_context_exit (ev : EventRecord) : Prop :=
  ev.event_name = some "AUXON_TASK_EXIT" ∨ ev.event_name = some "AUXON_INTERRUPT_EXIT"

/-- The timeline at the top of the context stack carries the
`requires_synthetic_interaction_event` flag. -/
def flag_on_top (m : ContextManager) : Prop :=
  ∃ c tl, m.context_stack.getLast? = some c ∧
    mapGet m.contexts_to_timelines c = some tl ∧
    tl.requires_synthetic_interaction_event = true

/-- Any flagged timeline is the one at the top of the context stack. -/
def only_top_flagged (m : ContextManager) : Prop :=
  ∀ c tl, mapGet m.contexts_to_timelines c = some tl →
    tl.requires_synthetic_interaction_event = true →
    m.context_stack.getLast? = some c

/-- An emission batch contains a record marked as synthetic
(`event.internal.defmt.synthetic = true`). -/
def has_synthetic (ac : ActiveContext) : Prop :=
  ∃ e ∈ ac.events,
    mapGet e.record.attributes "event.internal.defmt.synthetic" =
      some (AttrVal.bool true)

instance (ev : EventRecord) : Decidable (is_context_enter ev) := by
  unfold is_context_enter; infer_instance

instance (ev : EventRecord) : Decidable (is_context_exit ev) := by
  unfold is_context_exit; infer_instance

instance (m : ContextManager) : Decidable (flag_on_top m) := by
  unfold flag_on_top
  refine decidable_of_iff (∃ c ∈ m.context_stack.getLast?.toList,
    ∃ tl ∈ (mapGet m.contexts_to_timelines c).toList,
      tl.requires_synthetic_interaction_event = true) ?_
  constructor
  · rintro ⟨c, hc, tl, htl, hf⟩
    exact ⟨c, tl, by simpa using hc, by simpa using htl, hf⟩
  · rintro ⟨c, tl, hc, htl, hf⟩
    exact ⟨c, by simp [hc], tl, by simp [htl], hf⟩

instance (ac : ActiveContext) : Decidable (has_synthetic ac) := by
  unfold has_synthetic; infer_instance

theorem marker_insert_attr (r : EventRecord) (k : String) (v : AttrVal)
    (hk : k ≠ "event.internal.defmt.synthetic") :
    mapGet (r.insert_attr k v).attributes "event.internal.defmt.synthetic" =
      mapGet r.attributes "event.internal.defmt.synthetic" := by
  show mapGet (mapInsert r.attributes k v) _ = _
  exact mapGet_insert_ne _ _ _ _ (fun h => hk h.symm)

theorem marker_add_internal_nonce (r : EventRecord) (n : Int) :
    mapGet (r.add_internal_nonce n).attributes "event.internal.defmt.synthetic" =
      mapGet r.attributes "event.internal.defmt.synthetic" := by
  unfold EventRecord.add_internal_nonce
  exact marker_insert_attr r _ _ (by rw [ik_nonce]; decide)

theorem marker_add_interaction (r : EventRecord) (b : Bool) (t : Nat) (n : Int) :
    mapGet (r.add_interaction b t n).attributes "event.internal.defmt.synthetic" =
      mapGet r.attributes "event.internal.defmt.synthetic" := by
  unfold EventRecord.add_interaction
  cases b <;>
    exact (mapGet_insert_ne _ _ _ _ (by decide)).trans
      (mapGet_insert_ne _ _ _ _ (by decide))

theorem marker_stamped_event (ev : EventRecord)
    (p : Option ContextSwitchInteraction) (dis : Bool) (n : Int) (c go : Nat) :
    mapGet (stamped_event ev p dis n c go).record.attributes
        "event.internal.defmt.synthetic" =
      mapGet ev.attributes "event.internal.defmt.synthetic" := by
  cases p with
  | none => exact marker_add_internal_nonce ev n
  | some i =>
    show mapGet ((ev.add_internal_nonce n).add_interaction _ _ _).attributes _ = _
    rw [marker_add_interaction, marker_add_internal_nonce]

theorem marker_synthetic_record (ev : EventRecord) (n : Int) :
    mapGet (ContextManager.synthetic_record ev n).attributes
        "event.internal.defmt.synthetic" = some (AttrVal.bool true) := by
  unfold ContextManager.synthetic_record
  cases hts : mapGet ev.attributes "event.timestamp" with
  | none =>
    rw [marker_add_internal_nonce]
    exact mapGet_insert_self _ _ _
  | some ts =>
    rw [marker_insert_attr _ _ _ (by rw [ek_timestamp]; decide),
      marker_add_internal_nonce]
    exact mapGet_insert_self _ _ _

theorem marker_syn_event (ev : EventRecord)
    (p : Option ContextSwitchInteraction) (dis : Bool) (n : Int) (c go : Nat) :
    mapGet (syn_event ev p dis n c go).record.attributes
        "event.internal.defmt.synthetic" = some (AttrVal.bool true) := by
  cases p with
  | none => exact marker_synthetic_record ev n
  | some i =>
    show mapGet ((ContextManager.synthetic_record ev n).add_interaction _ _ _).attributes _ = _
    rw [marker_add_interaction, marker_synthetic_record]

theorem alloc_context_lookup_cases (m : ContextManager) (cn : String) (k : Nat)
    (tl : TimelineMeta)
    (h : mapGet (m.alloc_context cn).2.contexts_to_timelines k = some tl) :
    mapGet m.contexts_to_timelines k = some tl ∨
    (mapGet m.contexts_to_timelines k = none ∧ k = context_id cn ∧
      tl.requires_synthetic_interaction_event = false ∧ tl.nonce = 0) := by
  unfold ContextManager.alloc_context at h
  cases hm : mapGet m.contexts_to_timelines (context_id cn) with
  | some t =>
    simp only [hm] at h
    exact Or.inl h
  | none =>
    simp only [hm] at h
    by_cases hk : k = context_id cn
    · subst hk
      rw [mapGet_insert_self] at h
      refine Or.inr ⟨hm, rfl, ?_, ?_⟩
      · rw [← Option.some.injEq _ _ |>.mp h]
        rw [foldl_insert_attr_flag]
        cases hv : m.integration_version <;> rfl
      · rw [← Option.some.injEq _ _ |>.mp h]
        rw [foldl_insert_attr_nonce]
        cases hv : m.integration_version <;> rfl
    · rw [mapGet_insert_ne _ _ _ _ hk] at h
      exact Or.inl h

theorem counted_event_name (m : ContextManager) (ev : EventRecord) :
    (m.counted_record ev).event_name = ev.event_name := by
  unfold ContextManager.counted_record
  exact event_name_insert_attr ev _ _ (by rw [ik_event_counter]; decide)

theorem counted_task_or_isr (m : ContextManager) (ev : EventRecord) :
    ContextManager.task_or_isr_name (m.counted_record ev) =
      ContextManager.task_or_isr_name ev := by
  unfold ContextManager.task_or_isr_name ContextManager.counted_record
  rw [task_name_insert_attr ev _ _ (by rw [ik_event_counter]; decide),
    isr_name_insert_attr ev _ _ (by rw [ik_event_counter]; decide)]

theorem counted_marker (m : ContextManager) (ev : EventRecord) :
    mapGet (m.counted_record ev).attributes "event.internal.defmt.synthetic" =
      mapGet ev.attributes "event.internal.defmt.synthetic" := by
  unfold ContextManager.counted_record
  exact marker_insert_attr ev _ _ (by rw [ik_event_counter]; decide)

/-- C3 (amended): in rtic1 steady state a call to `process_record` emits a
synthetic `AUXON_CONTEXT_RETURN` event iff the record is a context-enter and
the pre-push top-of-stack timeline carries the
`requires_synthetic_interaction_event` flag; the flag afterwards is set iff
the record was a context-exit that actually popped the stack, or an
unexpected root exit arrived while the flag was already set (such a root
exit emits an event on the flagged timeline without clearing the flag); and
at most the top-of-stack timeline is ever flagged. -/
theorem c3_synthetic_context_return :
    ∀ (m : ContextManager) (ev : EventRecord) (ac : ActiveContext)
      (m' : ContextManager),
      m.cfg.rtos_mode = RtosMode.rtic1 →
      ¬ (satAdd64 m.event_counter = 1 ∧ m.integration_version = none) →
      satAdd64 m.event_counter ≠ 1 →
      mapGet ev.attributes "event.internal.defmt.synthetic" = none →
      only_top_flagged m →
      m.process_record ev = Except.ok (ac, m') →
      (has_synthetic ac ↔ is_context_enter ev ∧ flag_on_top m) ∧
      (m'.cfg.rtos_mode = RtosMode.rtic1 →
        (flag_on_top m' ↔ is_context_exit ev ∧
          (m.context_stack.length ≠ 1 ∨ flag_on_top m))) ∧
      (m'.cfg.rtos_mode = RtosMode.rtic1 → only_top_flagged m') := by
  intro m ev ac m' hmode hgate hec hclean htopinv h
  rw [process_record_rtic1_any m ev hmode] at h
  rw [process_rtic1_gate_steady _ _ hgate] at h
  have hcleanc : mapGet (m.counted_record ev).attributes
      "event.internal.defmt.synthetic" = none := by
    rw [counted_marker]; exact hclean
  rcases inv_main _ _ _ _ h with
    ⟨cn, hen, htic, c, tl, hstack, htl, hcase⟩ |
    ⟨hen, htic, tl, htl, hac, hm'⟩ |
    ⟨hex, c, hstack, hcase⟩ |
    ⟨hsn, hsec, _⟩ |
    ⟨hno, hnx, _, c, tl, hstack, htl, hac, hm'⟩
  · -- context-enter with a task/ISR name
    rw [counted_event_name] at hen
    rw [counted_task_or_isr] at htic
    have henter : is_context_enter ev := ⟨hen, by rw [htic]; rfl⟩
    have hnotexit : ¬ is_context_exit ev := by
      rintro (hx | hx) <;> rcases hen with hn | hn <;>
        (rw [hn] at hx; exact absurd hx (by decide))
    have hstack' : m.context_stack.getLast? = some c := hstack
    rcases hcase with ⟨hflag, tl₂, htl₂, hac, hm'⟩ | ⟨hflag, tl₂, htl₂, hac, hm'⟩
    · -- flag clear: no synthetic
      have hstk' : m'.context_stack = m.context_stack ++ [context_id cn] := by
        rw [hm']
        rfl
      have hmap' : m'.contexts_to_timelines =
          mapInsert (mapInsert ((m.pre_process ev).alloc_context
            cn).2.contexts_to_timelines c
            { tl with requires_synthetic_interaction_event := false })
            (context_id cn) tl₂.increment_nonce := by
        rw [hm']
      have hfm : ¬ flag_on_top m := by
        rintro ⟨c', tl', hc', htl', hf'⟩
        rw [hstack', Option.some.injEq] at hc'
        subst hc'
        rcases alloc_context_lookup_cases _ cn c tl htl with hsame | ⟨hnone, _, _, _⟩
        · have hsame' : mapGet m.contexts_to_timelines c = some tl := hsame
          rw [hsame', Option.some.injEq] at htl'
          rw [← htl', hflag] at hf'
          exact absurd hf' (by decide)
        · have hnone' : mapGet m.contexts_to_timelines c = none := hnone
          rw [hnone'] at htl'
          exact absurd htl' (by simp)
      have hnosyn : ¬ has_synthetic ac := by
        rw [hac]
        rintro ⟨e, he, hmk⟩
        simp at he
        rw [he, marker_stamped_event, hcleanc] at hmk
        exact absurd hmk (by simp)
      have hflag₂ : tl₂.requires_synthetic_interaction_event = false := by
        by_cases hcc : context_id cn = c
        · rw [hcc, mapGet_insert_self, Option.some.injEq] at htl₂
          rw [← htl₂]
        · rw [mapGet_insert_ne _ _ _ _ hcc] at htl₂
          rcases alloc_context_lookup_cases _ cn _ tl₂ htl₂ with hsame | ⟨_, _, hf, _⟩
          · by_cases hfq : tl₂.requires_synthetic_interaction_event = true
            · exfalso
              have hq := htopinv _ _ hsame hfq
              rw [hstack', Option.some.injEq] at hq
              exact hcc hq.symm
            · simpa using hfq
          · exact hf
      refine ⟨iff_of_false hnosyn (fun hq => hfm hq.2), ?_, ?_⟩
      · intro _
        refine iff_of_false ?_ (fun hq => hnotexit hq.1)
        rintro ⟨c', tl', hc', htl', hf'⟩
        rw [hstk', List.getLast?_concat, Option.some.injEq] at hc'
        subst hc'
        rw [hmap', mapGet_insert_self, Option.some.injEq] at htl'
        rw [← htl'] at hf'
        rw [show tl₂.increment_nonce.requires_synthetic_interaction_event =
          tl₂.requires_synthetic_interaction_event from rfl, hflag₂] at hf'
        exact absurd hf' (by decide)
      · intro _
        intro k tlk hk hf
        exfalso
        rw [hmap'] at hk
        by_cases hkc : k = context_id cn
        · rw [hkc, mapGet_insert_self, Option.some.injEq] at hk
          rw [← hk] at hf
          rw [show tl₂.increment_nonce.requires_synthetic_interaction_event =
            tl₂.requires_synthetic_interaction_event from rfl, hflag₂] at hf
          exact absurd hf (by decide)
        · rw [mapGet_insert_ne _ _ _ _ hkc] at hk
          by_cases hkc₂ : k = c
          · rw [hkc₂, mapGet_insert_self, Option.some.injEq] at hk
            rw [← hk] at hf
            exact absurd hf (by simp)
          · rw [mapGet_insert_ne _ _ _ _ hkc₂] at hk
            rcases alloc_context_lookup_cases _ cn _ tlk hk with hsame | ⟨_, hkcn, _, _⟩
            · have hq := htopinv _ _ hsame hf
              rw [hstack', Option.some.injEq] at hq
              exact hkc₂ hq.symm
            · exact hkc hkcn
    · -- flag set: synthetic emitted
      have hstk' : m'.context_stack = m.context_stack ++ [context_id cn] := by
        rw [hm']
        rfl
      have hmap' : m'.contexts_to_timelines =
          mapInsert (mapInsert (mapInsert ((m.pre_process ev).alloc_context
            cn).2.contexts_to_timelines c
            { tl with requires_synthetic_interaction_event := false,
                      nonce := wrapI64 (tl.nonce + 1) }) c
            { tl with requires_synthetic_interaction_event := false,
                      nonce := wrapI64 (tl.nonce + 1) })
            (context_id cn) tl₂.increment_nonce := by
        rw [hm']
      have hfm : flag_on_top m := by
        rcases alloc_context_lookup_cases _ cn c tl htl with hsame | ⟨_, _, hf, _⟩
        · exact ⟨c, tl, hstack', hsame, hflag⟩
        · rw [hflag] at hf
          exact absurd hf (by decide)
      have hsyn : has_synthetic ac := by
        rw [hac]
        exact ⟨syn_event (m.counted_record ev)
          (m.pre_process ev).pending_context_switch_interaction
          (m.pre_process ev).cfg.disable_interactions
          (wrapI64 (tl.nonce + 1)) c (m.pre_process ev).global_ordering,
          by simp, by rw [marker_syn_event]⟩
      have hflag₂ : tl₂.requires_synthetic_interaction_event = false := by
        by_cases hcc : context_id cn = c
        · rw [hcc, mapGet_insert_self, Option.some.injEq] at htl₂
          rw [← htl₂]
        · rw [mapGet_insert_ne _ _ _ _ hcc, mapGet_insert_ne _ _ _ _ hcc] at htl₂
          rcases alloc_context_lookup_cases _ cn _ tl₂ htl₂ with hsame | ⟨_, _, hf, _⟩
          · by_cases hfq : tl₂.requires_synthetic_interaction_event = true
            · exfalso
              have hq := htopinv _ _ hsame hfq
              rw [hstack', Option.some.injEq] at hq
              exact hcc hq.symm
            · simpa using hfq
          · exact hf
      refine ⟨iff_of_true hsyn ⟨henter, hfm⟩, ?_, ?_⟩
      · intro _
        refine iff_of_false ?_ (fun hq => hnotexit hq.1)
        rintro ⟨c', tl', hc', htl', hf'⟩
        rw [hstk', List.getLast?_concat, Option.some.injEq] at hc'
        subst hc'
        rw [hmap', mapGet_insert_self, Option.some.injEq] at htl'
        rw [← htl'] at hf'
        rw [show tl₂.increment_nonce.requires_synthetic_interaction_event =
          tl₂.requires_synthetic_interaction_event from rfl, hflag₂] at hf'
        exact absurd hf' (by decide)
      · intro _
        intro k tlk hk hf
        exfalso
        rw [hmap'] at hk
        by_cases hkc : k = context_id cn
        · rw [hkc, mapGet_insert_self, Option.some.injEq] at hk
          rw [← hk] at hf
          rw [show tl₂.increment_nonce.requires_synthetic_interaction_event =
            tl₂.requires_synthetic_interaction_event from rfl, hflag₂] at hf
          exact absurd hf (by decide)
        · rw [mapGet_insert_ne _ _ _ _ hkc] at hk
          by_cases hkc₂ : k = c
          · rw [hkc₂, mapGet_insert_self, Option.some.injEq] at hk
            rw [← hk] at hf
            exact absurd hf (by simp)
          · rw [mapGet_insert_ne _ _ _ _ hkc₂, mapGet_insert_ne _ _ _ _ hkc₂] at hk
            rcases alloc_context_lookup_cases _ cn _ tlk hk with hsame | ⟨_, hkcn, _, _⟩
            · have hq := htopinv _ _ hsame hf
              rw [hstack', Option.some.injEq] at hq
              exact hkc₂ hq.symm
            · exact hkc hkcn
  · -- context-enter without a task/ISR name: downgrade to vanilla mode
    rw [counted_event_name] at hen
    rw [counted_task_or_isr] at htic
    have hcfg' : m'.cfg.rtos_mode = RtosMode.none := by
      rw [hm']
      simp [alloc_context_cfg]
    have hnomode : m'.cfg.rtos_mode ≠ RtosMode.rtic1 := by
      rw [hcfg']
      decide
    have hnosyn : ¬ has_synthetic ac := by
      rw [hac]
      rintro ⟨e, he, hmk⟩
      simp at he
      rw [he, marker_stamped_event, hcleanc] at hmk
      exact absurd hmk (by simp)
    have hnotenter : ¬ is_context_enter ev := by
      rintro ⟨_, hs⟩
      rw [htic] at hs
      exact absurd hs (by decide)
    exact ⟨iff_of_false hnosyn (fun hq => hnotenter hq.1),
      fun hq => absurd hq hnomode, fun hq => absurd hq hnomode⟩
  · -- context-exit
    rw [counted_event_name] at hex
    have hnotenter : ¬ is_context_enter ev := by
      rintro ⟨hn, _⟩
      rcases hex with hx | hx <;> rcases hn with hn | hn <;>
        (rw [hx] at hn; exact absurd hn (by decide))
    have hexit : is_context_exit ev := hex
    have hstack' : m.context_stack.getLast? = some c := hstack
    rcases hcase with ⟨hlen, tl, htl, hac, hm'⟩ |
      ⟨hlen, c₂, tl, tl₂, tl₃, htl, hstack₂, htl₂, htl₃, hac, hm'⟩
    · -- unexpected exit from the root: flag unchanged
      have hstk' : m'.context_stack = m.context_stack := by
        rw [hm']
        rfl
      have hmap' : m'.contexts_to_timelines =
          mapInsert m.contexts_to_timelines c tl.increment_nonce := by
        rw [hm']
        rfl
      have hnosyn : ¬ has_synthetic ac := by
        rw [hac]
        rintro ⟨e, he, hmk⟩
        simp at he
        rw [he, marker_stamped_event, hcleanc] at hmk
        exact absurd hmk (by simp)
      have hlen' : m.context_stack.length = 1 := hlen
      have htl' : mapGet m.contexts_to_timelines c = some tl := htl
      refine ⟨iff_of_false hnosyn (fun hq => hnotenter hq.1), ?_, ?_⟩
      · intro _
        cases hf : tl.requires_synthetic_interaction_event with
        | true =>
          refine iff_of_true ⟨c, tl.increment_nonce, ?_, ?_, hf⟩
            ⟨hexit, Or.inr ⟨c, tl, hstack', htl', hf⟩⟩
          · rw [hstk']
            exact hstack'
          · rw [hmap']
            exact mapGet_insert_self _ _ _
        | false =>
          refine iff_of_false ?_ ?_
          · rintro ⟨c', tl', hc', htlq, hf'⟩
            rw [hstk', hstack', Option.some.injEq] at hc'
            subst hc'
            rw [hmap', mapGet_insert_self, Option.some.injEq] at htlq
            rw [← htlq] at hf'
            rw [show tl.increment_nonce.requires_synthetic_interaction_event =
              tl.requires_synthetic_interaction_event from rfl, hf] at hf'
            exact absurd hf' (by decide)
          · rintro ⟨_, hor⟩
            rcases hor with hq | ⟨c', tlq, hc', htlq, hf'⟩
            · exact hq hlen'
            · rw [hstack', Option.some.injEq] at hc'
              subst hc'
              rw [htl', Option.some.injEq] at htlq
              rw [← htlq, hf] at hf'
              exact absurd hf' (by decide)
      · intro _
        intro k tlk hk hf
        rw [hmap'] at hk
        rw [hstk']
        by_cases hkc : k = c
        · rw [hkc]
          exact hstack'
        · rw [mapGet_insert_ne _ _ _ _ hkc] at hk
          exact htopinv _ _ hk hf
    · -- genuine pop: new top of stack gets flagged
      have hstk' : m'.context_stack = m.context_stack.dropLast := by
        rw [hm']
        rfl
      have hmap' : m'.contexts_to_timelines =
          mapInsert (mapInsert (mapInsert m.contexts_to_timelines c
            { tl with requires_synthetic_interaction_event := false }) c₂
            { tl₂ with requires_synthetic_interaction_event := true }) c
            tl₃.increment_nonce := by
        rw [hm']
        rfl
      have hnosyn : ¬ has_synthetic ac := by
        rw [hac]
        rintro ⟨e, he, hmk⟩
        simp at he
        rw [he, marker_stamped_event, hcleanc] at hmk
        exact absurd hmk (by simp)
      have hlen' : m.context_stack.length ≠ 1 := hlen
      have hstack₂' : m.context_stack.dropLast.getLast? = some c₂ := hstack₂
      refine ⟨iff_of_false hnosyn (fun hq => hnotenter hq.1), ?_, ?_⟩
      · intro _
        refine iff_of_true ?_ ⟨hexit, Or.inl hlen'⟩
        by_cases hcc : c = c₂
        · have htl₃' : tl₃ = { tl₂ with requires_synthetic_interaction_event := true } := by
            rw [← hcc, mapGet_insert_self, Option.some.injEq] at htl₃
            exact htl₃.symm
          refine ⟨c₂, tl₃.increment_nonce, ?_, ?_, ?_⟩
          · rw [hstk']
            exact hstack₂'
          · rw [hmap', ← hcc]
            exact mapGet_insert_self _ _ _
          · rw [htl₃']
            rfl
        · refine ⟨c₂, { tl₂ with requires_synthetic_interaction_event := true }, ?_, ?_, rfl⟩
          · rw [hstk']
            exact hstack₂'
          · rw [hmap']
            rw [mapGet_insert_ne _ _ _ _ (fun hq => hcc hq.symm)]
            exact mapGet_insert_self _ _ _
      · intro _
        intro k tlk hk hf
        rw [hmap'] at hk
        rw [hstk']
        by_cases hkc : k = c
        · subst hkc
          rw [mapGet_insert_self, Option.some.injEq] at hk
          by_cases hcc : k = c₂
          · rw [hcc]
            exact hstack₂'
          · have htl₃' : tl₃ = { tl with requires_synthetic_interaction_event := false } := by
              rw [mapGet_insert_ne _ _ _ _ hcc,
                mapGet_insert_self, Option.some.injEq] at htl₃
              exact htl₃.symm
            rw [← hk] at hf
            rw [show tl₃.increment_nonce.requires_synthetic_interaction_event =
              tl₃.requires_synthetic_interaction_event from rfl, htl₃'] at hf
            exact absurd hf (by simp)
        · rw [mapGet_insert_ne _ _ _ _ hkc] at hk
          by_cases hkc₂ : k = c₂
          · rw [hkc₂]
            exact hstack₂'
          · rw [mapGet_insert_ne _ _ _ _ hkc₂, mapGet_insert_ne _ _ _ _ hkc] at hk
            have hq := htopinv _ _ hk hf
            rw [hstack', Option.some.injEq] at hq
            exact absurd hq.symm hkc
  · -- first start record: excluded by the steady-state hypothesis
    exact absurd hsec hec
  · -- any other record: clears the flag on the top of stack
    rw [counted_event_name] at hno hnx
    have hnotenter : ¬ is_context_enter ev := fun hq => hno hq.1
    have hnotexit : ¬ is_context_exit ev := hnx
    have hstack' : m.context_stack.getLast? = some c := hstack
    have hstk' : m'.context_stack = m.context_stack := by
      rw [hm']
      rfl
    have hmap' : m'.contexts_to_timelines =
        mapInsert (mapInsert m.contexts_to_timelines c
          { tl with requires_synthetic_interaction_event := false }) c
          ({ tl with requires_synthetic_interaction_event := false
           }).increment_nonce := by
      rw [hm']
      rfl
    have hnosyn : ¬ has_synthetic ac := by
      rw [hac]
      rintro ⟨e, he, hmk⟩
      simp at he
      rw [he, marker_stamped_event, hcleanc] at hmk
      exact absurd hmk (by simp)
    refine ⟨iff_of_false hnosyn (fun hq => hnotenter hq.1), ?_, ?_⟩
    · intro _
      refine iff_of_false ?_ (fun hq => hnotexit hq.1)
      rintro ⟨c', tl', hc', htl', hf'⟩
      rw [hstk', hstack', Option.some.injEq] at hc'
      subst hc'
      rw [hmap', mapGet_insert_self, Option.some.injEq] at htl'
      rw [← htl'] at hf'
      exact absurd hf' (by simp [TimelineMeta.increment_nonce])
    · intro _
      intro k tlk hk hf
      rw [hmap'] at hk
      rw [hstk']
      by_cases hkc : k = c
      · rw [hkc]
        exact hstack'
      · rw [mapGet_insert_ne _ _ _ _ hkc, mapGet_insert_ne _ _ _ _ hkc] at hk
        exact htopinv _ _ hk hf

theorem mem_keys_of_mapGet {α β : Type} [DecidableEq α] {m : List (α × β)}
    {k : α} {v : β} (h : mapGet m k = some v) : k ∈ mapKeys m := by
  by_contra hk
  rw [mapGet_eq_none_of_not_mem_keys m k hk] at h
  exact absurd h (by simp)

instance (m : ContextManager) : Decidable (only_top_flagged m) :=
  decidable_of_iff (∀ k ∈ mapKeys m.contexts_to_timelines,
    ∀ tl ∈ (mapGet m.contexts_to_timelines k).toList,
      tl.requires_synthetic_interaction_event = true →
      m.context_stack.getLast? = some k) (by
    constructor
    · intro h c tl hc hf
      exact h c (mem_keys_of_mapGet hc) tl (by simp [hc]) hf
    · intro h c hk tl htl hf
      rw [Option.mem_toList, Option.mem_def] at htl
      exact h c tl htl hf)

/-- The scenario refuting the claim's temporal reading: after
`[trace_start, isr_enter, isr_exit]` the exit pops `ISR` and flags the
`init` timeline; a second (unexpected, root) `isr_exit` then emits a real
event on `init` without clearing the flag. -/
def c3m : ContextManager :=
  match (ContextManager.new rtic1Cfg []).run_records
      [trace_start_rec 1, isr_enter_rec 2, isr_exit_rec 3, isr_exit_rec 4] with
  | Except.ok p => p.2
  | Except.error _ => ContextManager.new rtic1Cfg []

/-- The result of the next context-enter on that state. -/
def c3res : ActiveContext × ContextManager :=
  match c3m.process_record (isr_enter_rec 5) with
  | Except.ok p => p
  | Except.error _ => (⟨[]⟩, c3m)

/-- Running
`[trace_start, isr_enter, isr_exit, isr_exit, isr_enter]` on a fresh rtic1
manager: the third record pops `ISR` and flags `init`, the fourth record is
an unexpected root exit that emits a real (unmarked) event on `init`
(index 3), and the fifth record still emits a synthetic
`AUXON_CONTEXT_RETURN` on `init` (index 4, marked
`event.internal.defmt.synthetic = true`) although a real event was emitted
on that timeline after the pop — refuting the claim's "no event has since
been emitted on it". -/
theorem c3_counterexample :
    ((ContextManager.new rtic1Cfg []).run_records
      [trace_start_rec 1, isr_enter_rec 2, isr_exit_rec 3, isr_exit_rec 4,
       isr_enter_rec 5]).toOption.map
      (fun p => p.1.map (fun e => (e.context,
        mapGet e.record.attributes "event.internal.defmt.synthetic"))) =
    some [(context_id "init", none), (context_id "ISR", none),
          (context_id "ISR", none), (context_id "init", none),
          (context_id "init", some (AttrVal.bool true)),
          (context_id "ISR", none)] := by
  decide

set_option maxRecDepth 4000 in
theorem c3_witness :
    c3m.cfg.rtos_mode = RtosMode.rtic1 ∧
    ¬ (satAdd64 c3m.event_counter = 1 ∧ c3m.integration_version = none) ∧
    satAdd64 c3m.event_counter ≠ 1 ∧
    mapGet (isr_enter_rec 5).attributes "event.internal.defmt.synthetic" = none ∧
    only_top_flagged c3m ∧
    (c3m.process_record (isr_enter_rec 5)).toOption = some (c3res.1, c3res.2) ∧
    (has_synthetic c3res.1 ↔ is_context_enter (isr_enter_rec 5) ∧ flag_on_top c3m) := by
  refine ⟨by decide, by decide, by decide, by decide, by decide, by decide, ?_⟩
  exact (c3_synthetic_context_return c3m (isr_enter_rec 5) c3res.1 c3res.2
    (by decide) (by decide) (by decide) (by decide) (by decide)
    (except_ok_of_toOption (by decide))).1

/-! ## C4: nonce succession on each timeline -/

/-- The nonce currently stored for a context's timeline. -/
def tl_nonce_at (m : ContextManager) (c : Nat) : Option Int :=
  (mapGet m.contexts_to_timelines c).map TimelineMeta.nonce

theorem internal_nonce_insert (r : EventRecord) (k : String) (v : AttrVal)
    (hk : k ≠ "event.internal.defmt.nonce") :
    (r.insert_attr k v).internal_nonce = r.internal_nonce := by
  unfold EventRecord.internal_nonce EventRecord.insert_attr
  rw [mapGet_insert_ne _ _ _ _ (fun h₁ => hk h₁.symm)]

theorem internal_nonce_add_interaction (r : EventRecord) (b : Bool) (t : Nat) (n : Int) :
    (r.add_interaction b t n).internal_nonce = r.internal_nonce := by
  unfold EventRecord.internal_nonce EventRecord.add_interaction
  cases b <;>
    rw [mapGet_insert_ne _ _ _ _ (by decide), mapGet_insert_ne _ _ _ _ (by decide)]

theorem nonce_stamped_event (ev : EventRecord)
    (p : Option ContextSwitchInteraction) (dis : Bool) (n : Int) (c go : Nat) :
    (stamped_event ev p dis n c go).record.internal_nonce = some n := by
  cases p with
  | none => exact internal_nonce_add ev n
  | some i =>
    show ((ev.add_internal_nonce n).add_interaction _ _ _).internal_nonce = some n
    rw [internal_nonce_add_interaction, internal_nonce_add]

theorem nonce_synthetic_record (ev : EventRecord) (n : Int) :
    (ContextManager.synthetic_record ev n).internal_nonce = some n := by
  unfold ContextManager.synthetic_record
  cases hts : mapGet ev.attributes "event.timestamp" with
  | none => exact internal_nonce_add _ n
  | some ts =>
    rw [internal_nonce_insert _ _ _ (by rw [ek_timestamp]; decide), internal_nonce_add]

theorem nonce_syn_event (ev : EventRecord)
    (p : Option ContextSwitchInteraction) (dis : Bool) (n : Int) (c go : Nat) :
    (syn_event ev p dis n c go).record.internal_nonce = some n := by
  cases p with
  | none => exact nonce_synthetic_record ev n
  | some i =>
    show ((ContextManager.synthetic_record ev n).add_interaction _ _ _).internal_nonce = some n
    rw [internal_nonce_add_interaction, nonce_synthetic_record]

theorem context_stamped_event (ev : EventRecord)
    (p : Option ContextSwitchInteraction) (dis : Bool) (n : Int) (c go : Nat) :
    (stamped_event ev p dis n c go).context = c := by
  cases p <;> rfl

theorem context_syn_event (ev : EventRecord)
    (p : Option ContextSwitchInteraction) (dis : Bool) (n : Int) (c go : Nat) :
    (syn_event ev p dis n c go).context = c := by
  cases p <;> rfl

/-- C4 (amended): in rtic1 steady state each call to `process_record` stamps
`event.internal.defmt.nonce` values that continue each timeline's stored
nonce by exactly +1 (wrapping as an i64), counting synthetic events: the
emitted batch is a single event whose nonce is the wrapped successor of its
timeline's stored nonce (0 for a freshly allocated timeline), or a synthetic
event and a real event on two distinct timelines, each the wrapped successor
of its own timeline's nonce, or two events on the same timeline with two
consecutive wrapped successors; the stored nonce always ends at the last
stamped value. Successive real events on the same timeline may therefore
differ by 2 when a synthetic event is stamped between them. -/
theorem c4_nonce_succession :
    ∀ (m : ContextManager) (ev : EventRecord) (ac : ActiveContext)
      (m' : ContextManager),
      m.cfg.rtos_mode = RtosMode.rtic1 →
      ¬ (satAdd64 m.event_counter = 1 ∧ m.integration_version = none) →
      satAdd64 m.event_counter ≠ 1 →
      m.process_record ev = Except.ok (ac, m') →
      (∃ c n, ac.events.map (fun e => (e.context, e.record.internal_nonce)) =
          [(c, some (wrapI64 (n + 1)))] ∧
        (tl_nonce_at m c = some n ∨ (tl_nonce_at m c = none ∧ n = 0)) ∧
        tl_nonce_at m' c = some (wrapI64 (n + 1))) ∨
      (∃ c c₂ n n₂, c ≠ c₂ ∧
        ac.events.map (fun e => (e.context, e.record.internal_nonce)) =
          [(c, some (wrapI64 (n + 1))), (c₂, some (wrapI64 (n₂ + 1)))] ∧
        tl_nonce_at m c = some n ∧
        (tl_nonce_at m c₂ = some n₂ ∨ (tl_nonce_at m c₂ = none ∧ n₂ = 0)) ∧
        tl_nonce_at m' c = some (wrapI64 (n + 1)) ∧
        tl_nonce_at m' c₂ = some (wrapI64 (n₂ + 1))) ∨
      (∃ c n, ac.events.map (fun e => (e.context, e.record.internal_nonce)) =
          [(c, some (wrapI64 (n + 1))), (c, some (wrapI64 (wrapI64 (n + 1) + 1)))] ∧
        tl_nonce_at m c = some n ∧
        tl_nonce_at m' c = some (wrapI64 (wrapI64 (n + 1) + 1))) := by
  intro m ev ac m' hmode hgate hec h
  rw [process_record_rtic1_any m ev hmode, process_rtic1_gate_steady _ _ hgate] at h
  rcases inv_main _ _ _ _ h with
    ⟨cn, hen, htic, c, tl, hstack, htl, hcase⟩ |
    ⟨hen, htic, tl, htl, hac, hm'⟩ |
    ⟨hex, c, hstack, hcase⟩ |
    ⟨hsn, hsec, _⟩ |
    ⟨hno, hnx, _, c, tl, hstack, htl, hac, hm'⟩
  · -- context-enter
    rcases hcase with ⟨hflag, tl₂, htl₂, hac, hm'⟩ | ⟨hflag, tl₂, htl₂, hac, hm'⟩
    · -- no synthetic: one event on the entered context
      have hmap' : m'.contexts_to_timelines =
          mapInsert (mapInsert ((m.pre_process ev).alloc_context
            cn).2.contexts_to_timelines c
            { tl with requires_synthetic_interaction_event := false })
            (context_id cn) tl₂.increment_nonce := by
        rw [hm']
      left
      refine ⟨context_id cn, tl₂.nonce, ?_, ?_, ?_⟩
      · rw [hac]
        simp [context_stamped_event, nonce_stamped_event]
      · by_cases hcc : context_id cn = c
        · rw [hcc, mapGet_insert_self, Option.some.injEq] at htl₂
          rcases alloc_context_lookup_cases _ cn c tl htl with hsame | ⟨hnone, _, _, hz⟩
          · have hsame' : mapGet m.contexts_to_timelines c = some tl := hsame
            left
            unfold tl_nonce_at
            rw [hcc, hsame']
            simp [← htl₂]
          · have hnone' : mapGet m.contexts_to_timelines c = none := hnone
            right
            constructor
            · unfold tl_nonce_at
              rw [hcc, hnone']
              rfl
            · simp [← htl₂, hz]
        · rw [mapGet_insert_ne _ _ _ _ hcc] at htl₂
          rcases alloc_context_lookup_cases _ cn _ tl₂ htl₂ with hsame | ⟨hnone, _, _, hz⟩
          · have hsame' : mapGet m.contexts_to_timelines (context_id cn) = some tl₂ := hsame
            left
            unfold tl_nonce_at
            rw [hsame']
            rfl
          · have hnone' : mapGet m.contexts_to_timelines (context_id cn) = none := hnone
            right
            exact ⟨by unfold tl_nonce_at; rw [hnone']; rfl, hz⟩
      · unfold tl_nonce_at
        rw [hmap', mapGet_insert_self]
        simp [TimelineMeta.increment_nonce]
    · -- synthetic plus real event
      have hmap' : m'.contexts_to_timelines =
          mapInsert (mapInsert (mapInsert ((m.pre_process ev).alloc_context
            cn).2.contexts_to_timelines c
            { tl with requires_synthetic_interaction_event := false,
                      nonce := wrapI64 (tl.nonce + 1) }) c
            { tl with requires_synthetic_interaction_event := false,
                      nonce := wrapI64 (tl.nonce + 1) })
            (context_id cn) tl₂.increment_nonce := by
        rw [hm']
      have hpre : tl_nonce_at m c = some tl.nonce := by
        rcases alloc_context_lookup_cases _ cn c tl htl with hsame | ⟨_, _, hf, _⟩
        · have hsame' : mapGet m.contexts_to_timelines c = some tl := hsame
          unfold tl_nonce_at
          rw [hsame']
          rfl
        · rw [hflag] at hf
          exact absurd hf (by decide)
      by_cases hcc : context_id cn = c
      · right; right
        rw [hcc, mapGet_insert_self, Option.some.injEq] at htl₂
        refine ⟨c, tl.nonce, ?_, hpre, ?_⟩
        · rw [hac]
          simp [context_stamped_event, nonce_stamped_event, context_syn_event,
            nonce_syn_event, hcc, ← htl₂]
        · unfold tl_nonce_at
          rw [hmap', hcc, mapGet_insert_self]
          simp [TimelineMeta.increment_nonce, ← htl₂]
      · right; left
        rw [mapGet_insert_ne _ _ _ _ hcc, mapGet_insert_ne _ _ _ _ hcc] at htl₂
        refine ⟨c, context_id cn, tl.nonce, tl₂.nonce, fun hq => hcc hq.symm,
          ?_, hpre, ?_, ?_, ?_⟩
        · rw [hac]
          simp [context_stamped_event, nonce_stamped_event, context_syn_event,
            nonce_syn_event]
        · rcases alloc_context_lookup_cases _ cn _ tl₂ htl₂ with hsame | ⟨hnone, _, _, hz⟩
          · have hsame' : mapGet m.contexts_to_timelines (context_id cn) = some tl₂ := hsame
            left
            unfold tl_nonce_at
            rw [hsame']
            rfl
          · have hnone' : mapGet m.contexts_to_timelines (context_id cn) = none := hnone
            right
            exact ⟨by unfold tl_nonce_at; rw [hnone']; rfl, hz⟩
        · unfold tl_nonce_at
          rw [hmap', mapGet_insert_ne _ _ _ _ (fun hq => hcc hq.symm), mapGet_insert_self]
          rfl
        · unfold tl_nonce_at
          rw [hmap', mapGet_insert_self]
          simp [TimelineMeta.increment_nonce]
  · -- downgrade: one event on UNKNOWN_CONTEXT
    have hmap' : m'.contexts_to_timelines =
        mapInsert (mapInsert ({ m.pre_process ev with cfg := { (m.pre_process ev).cfg with
            rtos_mode := RtosMode.none } }.alloc_context
            "UNKNOWN_CONTEXT").2.contexts_to_timelines
          (context_id "UNKNOWN_CONTEXT")
          { tl with requires_synthetic_interaction_event := false })
          (context_id "UNKNOWN_CONTEXT")
          ({ tl with requires_synthetic_interaction_event := false
           }).increment_nonce := by
      rw [hm']
    left
    refine ⟨context_id "UNKNOWN_CONTEXT", tl.nonce, ?_, ?_, ?_⟩
    · rw [hac]
      simp [context_stamped_event, nonce_stamped_event]
    · rcases alloc_context_lookup_cases _ "UNKNOWN_CONTEXT" _ tl htl with
        hsame | ⟨hnone, _, _, hz⟩
      · have hsame' : mapGet m.contexts_to_timelines (context_id "UNKNOWN_CONTEXT") =
            some tl := hsame
        left
        unfold tl_nonce_at
        rw [hsame']
        rfl
      · have hnone' : mapGet m.contexts_to_timelines (context_id "UNKNOWN_CONTEXT") =
            none := hnone
        right
        exact ⟨by unfold tl_nonce_at; rw [hnone']; rfl, hz⟩
    · unfold tl_nonce_at
      rw [hmap', mapGet_insert_self]
      simp [TimelineMeta.increment_nonce]
  · -- context-exit
    rcases hcase with ⟨hlen, tl, htl, hac, hm'⟩ |
      ⟨hlen, c₂, tl, tl₂, tl₃, htl, hstack₂, htl₂, htl₃, hac, hm'⟩
    · -- root exit
      have hmap' : m'.contexts_to_timelines =
          mapInsert m.contexts_to_timelines c tl.increment_nonce := by
        rw [hm']
        rfl
      have htl' : mapGet m.contexts_to_timelines c = some tl := htl
      left
      refine ⟨c, tl.nonce, ?_, ?_, ?_⟩
      · rw [hac]
        simp [context_stamped_event, nonce_stamped_event]
      · left
        unfold tl_nonce_at
        rw [htl']
        rfl
      · unfold tl_nonce_at
        rw [hmap', mapGet_insert_self]
        simp [TimelineMeta.increment_nonce]
    · -- pop exit
      have hmap' : m'.contexts_to_timelines =
          mapInsert (mapInsert (mapInsert m.contexts_to_timelines c
            { tl with requires_synthetic_interaction_event := false }) c₂
            { tl₂ with requires_synthetic_interaction_event := true }) c
            tl₃.increment_nonce := by
        rw [hm']
        rfl
      have htl' : mapGet m.contexts_to_timelines c = some tl := htl
      have htl₃n : tl₃.nonce = tl.nonce := by
        by_cases hcc : c = c₂
        · rw [← hcc, mapGet_insert_self, Option.some.injEq] at htl₃
          rw [← hcc, mapGet_insert_self, Option.some.injEq] at htl₂
          rw [← htl₃, ← htl₂]
        · rw [mapGet_insert_ne _ _ _ _ hcc, mapGet_insert_self,
            Option.some.injEq] at htl₃
          rw [← htl₃]
      left
      refine ⟨c, tl.nonce, ?_, ?_, ?_⟩
      · rw [hac]
        simp [context_stamped_event, nonce_stamped_event, htl₃n]
      · left
        unfold tl_nonce_at
        rw [htl']
        rfl
      · unfold tl_nonce_at
        rw [hmap', mapGet_insert_self]
        simp [TimelineMeta.increment_nonce, htl₃n]
  · -- first start record: excluded
    exact absurd hsec hec
  · -- ordinary record: one event on the active context
    have hmap' : m'.contexts_to_timelines =
        mapInsert (mapInsert m.contexts_to_timelines c
          { tl with requires_synthetic_interaction_event := false }) c
          ({ tl with requires_synthetic_interaction_event := false
           }).increment_nonce := by
      rw [hm']
      rfl
    have htl' : mapGet m.contexts_to_timelines c = some tl := htl
    left
    refine ⟨c, tl.nonce, ?_, ?_, ?_⟩
    · rw [hac]
      simp [context_stamped_event, nonce_stamped_event]
    · left
      unfold tl_nonce_at
      rw [htl']
      rfl
    · unfold tl_nonce_at
      rw [hmap', mapGet_insert_self]
      simp [TimelineMeta.increment_nonce]

/-- Running `[trace_start, isr_enter, isr_exit, isr_enter, isr_exit, foo]`
on a fresh rtic1 manager: the real (unmarked) events on the `init`
timeline are index 0 with nonce 1 and index 6 with nonce 3 — the synthetic
event (index 3, nonce 2) sits between them — so two successive real events
on a timeline differ by 2, refuting the claim. -/
theorem c4_counterexample :
    ((ContextManager.new rtic1Cfg []).run_records
      [trace_start_rec 1, isr_enter_rec 2, isr_exit_rec 3, isr_enter_rec 4,
       isr_exit_rec 5, named_event_rec "foo" 6]).toOption.map
      (fun p => p.1.map (fun e => (e.context, e.record.internal_nonce,
        mapGet e.record.attributes "event.internal.defmt.synthetic"))) =
    some [(context_id "init", some 1, none),
          (context_id "ISR", some 1, none),
          (context_id "ISR", some 2, none),
          (context_id "init", some 2, some (AttrVal.bool true)),
          (context_id "ISR", some 3, none),
          (context_id "ISR", some 4, none),
          (context_id "init", some 3, none)] := by
  decide

/-- The result of an ordinary record on the post-start manager. -/
def c4res : ActiveContext × ContextManager :=
  match c8m.process_record (named_event_rec "foo" 2) with
  | Except.ok p => p
  | Except.error _ => (⟨[]⟩, c8m)

set_option maxRecDepth 4000 in
theorem c4_witness :
    c8m.cfg.rtos_mode = RtosMode.rtic1 ∧
    ¬ (satAdd64 c8m.event_counter = 1 ∧ c8m.integration_version = none) ∧
    satAdd64 c8m.event_counter ≠ 1 ∧
    (c8m.process_record (named_event_rec "foo" 2)).toOption = some (c4res.1, c4res.2) ∧
    ((∃ c n, c4res.1.events.map (fun e => (e.context, e.record.internal_nonce)) =
        [(c, some (wrapI64 (n + 1)))] ∧
      (tl_nonce_at c8m c = some n ∨ (tl_nonce_at c8m c = none ∧ n = 0)) ∧
      tl_nonce_at c4res.2 c = some (wrapI64 (n + 1))) ∨
     (∃ c c₂ n n₂, c ≠ c₂ ∧
       c4res.1.events.map (fun e => (e.context, e.record.internal_nonce)) =
         [(c, some (wrapI64 (n + 1))), (c₂, some (wrapI64 (n₂ + 1)))] ∧
       tl_nonce_at c8m c = some n ∧
       (tl_nonce_at c8m c₂ = some n₂ ∨ (tl_nonce_at c8m c₂ = none ∧ n₂ = 0)) ∧
       tl_nonce_at c4res.2 c = some (wrapI64 (n + 1)) ∧
       tl_nonce_at c4res.2 c₂ = some (wrapI64 (n₂ + 1))) ∨
     (∃ c n, c4res.1.events.map (fun e => (e.context, e.record.internal_nonce)) =
         [(c, some (wrapI64 (n + 1))), (c, some (wrapI64 (wrapI64 (n + 1) + 1)))] ∧
       tl_nonce_at c8m c = some n ∧
       tl_nonce_at c4res.2 c = some (wrapI64 (wrapI64 (n + 1) + 1)))) := by
  refine ⟨by decide, by decide, by decide, by decide, ?_⟩
  exact c4_nonce_succession c8m (named_event_rec "foo" 2) c4res.1 c4res.2
    (by decide) (by decide) (by decide) (except_ok_of_toOption (by decide))

/-! ## C2: global ordering across a run -/

theorem go_stamped_event (ev : EventRecord)
    (p : Option ContextSwitchInteraction) (dis : Bool) (n : Int) (c go : Nat) :
    (stamped_event ev p dis n c go).global_ordering = go := by
  cases p <;> rfl

theorem go_syn_event (ev : EventRecord)
    (p : Option ContextSwitchInteraction) (dis : Bool) (n : Int) (c go : Nat) :
    (syn_event ev p dis n c go).global_ordering = go := by
  cases p <;> rfl

/-- One `process_record` call either emits a single event at the bumped
global ordering, or a synthetic plus a real event at two consecutive bumped
orderings; the stored ordering ends at the last emitted one. -/
theorem step_order (m : ContextManager) (ev : EventRecord) (ac : ActiveContext)
    (m' : ContextManager) (h : m.process_record ev = Except.ok (ac, m')) :
    (ac.events.map ContextEvent.global_ordering = [satAdd128 m.global_ordering] ∧
      m'.global_ordering = satAdd128 m.global_ordering) ∨
    (ac.events.map ContextEvent.global_ordering =
      [satAdd128 m.global_ordering, satAdd128 (satAdd128 m.global_ordering)] ∧
      m'.global_ordering = satAdd128 (satAdd128 m.global_ordering)) := by
  by_cases hmode : m.cfg.rtos_mode = RtosMode.rtic1
  · rw [process_record_rtic1_any m ev hmode] at h
    have hmain : (m.pre_process ev).process_rtic1_main (m.counted_record ev) =
        Except.ok (ac, m') →
        (ac.events.map ContextEvent.global_ordering = [satAdd128 m.global_ordering] ∧
          m'.global_ordering = satAdd128 m.global_ordering) ∨
        (ac.events.map ContextEvent.global_ordering =
          [satAdd128 m.global_ordering, satAdd128 (satAdd128 m.global_ordering)] ∧
          m'.global_ordering = satAdd128 (satAdd128 m.global_ordering)) := by
      intro hq
      rcases inv_main _ _ _ _ hq with
        ⟨cn, hen, htic, c, tl, hstack, htl, hcase⟩ |
        ⟨hen, htic, tl, htl, hac, hm'⟩ |
        ⟨hex, c, hstack, hcase⟩ |
        ⟨hsn, hsec, cn, hti, v, tl, hv, htl, hac, hm'⟩ |
        ⟨hno, hnx, _, c, tl, hstack, htl, hac, hm'⟩
      · rcases hcase with ⟨hflag, tl₂, htl₂, hac, hm'⟩ | ⟨hflag, tl₂, htl₂, hac, hm'⟩
        · left
          constructor
          · rw [hac]
            simp [go_stamped_event, ContextManager.pre_process]
          · rw [hm']
            simp [alloc_context_global_ordering, ContextManager.pre_process]
        · right
          constructor
          · rw [hac]
            simp [go_stamped_event, go_syn_event, ContextManager.pre_process]
          · rw [hm']
            simp [ContextManager.pre_process]
      · left
        constructor
        · rw [hac]
          simp [go_stamped_event, ContextManager.pre_process]
        · rw [hm']
          simp [alloc_context_global_ordering, ContextManager.pre_process]
      · rcases hcase with ⟨hlen, tl, htl, hac, hm'⟩ |
          ⟨hlen, c₂, tl, tl₂, tl₃, htl, hstack₂, htl₂, htl₃, hac, hm'⟩
        · left
          constructor
          · rw [hac]
            simp [go_stamped_event, ContextManager.pre_process]
          · rw [hm']
            simp [ContextManager.pre_process]
        · left
          constructor
          · rw [hac]
            simp [go_stamped_event, ContextManager.pre_process]
          · rw [hm']
            simp [ContextManager.pre_process]
      · left
        constructor
        · rw [hac]
          simp [go_stamped_event, ContextManager.pre_process]
        · rw [hm']
          simp [alloc_context_global_ordering, ContextManager.pre_process]
      · left
        constructor
        · rw [hac]
          simp [go_stamped_event, ContextManager.pre_process]
        · rw [hm']
          simp [ContextManager.pre_process]
    by_cases hgate : (m.pre_process ev).event_counter = 1 ∧
        (m.pre_process ev).integration_version = none
    · by_cases hvalid : (m.counted_record ev).event_name = some "AUXON_TRACE_START" ∧
          (m.counted_record ev).task_name.isSome ∧
          (m.counted_record ev).integration_version.isSome
      · rw [process_rtic1_gate_valid _ _ hgate hvalid] at h
        exact hmain h
      · rw [process_rtic1_fallback_step _ _ hgate hvalid,
          Except.ok.injEq, Prod.mk.injEq] at h
        left
        constructor
        · rw [← h.1]
          simp [ContextManager.pre_process]
        · rw [← h.2]
          simp [alloc_context_global_ordering, ContextManager.pre_process]
    · rw [process_rtic1_gate_steady _ _ hgate] at h
      exact hmain h
  · rw [process_record_not_rtic1_eq m ev hmode] at h
    by_cases hec : (m.pre_process ev).event_counter = 1
    · rw [process_vanilla_first _ _ hec] at h
      obtain ⟨c, tl, hstack, htl, hac, hm'⟩ := inv_vanilla_emit _ _ _ _ h
      left
      constructor
      · rw [hac]
        simp [alloc_context_global_ordering, ContextManager.pre_process]
      · rw [hm']
        simp [alloc_context_global_ordering, ContextManager.pre_process]
    · rw [process_vanilla_steady _ _ hec] at h
      obtain ⟨c, tl, hstack, htl, hac, hm'⟩ := inv_vanilla_emit _ _ _ _ h
      left
      constructor
      · rw [hac]
        simp [ContextManager.pre_process]
      · rw [hm']
        simp [ContextManager.pre_process]

theorem satAdd128_eq_of_le {x : Nat} (h : x + 1 ≤ u128Max) : satAdd128 x = x + 1 := by
  unfold satAdd128
  omega

/-- Orderings across a whole run, while the 128-bit counter cannot
saturate: the emitted orderings are strictly increasing, sit strictly
between the initial and final stored ordering, and the stored ordering
grows by at most two per record. -/
theorem run_order (rs : List EventRecord) :
    ∀ (m : ContextManager) (evs : List ContextEvent) (m' : ContextManager),
      m.run_records rs = Except.ok (evs, m') →
      m.global_ordering + 2 * rs.length ≤ u128Max →
      List.Chain' (· < ·) (evs.map ContextEvent.global_ordering) ∧
      (∀ e ∈ evs, m.global_ordering < e.global_ordering ∧
        e.global_ordering ≤ m'.global_ordering) ∧
      m.global_ordering ≤ m'.global_ordering ∧
      m'.global_ordering ≤ m.global_ordering + 2 * rs.length := by
  induction rs with
  | nil =>
    intro m evs m' h hb
    unfold ContextManager.run_records at h
    rw [Except.ok.injEq, Prod.mk.injEq] at h
    rw [← h.1, ← h.2]
    simp
  | cons r rs ih =>
    intro m evs m' h hb
    unfold ContextManager.run_records at h
    split at h
    · exact absurd h (by simp)
    · rename_i ac m₁ hp
      split at h
      · exact absurd h (by simp)
      · rename_i q evs₁ m₂ hrun
        rw [Except.ok.injEq, Prod.mk.injEq] at h
        obtain ⟨hevs, hm₂⟩ := h
        subst hevs hm₂
        have hb₂ : m.global_ordering + 2 ≤ u128Max := by
          simp [List.length_cons] at hb
          omega
        have hs1 : satAdd128 m.global_ordering = m.global_ordering + 1 :=
          satAdd128_eq_of_le (by omega)
        have hs2 : satAdd128 (satAdd128 m.global_ordering) =
            m.global_ordering + 2 := by
          rw [hs1]
          rw [satAdd128_eq_of_le (by omega)]
        rcases step_order m r ac m₁ hp with ⟨hev, hgo⟩ | ⟨hev, hgo⟩
        · have hbih : m₁.global_ordering + 2 * rs.length ≤ u128Max := by
            rw [hgo, hs1]
            simp [List.length_cons] at hb
            omega
          obtain ⟨ihch, ihmem, ihlo, ihhi⟩ := ih m₁ evs₁ m₂ hrun hbih
          refine ⟨?_, ?_, ?_, ?_⟩
          · rw [List.map_append, hev]
            rw [List.chain'_append]
            refine ⟨by simp, ihch, ?_⟩
            intro x hx y hy
            simp at hx
            subst hx
            cases hevs₁ : evs₁ with
            | nil => rw [hevs₁] at hy; simp at hy
            | cons e t =>
              rw [hevs₁] at hy
              simp at hy
              subst hy
              have := (ihmem e (by rw [hevs₁]; exact List.mem_cons_self e t)).1
              rw [hgo] at this
              exact this
          · intro e he
            rcases List.mem_append.mp he with hel | her
            · have : e.global_ordering = satAdd128 m.global_ordering := by
                have := List.mem_map_of_mem ContextEvent.global_ordering hel
                rw [hev] at this
                simpa using this
              rw [this, hs1]
              constructor
              · omega
              · have : m₁.global_ordering ≤ m₂.global_ordering := ihlo
                rw [hgo, hs1] at this
                omega
            · obtain ⟨h₁, h₂⟩ := ihmem e her
              rw [hgo, hs1] at h₁
              exact ⟨by omega, h₂⟩
          · rw [hgo, hs1] at ihlo
            omega
          · simp [List.length_cons]
            rw [hgo, hs1] at ihhi
            omega
        · have hbih : m₁.global_ordering + 2 * rs.length ≤ u128Max := by
            rw [hgo, hs2]
            simp [List.length_cons] at hb
            omega
          obtain ⟨ihch, ihmem, ihlo, ihhi⟩ := ih m₁ evs₁ m₂ hrun hbih
          refine ⟨?_, ?_, ?_, ?_⟩
          · rw [List.map_append, hev]
            rw [List.chain'_append]
            refine ⟨?_, ihch, ?_⟩
            · rw [hs2, hs1]
              exact List.chain'_pair.mpr (by omega)
            · intro x hx y hy
              simp at hx
              subst hx
              cases hevs₁ : evs₁ with
              | nil => rw [hevs₁] at hy; simp at hy
              | cons e t =>
                rw [hevs₁] at hy
                simp at hy
                subst hy
                have := (ihmem e (by rw [hevs₁]; exact List.mem_cons_self e t)).1
                rw [hgo] at this
                exact this
          · intro e he
            rcases List.mem_append.mp he with hel | her
            · have hein : e.global_ordering ∈ [satAdd128 m.global_ordering,
                  satAdd128 (satAdd128 m.global_ordering)] := by
                have := List.mem_map_of_mem ContextEvent.global_ordering hel
                rw [hev] at this
                exact this
              have hlo₂ : m₁.global_ordering ≤ m₂.global_ordering := ihlo
              rw [hgo, hs2] at hlo₂
              simp at hein
              rcases hein with hx | hx <;> rw [hx]
              · rw [hs1]
                exact ⟨by omega, by omega⟩
              · rw [hs2]
                exact ⟨by omega, by omega⟩
            · obtain ⟨h₁, h₂⟩ := ihmem e her
              rw [hgo, hs2] at h₁
              exact ⟨by omega, h₂⟩
          · rw [hgo, hs2] at ihlo
            omega
          · simp [List.length_cons]
            rw [hgo, hs2] at ihhi
            omega

/-- C2 (amended): for every run from a fresh manager in which the number of
records keeps the saturating 128-bit ordering counter away from its
maximum, the emitted `ContextEvent`s carry strictly increasing
`global_ordering` values. Without that bound the property fails: the
counter saturates at `u128::MAX` and consecutive events then share it. -/
theorem c2_global_ordering :
    ∀ (cfg : PluginConfig) (common : EventAttributes) (rs : List EventRecord)
      (evs : List ContextEvent) (m' : ContextManager),
      (ContextManager.new cfg common).run_records rs = Except.ok (evs, m') →
      2 * rs.length ≤ u128Max →
      List.Chain' (· < ·) (evs.map ContextEvent.global_ordering) := by
  intro cfg common rs evs m' h hb
  exact (run_order rs (ContextManager.new cfg common) evs m' h
    (by show 0 + 2 * rs.length ≤ u128Max; omega)).1

/-- Vanilla-mode configuration for the saturation run. -/
def c2cfg : PluginConfig :=
  { rtos_mode := RtosMode.none, init_task_name := none, disable_interactions := false }

/-- State after the first empty record on a fresh vanilla manager. -/
def c2m1 : ContextManager :=
  match (ContextManager.new c2cfg []).process_record (EventRecord.new []) with
  | Except.ok p => p.2
  | Except.error _ => ContextManager.new c2cfg []

/-- The `main` timeline of that state. -/
def c2tl0 : TimelineMeta :=
  match mapGet c2m1.contexts_to_timelines (context_id "main") with
  | some tl => tl
  | none => TimelineMeta.new "main" 0 0

/-- The event emitted for the `k`-th (0-based) empty record of the
saturation run. -/
def c2ev (k : Nat) : ContextEvent :=
  ⟨context_id "main", min (k + 1) u128Max,
   ((EventRecord.new []).insert_attr (EventRecord.internal_attr_key "event_counter")
     (attrValOfU64 (min (k + 1) u64Max))).add_internal_nonce (wrapI64 ((k : Int) + 1)),
   false⟩

/-- The manager state after `k ≥ 1` empty records of the saturation run. -/
def c2state (k : Nat) : ContextManager :=
  { c2m1 with
    global_ordering := min k u128Max,
    event_counter := min k u64Max,
    contexts_to_timelines :=
      [(context_id "main", { c2tl0 with nonce := wrapI64 (k : Int) })] }

theorem min_succ_min (k M : Nat) : min (min k M + 1) M = min (k + 1) M := by
  omega

theorem wrapI64_succ (x : Int) : wrapI64 (wrapI64 x + 1) = wrapI64 (x + 1) := by
  unfold wrapI64
  omega

theorem c2_first_step :
    (ContextManager.new c2cfg []).process_record (EventRecord.new []) =
      Except.ok (⟨[c2ev 0]⟩, c2state 1) :=
  except_ok_of_toOption (by decide)

theorem c2_step (k : Nat) (hk : 1 ≤ k) :
    (c2state k).process_record (EventRecord.new []) =
      Except.ok (⟨[c2ev k]⟩, c2state (k + 1)) := by
  have h64 : 2 ≤ u64Max := by decide
  rw [process_record_vanilla_step (c2state k) (EventRecord.new [])
    (context_id "main") ({ c2tl0 with nonce := wrapI64 (k : Int) }) rfl
    (by show min (min k u64Max + 1) u64Max ≠ 1; omega) rfl rfl]
  rw [Except.ok.injEq, Prod.mk.injEq]
  constructor
  · show ActiveContext.mk _ = ActiveContext.mk _
    rw [ActiveContext.mk.injEq]
    show [ContextEvent.mk _ _ _ _] = [ContextEvent.mk _ _ _ _]
    rw [List.cons.injEq]
    refine ⟨?_, rfl⟩
    rw [ContextEvent.mk.injEq]
    refine ⟨rfl, ?_, ?_, rfl⟩
    · show satAdd128 (min k u128Max) = min (k + 1) u128Max
      unfold satAdd128
      exact min_succ_min k u128Max
    · show EventRecord.add_internal_nonce _ (wrapI64 (wrapI64 (k : Int) + 1)) = _
      rw [wrapI64_succ, show satAdd64 (c2state k).event_counter =
        min (k + 1) u64Max from by
          show satAdd64 (min k u64Max) = _
          unfold satAdd64
          exact min_succ_min k u64Max]
  · show ContextManager.mk _ _ _ _ _ _ _ _ _ _ = ContextManager.mk _ _ _ _ _ _ _ _ _ _
    rw [ContextManager.mk.injEq]
    refine ⟨rfl, rfl, ?_, ?_, ?_, rfl, rfl, rfl, ?_, rfl⟩
    · show satAdd128 (min k u128Max) = min (k + 1) u128Max
      unfold satAdd128
      exact min_succ_min k u128Max
    · show satAdd64 (min k u64Max) = min (k + 1) u64Max
      unfold satAdd64
      exact min_succ_min k u64Max
    · show ContextManager.nextLastTimestamp c2m1.last_timestamp
        (((EventRecord.new []).insert_attr (EventRecord.internal_attr_key
          "event_counter") (attrValOfU64 (satAdd64 (min k u64Max)))).timestamp_raw) =
        c2m1.last_timestamp
      rw [timestamp_raw_insert_attr _ _ _ (by rw [ik_event_counter]; decide)]
      rfl
    · show mapInsert [(context_id "main", _)] (context_id "main") _ = _
      unfold mapInsert
      rw [if_pos rfl, List.cons.injEq]
      refine ⟨?_, rfl⟩
      rw [Prod.mk.injEq]
      refine ⟨rfl, ?_⟩
      show TimelineMeta.increment_nonce _ = _
      unfold TimelineMeta.increment_nonce
      rw [TimelineMeta.mk.injEq]
      exact ⟨rfl, rfl, rfl, wrapI64_succ (k : Int), rfl⟩

theorem run_records_cons (m : ContextManager) (r : EventRecord)
    (rs : List EventRecord) (ac : ActiveContext) (m₁ : ContextManager)
    (evs : List ContextEvent) (m₂ : ContextManager)
    (h₁ : m.process_record r = Except.ok (ac, m₁))
    (h₂ : m₁.run_records rs = Except.ok (evs, m₂)) :
    m.run_records (r :: rs) = Except.ok (ac.events ++ evs, m₂) := by
  unfold ContextManager.run_records
  rw [h₁]
  show (match m₁.run_records rs with
    | Except.error e => Except.error e
    | Except.ok (evs', m₂') => Except.ok (ac.events ++ evs', m₂')) = _
  rw [h₂]

theorem c2_run (n : Nat) : ∀ k, 1 ≤ k →
    (c2state k).run_records (List.replicate n (EventRecord.new [])) =
      Except.ok ((List.range n).map (fun i => c2ev (k + i)), c2state (k + n)) := by
  induction n with
  | zero =>
    intro k hk
    simp [ContextManager.run_records]
  | succ n ihn =>
    intro k hk
    rw [List.replicate_succ]
    rw [run_records_cons _ _ _ _ _ _ _ (c2_step k hk) (ihn (k + 1) (by omega))]
    rw [Except.ok.injEq, Prod.mk.injEq]
    constructor
    · rw [List.range_succ_eq_map]
      simp only [List.map_cons, List.map_map, List.singleton_append]
      rw [List.cons.injEq]
      refine ⟨by rw [Nat.add_zero], ?_⟩
      exact List.map_congr_left (fun i _ => by
        show c2ev (k + 1 + i) = c2ev (k + (i + 1))
        rw [show k + 1 + i = k + (i + 1) from by omega])
    · rw [show k + 1 + n = k + (n + 1) from by omega]

theorem c2_full_run_general (n : Nat) (hn : 1 ≤ n) :
    (ContextManager.new c2cfg []).run_records
        (List.replicate n (EventRecord.new [])) =
      Except.ok ((List.range n).map c2ev, c2state n) := by
  obtain ⟨p, rfl⟩ : ∃ p, n = p + 1 := ⟨n - 1, by omega⟩
  rw [List.replicate_succ]
  rw [run_records_cons _ _ _ _ _ _ _ c2_first_step (c2_run p 1 (le_refl 1))]
  rw [Except.ok.injEq, Prod.mk.injEq]
  constructor
  · rw [List.range_succ_eq_map, List.map_cons, List.map_map,
      List.singleton_append, List.cons.injEq]
    refine ⟨rfl, ?_⟩
    exact List.map_congr_left (fun i _ => by
      show c2ev (1 + i) = c2ev (i + 1)
      rw [Nat.add_comm])
  · rw [Nat.add_comm]

theorem c2_chain_fails (n : Nat) (hn : u128Max + 1 ≤ n) :
    ¬ List.Chain' (· < ·)
      (((List.range n).map c2ev).map ContextEvent.global_ordering) := by
  intro hch
  have hM : 1 ≤ u128Max := by
    show 1 ≤ 2 ^ 128 - 1
    have h : (2:Nat) ^ 2 ≤ 2 ^ 128 := Nat.pow_le_pow_right (by omega) (by omega)
    omega
  have hlt : u128Max - 1 <
      ((((List.range n).map c2ev).map ContextEvent.global_ordering).length) - 1 := by
    rw [List.length_map, List.length_map, List.length_range]
    omega
  have hpair := List.chain'_iff_get.mp hch (u128Max - 1) hlt
  rw [List.get_map, List.get_map, List.get_map, List.get_map,
    List.get_range, List.get_range] at hpair
  have h₁ : (c2ev (u128Max - 1)).global_ordering = u128Max := by
    show min (u128Max - 1 + 1) u128Max = u128Max
    omega
  have h₂ : (c2ev (u128Max - 1 + 1)).global_ordering = u128Max := by
    show min (u128Max - 1 + 1 + 1) u128Max = u128Max
    omega
  rw [h₁, h₂] at hpair
  exact absurd hpair (by omega)

theorem c2_full_run :
    (ContextManager.new c2cfg []).run_records
        (List.replicate (2 ^ 128) (EventRecord.new [])) =
      Except.ok ((List.range (2 ^ 128)).map c2ev, c2state (2 ^ 128)) :=
  c2_full_run_general (2 ^ 128) (Nat.one_le_pow _ _ (by omega))

/-- Feeding `2^128` records to a fresh manager saturates the `u128` global
ordering counter: the run succeeds, but the last two emitted events both
carry `u128::MAX`, so the orderings are not strictly increasing. -/
theorem c2_counterexample :
    (ContextManager.new c2cfg []).run_records
        (List.replicate (2 ^ 128) (EventRecord.new [])) =
      Except.ok ((List.range (2 ^ 128)).map c2ev, c2state (2 ^ 128)) ∧
    ¬ List.Chain' (· < ·)
      (((List.range (2 ^ 128)).map c2ev).map ContextEvent.global_ordering) :=
  ⟨c2_full_run, c2_chain_fails (2 ^ 128) (by
    show 2 ^ 128 - 1 + 1 ≤ 2 ^ 128
    have h : (2:Nat) ^ 2 ≤ 2 ^ 128 := Nat.pow_le_pow_right (by omega) (by omega)
    omega)⟩

/-- A concrete two-record rtic1 run for the strict-increase theorem. -/
def c2wres : List ContextEvent × ContextManager :=
  match (ContextManager.new rtic1Cfg []).run_records
      [trace_start_rec 1, isr_enter_rec 2] with
  | Except.ok p => p
  | Except.error _ => ([], ContextManager.new rtic1Cfg [])

theorem c2_witness :
    ((ContextManager.new rtic1Cfg []).run_records
      [trace_start_rec 1, isr_enter_rec 2]).toOption = some (c2wres.1, c2wres.2) ∧
    2 * ([trace_start_rec 1, isr_enter_rec 2] : List EventRecord).length ≤ u128Max ∧
    List.Chain' (· < ·) (c2wres.1.map ContextEvent.global_ordering) := by
  have hb : 2 * ([trace_start_rec 1, isr_enter_rec 2] : List EventRecord).length ≤
      u128Max := by
    have h : (2:Nat) ^ 2 ≤ 2 ^ 128 := Nat.pow_le_pow_right (by omega) (by omega)
    show 2 * 2 ≤ u128Max
    unfold u128Max
    omega
  refine ⟨by decide, hb, ?_⟩
  exact c2_global_ordering rtic1Cfg [] [trace_start_rec 1, isr_enter_rec 2]
    c2wres.1 c2wres.2 (except_ok_of_toOption (by decide)) hb
